import Mathlib

/-! Reachability checks, safety callbacks and the control session of
`RobotInterface`.

A shallow embedding of `robot_interface.cpp`.  A `double` is a rational number:
the checks only subtract, multiply, add, take absolute values and compare
against decimal constants, and the development reads those operations exactly
(rounding, infinities and NaN are outside the model).  The one `float` of the
source, the bound `thresh_z` of `computeIK`, is the rational that the
narrowing to 24 bits gives (`toFloat`).  Member variables of the
C++ object are the fields of the record `RobotInterface`; a member function
that writes to the object returns the new record.  Logging calls (`ROS_INFO`,
`ROS_ERROR`, ...) have no effect on the object and are left out.  What a
function takes from outside the object (the clock, the solver, the particle's
thread, library functions on quaternions) is an argument, gathered in `Env`;
the threads are read as one sequence of calls.
-/

namespace HRC

/-! ## Data model -/

/-- Message type `geometry_msgs::Point`. -/
structure Point where
  x : ℚ := 0
  y : ℚ := 0
  z : ℚ := 0
  deriving DecidableEq, Repr

/-- Message type `geometry_msgs::Quaternion`; the default message is all zeros. -/
structure Quaternion where
  x : ℚ := 0
  y : ℚ := 0
  z : ℚ := 0
  w : ℚ := 0
  deriving DecidableEq, Repr

/-- Message type `geometry_msgs::Pose`. -/
structure Pose where
  position : Point := {}
  orientation : Quaternion := {}
  deriving DecidableEq, Repr

/-- Message type `sensor_msgs::JointState`, as far as the interface reads it:
parallel arrays of joint names and joint positions. -/
structure JointState where
  name : List String := []
  position : List ℚ := []
  deriving DecidableEq, Repr

/-- Message type `intera_core_msgs::JointCommand`, as far as the interface
reads it: parallel arrays of joint names and desired positions. -/
structure JointCommand where
  mode : Int := 0
  names : List String := []
  position : List ℚ := []
  deriving DecidableEq, Repr

/-- Message type `human_robot_collaboration_msgs::GoToPose`, the request of the
continuous-control interface. -/
structure GoToPose where
  type : String := ""
  position : Point := {}
  orientation : Quaternion := {}
  increment : ℚ := 0
  ctrl_mode : Int := 0
  check_mode : String := ""
  tracking_mode : String := ""
  deriving DecidableEq, Repr

/-- Constants the code takes from declarations that are not among the sources:
the control-mode codes of the `GoToPose` message and the speed macros of
`utils.h`.  They are parameters of the functions that use them. -/
structure Consts where
  POSITION_MODE : Int
  VELOCITY_MODE : Int
  RAW_POSITION_MODE : Int
  ARM_SPEED : ℚ
  ARM_ROT_SPEED : ℚ
  deriving DecidableEq, Repr

/-- What `computeIK` reads of one call of the solver: the return value of
`perform_ik`, whether `response.result_type[0]` is set, and the joint
positions `response.joints[0].position`. -/
structure IKResponse where
  result : Bool
  valid : Bool
  joints : List ℚ := []
  deriving DecidableEq, Repr

/-- Three doubles: the message type `geometry_msgs::Vector3`, and an
`Eigen::Vector3d` with its entries 0, 1, 2 named `x`, `y`, `z`. -/
structure Vector3 where
  x : ℚ := 0
  y : ℚ := 0
  z : ℚ := 0
  deriving DecidableEq, Repr

/-- Message type `geometry_msgs::Wrench`. -/
structure Wrench where
  force : Vector3 := {}
  torque : Vector3 := {}
  deriving DecidableEq, Repr

/-- The absolute value of a quotient of two doubles: a number when the divisor
is not zero, infinite when only the divisor is zero, not a number when both
are zero. -/
inductive AbsQuot where
  | num (q : ℚ)
  | inf
  | nan
  deriving DecidableEq, Repr

/-- The constants of the force filter, macros of `utils.h` (not among the
sources): the smoothing constant and the warm-up threshold. -/
structure FilterConsts where
  FORCE_ALPHA : ℚ
  FILTER_EPSILON : ℚ
  deriving DecidableEq, Repr

/-- Message type `intera_core_msgs::DigitalIOState`: the state of one button. -/
structure DigitalIOState where
  state : Int
  deriving DecidableEq, Repr

/-- Message type `sensor_msgs::Range`, as far as the interface reads it: the
reading and the limits of the sensor. -/
structure Range where
  range : ℚ := 0
  min_range : ℚ := 0
  max_range : ℚ := 0
  deriving DecidableEq, Repr

/-- Modelled from the spec: the state constants `START`, `WORKING`, ... are
macros of a header that is not among the sources (`setState` takes them as
`int`).  The spec's data model gives them as the distinct values of one
enumeration, which is what this type records. -/
inductive ArmState where
  | START
  | WORKING
  | DONE
  | ERROR
  | KILLED
  | STOPPED
  | CTRL_RUNNING
  | CTRL_DONE
  | CTRL_FAIL
  | PICK_UP
  deriving DecidableEq, Repr

export ArmState (START WORKING DONE ERROR KILLED STOPPED CTRL_RUNNING CTRL_DONE
  CTRL_FAIL PICK_UP)

/-- The trajectory particle owned by the interface (`LinearPointParticle`):
the point it currently stands at and the segment it travels. -/
structure LinearPointParticle where
  curr_pt : Point := {}
  start_pt : Point := {}
  des_pt : Point := {}
  speed : ℚ := 0
  is_running : Bool := false
  is_set : Bool := false
  deriving DecidableEq, Repr

/-- The member variables of `RobotInterface` that the modelled functions read
or write.  Defaults are the values the constructor's initialiser list gives
(`ctrl_mode`, which the constructor sets to the constant `POSITION_MODE`, is
set by `construct`).
`particle` is the `unique_ptr` (empty after `reset()`), `rviz_running` the
status of `rviz_pub`, and `published` the messages sent on `state_pub`, oldest
first; a message carries `string(getState())`, recorded here by the state the
string is made from.  `joint_cmds` are the messages sent on `joint_cmd_pub`
and `ik_requests` the poses handed to the solver's `perform_ik`, oldest
first.  Times are seconds.  The three force thresholds are read from the
parameter server and `time_filt_last_updated` starts at the time of
construction; their defaults here are placeholders. -/
structure RobotInterface where
  limb : String := "left"
  state : ArmState := START
  print_level : Int := 0
  curr_pos : Point := {}
  curr_ori : Quaternion := {}
  curr_jnts : JointState := {}
  is_ctrl_running : Bool := false
  ctrl_type : String := "pose"
  particle : Option LinearPointParticle := none
  rviz_running : Bool := false
  published : List ArmState := []
  is_closing : Bool := false
  is_experimental : Bool := false
  ctrl_track_mode : Bool := false
  ctrl_mode : Int := 0
  ctrl_check_mode : String := "strict"
  pose_des : Pose := {}
  pose_start : Pose := {}
  pose_curr : Pose := {}
  time_start : ℚ := 0
  joint_cmds : List JointCommand := []
  ik_requests : List Pose := []
  ir_ok : Bool := false
  curr_range : ℚ := 0
  curr_min_range : ℚ := 0
  curr_max_range : ℚ := 0
  curr_wrench : Wrench := {}
  filt_force : Vector3 := {}
  filt_change : Vector3 := {}
  time_filt_last_updated : ℚ := 0
  force_thres : ℚ := 0
  filt_variance : ℚ := 0
  rel_force_thres : ℚ := 0
  deriving DecidableEq, Repr

/-- What one call of a callback or one control tick takes from outside the
object: the clock (`now` is `ros::Time::now()` at the call, `elapsed k` the
seconds since `computeIK` started as read at the end of its iteration `k`),
`ros::ok()`, the outcome of the particle's `isSet()` and `start()`, the
functions `angleShortestPath` and `slerp` (followed by `normalize`) of
`tf::Quaternion`, and the solver: `perform_ik k pose seed` is the response to
the call of iteration `k`.  `ik_fuel` bounds the iterations of the loop of
`computeIK` that the model follows. -/
structure Env where
  now : ℚ
  ros_ok : Bool
  particle_set : Bool
  particle_started : Bool
  angleShortestPath : Quaternion → Quaternion → ℚ
  slerp : Quaternion → Quaternion → ℚ → Quaternion
  perform_ik : Nat → Pose → JointState → IKResponse
  elapsed : Nat → ℚ
  ik_fuel : Nat

/-- The readings that sensor callbacks and the particle's own thread store
between two control ticks: the end-effector position and orientation, and the
point the particle has advanced to. -/
structure Readings where
  pos : Point
  ori : Quaternion
  particle_pt : Point

namespace RobotInterface

/-- Getter `getPos()`. -/
def getPos (s : RobotInterface) : Point := s.curr_pos

/-- Getter `getOri()`. -/
def getOri (s : RobotInterface) : Quaternion := s.curr_ori

/-- Getter `getState()`. -/
def getState (s : RobotInterface) : ArmState := s.state

/-- Getter `getCtrlType()`. -/
def getCtrlType (s : RobotInterface) : String := s.ctrl_type

/-- Getter `getLimb()`. -/
def getLimb (s : RobotInterface) : String := s.limb

/-- Getter `getJointStates()`: a copy of the cached joint state. -/
def getJointStates (s : RobotInterface) : JointState := s.curr_jnts

/-- Getter `isCtrlRunning()`. -/
def isCtrlRunning (s : RobotInterface) : Bool := s.is_ctrl_running

/-! ## Reachability checks -/

/-- Function `isPositionReached(px, py, pz, mode)`: three early returns per
mode, `false` for a mode that is neither `strict` nor `loose`. -/
def isPositionReached (s : RobotInterface) (px py pz : ℚ) (mode : String) : Bool :=
  if mode = "strict" then
    if |s.getPos.x - px| > 3 / 1000 then false
    else if |s.getPos.y - py| > 3 / 1000 then false
    else if |s.getPos.z - pz| > 3 / 1000 then false
    else true
  else if mode = "loose" then
    if |s.getPos.x - px| > 10 / 1000 then false
    else if |s.getPos.y - py| > 10 / 1000 then false
    else if |s.getPos.z - pz| > 10 / 1000 then false
    else true
  else false

/-- Function `tf::Quaternion::dot`: the four-component dot product. -/
def dot (a b : Quaternion) : ℚ := a.x * b.x + a.y * b.y + a.z * b.z + a.w * b.w

/-- Function `isOrientationReached(ox, oy, oz, ow, mode)`. -/
def isOrientationReached (s : RobotInterface) (ox oy oz ow : ℚ) (mode : String) : Bool :=
  let des : Quaternion := { x := ox, y := oy, z := oz, w := ow }
  let cur : Quaternion := s.getOri
  if mode = "strict" then
    if |dot des cur| < 98 / 100 then false else true
  else if mode = "loose" then
    if |dot des cur| < 95 / 100 then false else true
  else false

/-- Function `isPoseReached(px, py, pz, ox, oy, oz, ow, mode, type)`. -/
def isPoseReached (s : RobotInterface) (px py pz ox oy oz ow : ℚ)
    (mode type : String) : Bool :=
  if (type = "pose" ∨ type = "position") ∧ s.isPositionReached px py pz mode = false then
    false
  else if (type = "pose" ∨ type = "orientation")
      ∧ s.isOrientationReached ox oy oz ow mode = false then
    false
  else if type ≠ "pose" ∧ type ≠ "position" ∧ type ≠ "orientation" then
    false
  else true

/-- Overload `isPoseReached(geometry_msgs::Pose p, mode, type)`, through the
point-and-quaternion overload. -/
def isPoseReached_pose (s : RobotInterface) (p : Pose) (mode type : String) : Bool :=
  s.isPoseReached p.position.x p.position.y p.position.z
    p.orientation.x p.orientation.y p.orientation.z p.orientation.w mode type

/-- Outcome of the inner loop of `isConfigurationReached`: it read a position
past the end of an array, it hit a `return false`, or it ran to its end with
the flag `res`. -/
inductive Scan where
  | fault
  | reject
  | finished (res : Bool)
  deriving DecidableEq, Repr

/-- The inner loop of `isConfigurationReached` for the desired joint `target`:
`names` are the current joint names still to visit, `j` the index of the first
of them, `des` the read `_dj.position[i]` and `pos` the array `cj.position`.
The positions are read only for a matching name and only in the two modes. -/
def scanCurrent (mode : String) (des : Option ℚ) (pos : List ℚ) (target : String) :
    List String → Nat → Bool → Scan
  | [], _, res => Scan.finished res
  | n :: rest, j, res =>
    if target = n then
      if mode = "strict" then
        match des, pos[j]? with
        | some d, some c =>
          if |d - c| > 10 / 1000 then Scan.reject
          else scanCurrent mode des pos target rest (j + 1) true
        | _, _ => Scan.fault
      else if mode = "loose" then
        match des, pos[j]? with
        | some d, some c =>
          if |d - c| > 20 / 1000 then Scan.reject
          else scanCurrent mode des pos target rest (j + 1) true
        | _, _ => Scan.fault
      else scanCurrent mode des pos target rest (j + 1) true
    else scanCurrent mode des pos target rest (j + 1) res

/-- The outer loop of `isConfigurationReached`: `names` are the desired joint
names still to visit and `i` the index of the first of them.  The result is
`none` when the inner loop read past the end of an array. -/
def scanDesired (mode : String) (cj : JointState) (djpos : List ℚ) :
    List String → Nat → Option Bool
  | [], _ => some true
  | n :: rest, i =>
    match scanCurrent mode djpos[i]? cj.position n cj.name 0 false with
    | Scan.fault => none
    | Scan.reject => some false
    | Scan.finished res =>
      if res = false then some false else scanDesired mode cj djpos rest (i + 1)

/-- Function `isConfigurationReached(intera_core_msgs::JointCommand _dj, _mode)`. -/
def isConfigurationReached (s : RobotInterface) (dj : JointCommand) (mode : String) :
    Option Bool :=
  let cj := s.getJointStates
  if cj.position.length < 7 then some false
  else scanDesired mode cj dj.position dj.names 0

/-- Function `setJointNames`: pushes the seven joint names of the limb. -/
def setJointNames (s : RobotInterface) (joint_cmd : JointCommand) : JointCommand :=
  { joint_cmd with
    names := joint_cmd.names ++
      [s.getLimb ++ "_j0", s.getLimb ++ "_j1", s.getLimb ++ "_j2", s.getLimb ++ "_j3",
       s.getLimb ++ "_j4", s.getLimb ++ "_j5", s.getLimb ++ "_j6"] }

/-- Function `setJointCommands`: pushes seven joint positions. -/
def setJointCommands (s0 s1 e0 e1 w0 w1 w2 : ℚ) (joint_cmd : JointCommand) : JointCommand :=
  { joint_cmd with position := joint_cmd.position ++ [s0, s1, e0, e1, w0, w1, w2] }

/-- Overload `isConfigurationReached(VectorXd _dj, _mode)`; the vector is the
list of its entries. -/
def isConfigurationReached_vec (s : RobotInterface) (dj : List ℚ) (mode : String) :
    Option Bool :=
  match dj with
  | d0 :: d1 :: d2 :: d3 :: d4 :: d5 :: d6 :: _ =>
    s.isConfigurationReached (setJointCommands d0 d1 d2 d3 d4 d5 d6 (s.setJointNames {})) mode
  | _ => some false

/-! ## Control type, state and button callbacks -/

/-- Function `setCtrlType`: the returned flag and the object afterwards. -/
def setCtrlType (s : RobotInterface) (ctrl_type : String) : Bool × RobotInterface :=
  if ctrl_type ≠ "pose" ∧ ctrl_type ≠ "position" ∧ ctrl_type ≠ "orientation" then
    (false, s)
  else (true, { s with ctrl_type := ctrl_type })

/-- Function `publishState`: sends the current state on `state_pub`. -/
def publishState (s : RobotInterface) : Bool × RobotInterface :=
  (true, { s with published := s.published ++ [s.getState] })

/-- The `else` branch of `setCtrlRunning`, that is `setCtrlRunning(false)`: the
flag is cleared, `rviz_pub` stopped and the particle released. -/
def setCtrlRunning_off (s : RobotInterface) : RobotInterface :=
  { s with is_ctrl_running := false, rviz_running := false, particle := none }

/-- Function `setState`: stores the state, disables the cartesian controller
when the stored state is `WORKING`, and publishes. -/
def setState (s : RobotInterface) (state : ArmState) : Bool × RobotInterface :=
  let s1 := { s with state := state }
  let s2 := if s1.state = WORKING then setCtrlRunning_off s1 else s1
  publishState s2

/-- Function `setCtrlRunning`. -/
def setCtrlRunning (s : RobotInterface) (flag : Bool) : RobotInterface :=
  if flag = true then
    (setState { s with is_ctrl_running := true, rviz_running := true } CTRL_RUNNING).2
  else setCtrlRunning_off s

/-- Function `cuffLowerCb`; `PRESSED` is the constant
`intera_core_msgs::DigitalIOState::PRESSED`. -/
def cuffLowerCb (PRESSED : Int) (s : RobotInterface) (msg : DigitalIOState) : RobotInterface :=
  if msg.state = PRESSED then (s.setState KILLED).2 else s

/-- Function `cuffUpperCb`. -/
def cuffUpperCb (PRESSED : Int) (s : RobotInterface) (msg : DigitalIOState) : RobotInterface :=
  if msg.state = PRESSED then (s.setState KILLED).2 else s

/-! ## Infra-red range check and force filter -/

/-- Function `IRCb`: the callback of the infra-red range sensor. -/
def IRCb (s : RobotInterface) (msg : Range) : RobotInterface :=
  let s1 := { s with curr_range := msg.range, curr_max_range := msg.max_range,
                     curr_min_range := msg.min_range }
  if s1.ir_ok = false then { s1 with ir_ok := true } else s1

/-- Function `hasCollidedIR`: the reading is inside the sensor's range and at
most the threshold of the limb and mode (0 for an unknown mode). -/
def hasCollidedIR (s : RobotInterface) (mode : String) : Bool :=
  if s.getLimb = "left" then
    let thres : ℚ :=
      if mode = "strict" then 50 / 1000 else if mode = "loose" then 67 / 1000 else 0
    if s.curr_range ≤ s.curr_max_range ∧ s.curr_range ≥ s.curr_min_range
        ∧ s.curr_range ≤ thres then true else false
  else if s.getLimb = "right" then
    let thres : ℚ :=
      if mode = "strict" then 89 / 1000 else if mode = "loose" then 110 / 1000 else 0
    if s.curr_range ≤ s.curr_max_range ∧ s.curr_range ≥ s.curr_min_range
        ∧ s.curr_range ≤ thres then true else false
  else false

/-- The double `abs(n / d)`. -/
def absQuot (n d : ℚ) : AbsQuot :=
  if d = 0 then (if n = 0 then AbsQuot.nan else AbsQuot.inf) else AbsQuot.num |n / d|

/-- Comparison `x < t` of doubles: false for an infinite `x` and for a `x`
that is not a number. -/
def absQuotLt (x : AbsQuot) (t : ℚ) : Bool :=
  match x with
  | AbsQuot.num q => decide (q < t)
  | AbsQuot.inf => false
  | AbsQuot.nan => false

/-- Comparison `x > t` of doubles: true for an infinite `x`, false for a `x`
that is not a number. -/
def absQuotGt (x : AbsQuot) (t : ℚ) : Bool :=
  match x with
  | AbsQuot.num q => decide (q > t)
  | AbsQuot.inf => true
  | AbsQuot.nan => false

/-- The work of `filterForces` on one axis, for the elapsed time `dt`: from
the stored filtered value `f`, the stored rate `c` and the raw force `r` to
the new filtered value and the new rate. -/
def filterAxis (F : FilterConsts) (filt_variance dt f c r : ℚ) : ℚ × ℚ :=
  let new_filt := (1 - F.FORCE_ALPHA) * f + F.FORCE_ALPHA * r
  let pred_filt := f + c * dt
  let filt_change := (new_filt - f) / dt
  let filt_force :=
    if pred_filt < F.FILTER_EPSILON then new_filt
    else if absQuotLt (absQuot (new_filt - pred_filt) pred_filt) filt_variance = true then
      new_filt
    else f
  (filt_force, filt_change)

/-- Function `filterForces`, called at the time `now`.  With no time elapsed
since the last update the new rates are quotients by zero, which the model
does not follow: the result is `none`. -/
def filterForces (F : FilterConsts) (now : ℚ) (s : RobotInterface) : Option RobotInterface :=
  let time_elap := now - s.time_filt_last_updated
  if time_elap = 0 then none
  else
    let ax := filterAxis F s.filt_variance time_elap s.filt_force.x s.filt_change.x
      s.curr_wrench.force.x
    let ay := filterAxis F s.filt_variance time_elap s.filt_force.y s.filt_change.y
      s.curr_wrench.force.y
    let az := filterAxis F s.filt_variance time_elap s.filt_force.z s.filt_change.z
      s.curr_wrench.force.z
    some { s with filt_force := { x := ax.1, y := ay.1, z := az.1 },
                  filt_change := { x := ax.2, y := ay.2, z := az.2 },
                  time_filt_last_updated := now }

/-- The force part of `endpointCb` when forces are used: the wrench of the
message is stored and filtered. -/
def forceUpdate (F : FilterConsts) (now : ℚ) (wrench : Wrench) (s : RobotInterface) :
    Option RobotInterface :=
  filterForces F now { s with curr_wrench := wrench }

/-- The object after `n` force updates: update `k` happens at the time
`now k` with the force `raw k`; `none` once an update had no result. -/
def filterSeq (F : FilterConsts) (now : ℕ → ℚ) (raw : ℕ → Vector3) (s0 : RobotInterface) :
    ℕ → Option RobotInterface
  | 0 => some s0
  | n + 1 =>
    match filterSeq F now raw s0 n with
    | none => none
    | some s => forceUpdate F (now n) { force := raw n } s

/-- The filtered force of the objects `seq n` converges to `r` on every
axis. -/
def ConvergesTo (seq : ℕ → Option RobotInterface) (r : Vector3) : Prop :=
  ∀ δ : ℚ, 0 < δ → ∃ N : ℕ, ∀ n, N ≤ n →
    ∃ s, seq n = some s ∧ |s.filt_force.x - r.x| < δ ∧ |s.filt_force.y - r.y| < δ
      ∧ |s.filt_force.z - r.z| < δ

/-- Function `relativeDiff(a, b)`, the double `abs((a - b) / abs(b + 0.01))`. -/
def relativeDiff (a b : ℚ) : AbsQuot :=
  absQuot (a - b) |b + 1 / 100|

/-- Function `detectForceInteraction`: the returned flag and the object
afterwards. -/
def detectForceInteraction (s : RobotInterface) : Bool × RobotInterface :=
  if absQuotGt (relativeDiff s.curr_wrench.force.x s.filt_force.x) s.rel_force_thres = true ∨
      absQuotGt (relativeDiff s.curr_wrench.force.y s.filt_force.y) s.rel_force_thres = true ∨
      absQuotGt (relativeDiff s.curr_wrench.force.z s.filt_force.z) s.rel_force_thres = true
  then
    (true, s)
  else (false, s)

/-! ## Constructor and continuous-control callback -/

/-- The constructor, for the members of the record: the initialiser list, the
print level read from the parameter server, and `setState(START)` when the
cartesian controller is enabled. -/
def construct (K : Consts) (limb : String) (use_cart_ctrl is_experimental : Bool)
    (print_level : Int) : RobotInterface :=
  let s : RobotInterface :=
    { limb := limb, state := START, is_closing := false, is_ctrl_running := false,
      is_experimental := is_experimental, ctrl_track_mode := false,
      ctrl_mode := K.POSITION_MODE, ctrl_check_mode := "strict", ctrl_type := "pose",
      print_level := print_level }
  if use_cart_ctrl = true then (s.setState START).2 else s

/-- Getter `getPose()`. -/
def getPose (s : RobotInterface) : Pose :=
  { position := s.getPos, orientation := s.getOri }

/-- Function `ok()`: ROS is running and the arm is neither killed nor stopped. -/
def ok (E : Env) (s : RobotInterface) : Bool :=
  E.ros_ok && decide (s.getState ≠ KILLED) && decide (s.getState ≠ STOPPED)

/-- Modelled from the spec: the constructor, `setupParticle` and `start` of
`LinearPointParticle` are in a file that is not among the sources.  The
particle is created between the start and the desired point with the given
speed and stands at the start point; it runs when it was set up and its
thread started. -/
def newParticle (start_pt des_pt : Point) (speed : ℚ) (is_set started : Bool) :
    LinearPointParticle :=
  { curr_pt := start_pt, start_pt := start_pt, des_pt := des_pt, speed := speed,
    is_set := is_set, is_running := is_set && started }

/-- Function `initCtrlParams`: the returned flag is
`particle->isSet() && particle->start()`. -/
def initCtrlParams (K : Consts) (E : Env) (s : RobotInterface) : Bool × RobotInterface :=
  let s1 := { s with time_start := E.now, pose_start := s.getPose }
  let p := newParticle s1.pose_start.position s1.pose_des.position K.ARM_SPEED
    E.particle_set E.particle_started
  (E.particle_set && E.particle_started, { s1 with particle := some p })

/-- The part of `ctrlMsgCb` that sets the desired pose from a goal message
(type `pose`, `position` or `relative_*`). -/
def setDesiredPose (s : RobotInterface) (msg : GoToPose) : RobotInterface :=
  let s1 :=
    if msg.type = "pose" then
      { s with pose_des := { position := msg.position, orientation := msg.orientation } }
    else
      let p := if msg.type = "position" then msg.position else s.getPos
      { s with pose_des := { position := p, orientation := s.getOri } }
  let s2 :=
    if msg.type = "relative_x" then
      { s1 with pose_des := { s1.pose_des with position :=
          { s1.pose_des.position with x := s1.pose_des.position.x + msg.increment } } }
    else s1
  let s3 :=
    if msg.type = "relative_y" then
      { s2 with pose_des := { s2.pose_des with position :=
          { s2.pose_des.position with y := s2.pose_des.position.y + msg.increment } } }
    else s2
  if msg.type = "relative_z" then
    { s3 with pose_des := { s3.pose_des with position :=
        { s3.pose_des.position with z := s3.pose_des.position.z + msg.increment } } }
  else s3

/-- The end of `ctrlMsgCb`, after the control mode was accepted: the control,
check and tracking modes are stored, the control parameters initialised and
the session started when that succeeded. -/
def startSession (K : Consts) (E : Env) (s : RobotInterface) (msg : GoToPose) :
    RobotInterface :=
  let s1 := { s with ctrl_mode := msg.ctrl_mode }
  let s2 :=
    if msg.check_mode ≠ "strict" ∧ msg.check_mode ≠ "loose" then
      { s1 with ctrl_check_mode := "strict" }
    else { s1 with ctrl_check_mode := msg.check_mode }
  let s3 := { s2 with ctrl_track_mode := if msg.tracking_mode = "on" then true else false }
  let r := initCtrlParams K E s3
  if r.1 = true then r.2.setCtrlRunning true else r.2

/-- Function `ctrlMsgCb`. -/
def ctrlMsgCb (K : Consts) (E : Env) (s : RobotInterface) (msg : GoToPose) : RobotInterface :=
  if s.getState ≠ WORKING then
    let s1 := s.setCtrlRunning false
    if msg.type = "stop" then
      ((s1.setCtrlRunning false).setState CTRL_DONE).2
    else if msg.type = "position" ∨ msg.type = "pose" ∨ msg.type = "relative_x"
        ∨ msg.type = "relative_y" ∨ msg.type = "relative_z" then
      let s2 := setDesiredPose s1 msg
      if msg.ctrl_mode ≠ K.POSITION_MODE then
        if s2.is_experimental = false then s2
        else if msg.ctrl_mode = K.VELOCITY_MODE then
          startSession K E { s2 with ctrl_mode := K.VELOCITY_MODE } msg
        else if msg.ctrl_mode = K.RAW_POSITION_MODE then
          startSession K E { s2 with ctrl_mode := K.RAW_POSITION_MODE } msg
        else s2
      else startSession K E s2 msg
    else s1
  else s

/-! ## Inverse kinematics and the control tick -/

/-- Function `publishJointCmd`: sends the command on `joint_cmd_pub`. -/
def publishJointCmd (s : RobotInterface) (cmd : JointCommand) : RobotInterface :=
  { s with joint_cmds := s.joint_cmds ++ [cmd] }

/-- Function `goToJointConfNoCheck`: the positions are filled in only in
position mode. -/
def goToJointConfNoCheck (K : Consts) (s : RobotInterface) (joint_values : List ℚ) :
    Bool × RobotInterface :=
  let joint_cmd : JointCommand := s.setJointNames { mode := s.ctrl_mode }
  let joint_cmd :=
    if joint_cmd.mode = K.POSITION_MODE then
      { joint_cmd with position := joint_cmd.position ++ joint_values }
    else joint_cmd
  (true, s.publishJointCmd joint_cmd)

/-- Rounding to the nearest integer, a tie going to the even one. -/
def roundHalfEven (x : ℚ) : ℤ :=
  let f := ⌊x⌋
  if x - f < 1 / 2 then f
  else if x - f > 1 / 2 then f + 1
  else if f % 2 = 0 then f else f + 1

/-- The value a `double` takes when it is stored in a C++ `float` (IEEE
binary32): it is rounded to 24 significant bits, to the nearest value and to
the even one at a tie; below the exponent -126 the spacing stays `2^-149`;
and a result of size `2^128` or more is infinite, here `none`. -/
def toFloat (x : ℚ) : Option ℚ :=
  let e : ℤ := max (Int.log 2 |x|) (-126)
  let r : ℚ := roundHalfEven (x / 2 ^ (e - 23)) * 2 ^ (e - 23)
  if |r| < 2 ^ 128 then some r else none

/-- The loop of `computeIK`, from its iteration `k` with the pose `pose` still
to query: `none` when the fuel runs out, otherwise the returned flag, the
joint angles `j` and the object with the queries recorded.  An invalid
solution raises the queried height by 0.001; the loop gives up when the clock
has passed 0.05 s or the height has passed `thresh_z`. -/
def computeIK_loop (E : Env) (thresh_z : ℚ) :
    Nat → Nat → Pose → RobotInterface → Option (Bool × List ℚ × RobotInterface)
  | 0, _, _, _ => none
  | fuel + 1, k, pose, s =>
    if ok E s = true then
      let r := E.perform_ik k pose s.getJointStates
      let s1 := { s with ik_requests := s.ik_requests ++ [pose] }
      if r.result = true ∧ r.valid = true then some (true, r.joints, s1)
      else
        let pose1 : Pose :=
          if r.result = true then
            { pose with position := { pose.position with z := pose.position.z + 1 / 1000 } }
          else pose
        if E.elapsed k > 5 / 100 ∨ pose1.position.z > thresh_z then some (false, [], s1)
        else computeIK_loop E thresh_z fuel (k + 1) pose1 s1
    else some (false, [], s)

/-- Function `computeIK(px, py, pz, ox, oy, oz, ow, j)`, on the pose made of
its seven numbers.  The bound `thresh_z` is a `float` in the source, so the
sum `z + 0.01` is narrowed before the loop compares heights with it; the
result is `none` also when the bound is infinite as a `float`, a case the
model does not follow. -/
def computeIK (E : Env) (s : RobotInterface) (p : Pose) :
    Option (Bool × List ℚ × RobotInterface) :=
  match toFloat (p.position.z + 1 / 100) with
  | none => none
  | some thresh_z => computeIK_loop E thresh_z E.ik_fuel 0 p s

/-- Function `goToPoseNoCheck`. -/
def goToPoseNoCheck (K : Consts) (E : Env) (s : RobotInterface) (p : Pose) :
    Option (Bool × RobotInterface) :=
  match computeIK E s p with
  | none => none
  | some (false, _, s1) => some (false, s1)
  | some (true, joint_angles, s1) => some (goToJointConfNoCheck K s1 joint_angles)

/-- The pose a control tick sends to the solver: the desired pose with the
particle's point as position and, while the rotation is under way, the
interpolated orientation.  The quotients are those of the rationals, so the
constant `ARM_ROT_SPEED` is meant to be nonzero. -/
def tickPose (K : Consts) (E : Env) (s : RobotInterface) (part : LinearPointParticle) : Pose :=
  let time_elap := E.now - s.time_start
  let o_s := s.pose_start.orientation
  let o_d := s.pose_des.orientation
  let pose_curr : Pose := { s.pose_des with position := part.curr_pt }
  let angle := E.angleShortestPath o_s o_d
  let traj_time := angle / K.ARM_ROT_SPEED
  if time_elap < traj_time then
    { pose_curr with orientation := E.slerp o_s o_d (time_elap / traj_time) }
  else pose_curr

/-- One iteration of the loop of `ThreadEntry` (its body; the loop runs it
while ROS is running and the interface is not closing).  The result is `none`
when the particle is used while the pointer is empty or when `computeIK` ran
out of fuel. -/
def controlTick (K : Consts) (E : Env) (s : RobotInterface) : Option RobotInterface :=
  if s.isCtrlRunning = true then
    let p_d := s.pose_des.position
    let o_d := s.pose_des.orientation
    if s.isPoseReached p_d.x p_d.y p_d.z o_d.x o_d.y o_d.z o_d.w
        s.ctrl_check_mode s.getCtrlType = false then
      match s.particle with
      | none => none
      | some part =>
        let s1 := { s with pose_curr := tickPose K E s part }
        match goToPoseNoCheck K E s1 s1.pose_curr with
        | none => none
        | some (false, s2) => some ((s2.setCtrlRunning false).setState CTRL_FAIL).2
        | some (true, s2) => some s2
    else if s.ctrl_track_mode = false then
      match s.particle with
      | none => none
      | some part =>
        let s1 := { s with particle := some { part with is_running := false } }
        let s2 :=
          if s1.ctrl_mode = K.VELOCITY_MODE then
            (goToJointConfNoCheck K s1 (List.replicate 7 0)).2
          else s1
        some ((s2.setCtrlRunning false).setState CTRL_DONE).2
    else some s
  else some s

/-- The object after sensor callbacks and the particle thread stored new
readings. -/
def observe (s : RobotInterface) (r : Readings) : RobotInterface :=
  { s with curr_pos := r.pos, curr_ori := r.ori,
           particle := s.particle.map (fun p => { p with curr_pt := r.particle_pt }) }

/-- A run of control ticks, each after new readings and in its own
environment; `none` when one of the ticks has no result. -/
def runTicks (K : Consts) : List (Env × Readings) → RobotInterface → Option RobotInterface
  | [], s => some s
  | (E, r) :: rest, s =>
    match controlTick K E (s.observe r) with
    | none => none
    | some s1 => runTicks K rest s1

end RobotInterface

/-- The states the interface can be in: the constructed object, and what the
callbacks, the control tick, the state and control-type setters and new
sensor readings make of a reachable state. -/
inductive Reachable (K : Consts) : RobotInterface → Prop where
  | construct (limb : String) (use_cart_ctrl is_experimental : Bool) (print_level : Int) :
      Reachable K (RobotInterface.construct K limb use_cart_ctrl is_experimental print_level)
  | ctrlMsgCb {s : RobotInterface} (E : Env) (msg : GoToPose) :
      Reachable K s → Reachable K (s.ctrlMsgCb K E msg)
  | controlTick {s s1 : RobotInterface} (E : Env) :
      Reachable K s → s.controlTick K E = some s1 → Reachable K s1
  | cuffLowerCb {s : RobotInterface} (PRESSED : Int) (msg : DigitalIOState) :
      Reachable K s → Reachable K (s.cuffLowerCb PRESSED msg)
  | cuffUpperCb {s : RobotInterface} (PRESSED : Int) (msg : DigitalIOState) :
      Reachable K s → Reachable K (s.cuffUpperCb PRESSED msg)
  | setState {s : RobotInterface} (state : ArmState) :
      Reachable K s → Reachable K (s.setState state).2
  | setCtrlType {s : RobotInterface} (ctrl_type : String) :
      Reachable K s → Reachable K (s.setCtrlType ctrl_type).2
  | observe {s : RobotInterface} (r : Readings) :
      Reachable K s → Reachable K (s.observe r)
  | jointStates {s : RobotInterface} (cj : JointState) :
      Reachable K s → Reachable K { s with curr_jnts := cj }

/-! ## The action-execution thread and the action service of `ArmCtrl` -/

/-- The request of the service `DoAction`: the action and the object id. -/
structure DoActionRequest where
  action : String
  object : Int
  deriving DecidableEq, Repr

/-- The type `f_action` of the header `arm_ctrl.h`, a pointer to a member
function of `ArmCtrl` without arguments that returns a flag.  A pointer is
recorded by a number that names the function it points to. -/
abbrev f_action := Nat

/-- Class `ArmCtrl` of `arm_ctrl.cpp`: the interface it inherits, the
requested action and the marker id; and the two databases that the header
`arm_ctrl.h` declares, each `std::map` as the list of its pairs, with no key
twice: `object_db` from marker ids to names and `action_db` from action names
to functions. -/
structure ArmCtrl extends RobotInterface where
  action : String := ""
  marker_id : Int := -1
  object_db : List (Int × String) := []
  action_db : List (String × f_action) := []
  deriving DecidableEq, Repr

/-- What the action thread and the service take from outside the object: the
action names `ACTION_HOME` and `ACTION_RELEASE` (macros that are not among the
sources); the flag that `hoverAboveTable` returns with the joint commands it
published on the way (it drives the arm through functions of the base class
that are not among the sources, and sets no state); the flag of the gripper's
`releaseObject`; the virtual `doAction s a`, which may do anything to the
object; what `ros::spinOnce()` and the sleep of iteration `k` of the polling
loop let happen to the object; and the number of iterations of the polling
loop that the model follows. -/
structure ActionEnv where
  ACTION_HOME : String
  ACTION_RELEASE : String
  hoverAboveTable : ArmCtrl → Bool × List JointCommand
  releaseObject : ArmCtrl → Bool
  doAction : ArmState → String → ArmCtrl → Bool × ArmCtrl
  spin : Nat → ArmCtrl → ArmCtrl
  poll_fuel : Nat

/-- What `moveArm` takes from outside the object: the speed macro
`PICK_UP_SPEED`; `ros::ok()` at the head of iteration `k` of its loop; the
seconds since the start read in iteration `k`; the solver `callIKService`
(the joint angles, or `none` for the answer false) and `goToPoseNoCheck` on
joint angles, functions of the base class that are not among the sources;
the end-effector position read at the end of iteration `k`; the helper
`withinThres`, which is not among the sources either; and the number of
iterations that the model follows. -/
structure MoveEnv where
  PICK_UP_SPEED : ℚ
  ros_ok : Nat → Bool
  t_elap : Nat → ℚ
  callIKService : Nat → Point → Quaternion → Option (List ℚ)
  goToPoseNoCheck : Nat → List ℚ → Bool
  pos : Nat → Point
  withinThres : ℚ → ℚ → ℚ → Bool
  fuel : Nat

namespace ArmCtrl

/-- The inherited `setState` (the file defines none of its own). -/
def setState (s : ArmCtrl) (state : ArmState) : ArmCtrl :=
  { s with toRobotInterface := (s.toRobotInterface.setState state).2 }

/-- Modelled from the spec: the setter `setAction` is not among the sources;
the controller owns the current action, which the getter `getAction` of the
header returns from the member `action`. -/
def setAction (s : ArmCtrl) (action : String) : ArmCtrl :=
  { s with action := action }

/-- Modelled from the spec: the setter `setMarkerID` is not among the sources;
it stores the requested object id in the member `marker_id`. -/
def setMarkerID (s : ArmCtrl) (id : Int) : ArmCtrl :=
  { s with marker_id := id }

/-- Function `goHome`, that is `hoverAboveTable(Z_LOW)`: the returned flag and
the object with the published joint commands recorded. -/
def goHome (A : ActionEnv) (s : ArmCtrl) : Bool × ArmCtrl :=
  let r := A.hoverAboveTable s
  (r.1, { s with joint_cmds := s.joint_cmds ++ r.2 })

/-- Function `InternalThreadEntry`: the body of the action thread. -/
def InternalThreadEntry (A : ActionEnv) (s : ArmCtrl) : ArmCtrl :=
  let a := s.action
  let st := s.getState
  let s1 := s.setState WORKING
  let s2 :=
    if a = A.ACTION_HOME then
      let r := goHome A s1
      if r.1 = true then r.2.setState START else r.2
    else if a = A.ACTION_RELEASE then
      if A.releaseObject s1 = true then s1.setState START else s1
    else
      let r := A.doAction st a s1
      if r.1 = false then r.2.setState ERROR else r.2
  if s2.getState = WORKING then s2.setState ERROR else s2

/-- The polling loop of `serviceCb`, from its iteration `k`: `none` when the
fuel runs out, otherwise the object at the moment the loop is left. -/
def pollLoop (A : ActionEnv) : Nat → Nat → ArmCtrl → Option ArmCtrl
  | 0, _, _ => none
  | fuel + 1, k, s =>
    if s.getState ≠ START ∧ s.getState ≠ ERROR ∧ s.getState ≠ DONE ∧ s.getState ≠ PICK_UP then
      pollLoop A fuel (k + 1) (A.spin k s)
    else some s

/-- Function `serviceCb`: the value it returns, the field `success` of the
response, and the object afterwards.  The action thread it starts is read as
running to its end before the polling loop looks at the state. -/
def serviceCb (A : ActionEnv) (s : ArmCtrl) (req : DoActionRequest) :
    Option (Bool × Bool × ArmCtrl) :=
  let s1 := (s.setAction req.action).setMarkerID req.object
  let s2 := InternalThreadEntry A s1
  match pollLoop A A.poll_fuel 0 s2 with
  | none => none
  | some s3 =>
    let success :=
      if s3.getState = START ∨ s3.getState = DONE ∨ s3.getState = PICK_UP then true else false
    some (true, success, s3)

/-- The first part of the body of the loop of `moveArm`, at the elapsed time
`t_elap`: the flag `finish` afterwards and the point `(px, py, pz)` that the
iteration hands to the solver.  The three blocks run one after the other; the
tests of the third compare `px` with `final.z`, as the source does. -/
def moveArmPoint (PICK_UP_SPEED : ℚ) (dir : String) (start final : Point) (finish : Bool)
    (t_elap : ℚ) : Bool × Point :=
  if finish = false then
    let px : ℚ :=
      if dir = "backward" ∨ dir = "forward" then
        start.x + (if dir = "backward" then -1 else 1) * PICK_UP_SPEED * t_elap
      else start.x
    let finish1 : Bool :=
      if dir = "backward" ∨ dir = "forward" then
        if dir = "backward" then (if px < final.x then true else finish)
        else if dir = "forward" then (if px > final.x then true else finish)
        else finish
      else finish
    let py : ℚ :=
      if dir = "right" ∨ dir = "left" then
        start.y + (if dir = "right" then -1 else 1) * PICK_UP_SPEED * t_elap
      else start.y
    let finish2 : Bool :=
      if dir = "right" ∨ dir = "left" then
        if dir = "right" then (if py < final.y then true else finish1)
        else if dir = "left" then (if py > final.y then true else finish1)
        else finish1
      else finish1
    let pz : ℚ :=
      if dir = "down" ∨ dir = "up" then
        start.z + (if dir = "down" then -1 else 1) * PICK_UP_SPEED * t_elap
      else start.z
    let finish3 : Bool :=
      if dir = "down" ∨ dir = "up" then
        if dir = "down" then (if px < final.z then true else finish2)
        else if dir = "up" then (if px > final.z then true else finish2)
        else finish2
      else finish2
    (finish3, { x := px, y := py, z := pz })
  else (finish, final)

/-- The loop of `moveArm`, from its iteration `k`: `none` when the fuel runs
out, otherwise the returned flag and the points handed to the solver, oldest
first.  The call of `suppressCollisionAv`, which publishes an empty message,
is left out. -/
def moveArm_loop (M : MoveEnv) (dir mode : String) (start final : Point) (ori : Quaternion) :
    Nat → Nat → Bool → List Point → Option (Bool × List Point)
  | 0, _, _, _ => none
  | fuel + 1, k, finish, sent =>
    if M.ros_ok k = true then
      let r := moveArmPoint M.PICK_UP_SPEED dir start final finish (M.t_elap k)
      let sent1 := sent ++ [r.2]
      match M.callIKService k r.2 ori with
      | none => some (false, sent1)
      | some joint_angles =>
        if M.goToPoseNoCheck k joint_angles = false then some (false, sent1)
        else
          let stop : Bool :=
            if mode = "strict" then
              M.withinThres (M.pos k).x final.x (1 / 1000) &&
              M.withinThres (M.pos k).y final.y (1 / 1000) &&
              M.withinThres (M.pos k).z final.z (1 / 1000)
            else if mode = "loose" then
              M.withinThres (M.pos k).x final.x (1 / 100) &&
              M.withinThres (M.pos k).y final.y (1 / 100) &&
              M.withinThres (M.pos k).z final.z (1 / 100)
            else false
          if stop = true then some (true, sent1)
          else moveArm_loop M dir mode start final ori fuel (k + 1) r.1 sent1
    else some (true, sent)

/-- Function `moveArm(dir, dist, mode)`: the returned flag and the points
handed to the solver. -/
def moveArm (M : MoveEnv) (s : ArmCtrl) (dir : String) (dist : ℚ) (mode : String) :
    Option (Bool × List Point) :=
  let start := s.getPos
  let ori := s.getOri
  if dir = "backward" then
    moveArm_loop M dir mode start { start with x := start.x - dist } ori M.fuel 0 false []
  else if dir = "forward" then
    moveArm_loop M dir mode start { start with x := start.x + dist } ori M.fuel 0 false []
  else if dir = "right" then
    moveArm_loop M dir mode start { start with y := start.y - dist } ori M.fuel 0 false []
  else if dir = "left" then
    moveArm_loop M dir mode start { start with y := start.y + dist } ori M.fuel 0 false []
  else if dir = "down" then
    moveArm_loop M dir mode start { start with z := start.z - dist } ori M.fuel 0 false []
  else if dir = "up" then
    moveArm_loop M dir mode start { start with z := start.z + dist } ori M.fuel 0 false []
  else some (false, [])

/-- Modelled from the spec: `isActionInDB` is declared in the header and
defined in a file that is not among the sources.  It checks whether an action
name is a key of the action database. -/
def isActionInDB (s : ArmCtrl) (a : String) : Bool :=
  (s.action_db.lookup a).isSome

/-- Modelled from the spec: `insertAction` is declared in the header and
defined in a file that is not among the sources.  The keys of the action
database are unique and registering a name twice is answered with a failure
that leaves the database as it was; otherwise the pair is added and the
answer is a success. -/
def insertAction (s : ArmCtrl) (a : String) (f : f_action) : Bool × ArmCtrl :=
  if s.isActionInDB a = true then (false, s)
  else (true, { s with action_db := s.action_db ++ [(a, f)] })

/-- Modelled from the spec: `callAction` is declared in the header and defined
in a file that is not among the sources.  The handler is looked up by name;
an absent name fails at once, with no entry read or made for it; a handler
that is found is invoked and its result returned.  What calling the member
function `f` does to the object, and the flag it returns, is `run f`. -/
def callAction (run : f_action → ArmCtrl → Bool × ArmCtrl) (s : ArmCtrl) (a : String) :
    Bool × ArmCtrl :=
  match s.action_db.lookup a with
  | some f => run f s
  | none => (false, s)

/-- Modelled from the spec: `isObjectInDB` is declared in the header and
defined in a file that is not among the sources.  It checks whether a marker
id is a key of the object database. -/
def isObjectInDB (s : ArmCtrl) (id : Int) : Bool :=
  (s.object_db.lookup id).isSome

/-- Modelled from the spec: `areObjectsInDB` is declared in the header and
defined in a file that is not among the sources.  The requested ids are
filtered down to those present in the object database. -/
def areObjectsInDB (s : ArmCtrl) (objs : List Int) : List Int :=
  objs.filter (fun id => s.isObjectInDB id)

/-- Function `chooseObjectID` of the header, in its default version: the
element `_objs[0]`.  Reading the first element of an empty vector has no
defined result: `none`. -/
def chooseObjectID (_s : ArmCtrl) (objs : List Int) : Option Int :=
  objs[0]?

end ArmCtrl

/-! ## Concrete objects used as inputs -/

/-- A left arm at the origin with the identity orientation, whose cached joint
state holds the seven joints of the limb, all at position zero. -/
def armAtZero : RobotInterface :=
  { curr_ori := { w := 1 },
    curr_jnts :=
      { name := ["left_j0", "left_j1", "left_j2", "left_j3", "left_j4", "left_j5", "left_j6"],
        position := [0, 0, 0, 0, 0, 0, 0] } }

/-- An arm in the middle of a control session: the flag is set, the particle
exists and the state is `CTRL_RUNNING`. -/
def armInSession : RobotInterface :=
  { state := CTRL_RUNNING, is_ctrl_running := true, rviz_running := true,
    particle := some {}, published := [CTRL_RUNNING] }

/-- An arm in a control session that stands at its goal: position at the
origin, current and desired orientation the identity, tracking off. -/
def armAtGoal : RobotInterface :=
  { state := CTRL_RUNNING, is_ctrl_running := true, rviz_running := true,
    particle := some {}, published := [CTRL_RUNNING],
    curr_ori := { w := 1 }, pose_des := { orientation := { w := 1 } } }

/-- The arm at its goal in a session with tracking on. -/
def armTracking : RobotInterface :=
  { state := CTRL_RUNNING, is_ctrl_running := true, rviz_running := true,
    particle := some {}, published := [CTRL_RUNNING], ctrl_track_mode := true,
    curr_ori := { w := 1 }, pose_des := { orientation := { w := 1 } } }

/-- The arm at its goal in a velocity-mode session (mode code 2 of
`sampleConsts`), tracking off. -/
def armAtGoalVelocity : RobotInterface :=
  { state := CTRL_RUNNING, is_ctrl_running := true, rviz_running := true,
    particle := some {}, published := [CTRL_RUNNING], ctrl_mode := 2,
    curr_ori := { w := 1 }, pose_des := { orientation := { w := 1 } } }

/-- Readings that leave the arm at the origin with the identity orientation. -/
def restReadings : Readings :=
  { pos := {}, ori := { w := 1 }, particle_pt := {} }

/-- The update of one axis of the force filter in the words of its
specification, with the quotients of the rationals: the new filtered value
and the new rate, from `new = (1-α)·f + α·r` and `pred = f + c·dt`. -/
def axisSpec (F : FilterConsts) (var dt f c r : ℚ) : ℚ × ℚ :=
  let new := (1 - F.FORCE_ALPHA) * f + F.FORCE_ALPHA * r
  let pred := f + c * dt
  (if pred < F.FILTER_EPSILON ∨ |(new - pred) / pred| < var then new else f, (new - f) / dt)

/-- An axis of the filter went from `(f, c)` to `(f1, c1)` as specified: the
rate is the specified one; the filtered value is the specified one wherever
the quotient by `pred` is taken with `pred ≠ 0` or not taken at all; and
where `pred` is zero and not below the threshold, so that the quotient is by
zero, the filtered value stays. -/
def AxisFollowsSpec (F : FilterConsts) (var dt f c r f1 c1 : ℚ) : Prop :=
  c1 = (axisSpec F var dt f c r).2 ∧
  ((f + c * dt ≠ 0 ∨ f + c * dt < F.FILTER_EPSILON) → f1 = (axisSpec F var dt f c r).1) ∧
  (f + c * dt = 0 → ¬ (f + c * dt < F.FILTER_EPSILON) → f1 = f)

/-- The double `|cur - filt| / |filt + 0.01|` is strictly greater than
`thres`: as a quotient of rationals when the divisor is not zero, and as an
infinite value when only the divisor is zero. -/
def ExceedsRel (cur filt thres : ℚ) : Prop :=
  (filt + 1 / 100 ≠ 0 ∧ |cur - filt| / |filt + 1 / 100| > thres) ∨
  (filt + 1 / 100 = 0 ∧ cur ≠ filt)

/-- An environment of the action thread in which the arm reaches home, the
gripper releases, every other action succeeds and sets the state `DONE`, and
nothing else touches the object while the service polls. -/
def obligingActions : ActionEnv :=
  { ACTION_HOME := "home", ACTION_RELEASE := "release",
    hoverAboveTable := fun _ => (true, []), releaseObject := fun _ => true,
    doAction := fun _ _ s => (true, s.setState DONE),
    spin := fun _ s => s, poll_fuel := 5 }

/-- An environment of the action thread in which nothing succeeds: the arm
does not reach home, the gripper does not release, and every other action
fails without touching the object. -/
def failingActions : ActionEnv :=
  { ACTION_HOME := "home", ACTION_RELEASE := "release",
    hoverAboveTable := fun _ => (false, []), releaseObject := fun _ => false,
    doAction := fun _ _ s => (false, s),
    spin := fun _ s => s, poll_fuel := 5 }

/-- The pose `p` raised by `k` steps of 0.001 along `z`. -/
def raisedPose (p : Pose) (k : ℕ) : Pose :=
  { p with position := { p.position with z := p.position.z + k / 1000 } }

/-- An environment in which every solver call succeeds with an invalid
solution and the clock stands still. -/
def invalidSolutionEnv : Env :=
  { now := 0, ros_ok := true, particle_set := true, particle_started := true,
    angleShortestPath := fun _ _ => 0, slerp := fun a _ _ => a,
    perform_ik := fun _ _ _ => { result := true, valid := false },
    elapsed := fun _ => 0, ik_fuel := 20 }

/-- An environment of `moveArm` with the speed 1/10 and one iteration a
second, in which the solver and the joint controller succeed, the arm stays
where it started, and ROS shuts down after four iterations. -/
def stalledArmEnv : MoveEnv :=
  { PICK_UP_SPEED := 1 / 10, ros_ok := fun k => decide (k < 4),
    t_elap := fun k => (k : ℚ) + 1,
    callIKService := fun _ _ _ => some [], goToPoseNoCheck := fun _ _ => true,
    pos := fun _ => {}, withinThres := fun a b t => decide (|a - b| ≤ t), fuel := 10 }

/-- An arm whose filtered force on `x` is -0.01 while the raw force on `x` is
0, the other axes at rest, with the relative threshold 1000. -/
def baselineAtPole : RobotInterface :=
  { filt_force := { x := -1 / 100, y := 1, z := 1 },
    curr_wrench := { force := { x := 0, y := 1, z := 1 } },
    rel_force_thres := 1000 }

/-- An environment one second into a session whose rotation is an angle of 1
long; its `slerp` answers with the fraction it was asked for, in `w`. -/
def turningEnv : Env :=
  { now := 1, ros_ok := true, particle_set := true, particle_started := true,
    angleShortestPath := fun _ _ => 1, slerp := fun _ _ t => { w := t },
    perform_ik := fun _ _ _ => { result := true, valid := true, joints := [0, 0, 0, 0, 0, 0, 0] },
    elapsed := fun _ => 0, ik_fuel := 20 }

/-- The filtered value and the rate of one axis after `n` updates of the
zero-initialised filter with the same elapsed time `dt` and the same raw
force `r` at every update. -/
def axisSeq (F : FilterConsts) (var dt r : ℚ) : ℕ → ℚ × ℚ
  | 0 => (0, 0)
  | n + 1 =>
    RobotInterface.filterAxis F var dt (axisSeq F var dt r n).1 (axisSeq F var dt r n).2 r

/-- Update times whose intervals double: update `n` happens at `2^(n+1) - 1`,
so after the intervals 1, 2, 4, ... -/
def doublingTimes (n : ℕ) : ℚ := 2 ^ (n + 1) - 1

/-- The zero-initialised filter at time 0 with the variance threshold 1/10. -/
def freshFilter : RobotInterface :=
  { filt_variance := 1 / 10 }

/-- Filter constants for the examples: smoothing 1/2, threshold 1/100. -/
def sampleFilter : FilterConsts :=
  { FORCE_ALPHA := 1 / 2, FILTER_EPSILON := 1 / 100 }

/-- A filter in the steady state: filtered force 1 on every axis, no rate of
change, variance threshold 1/10, and a raw force with a spike of 3 on `x`. -/
def steadyFilter : RobotInterface :=
  { filt_force := { x := 1, y := 1, z := 1 }, filt_variance := 1 / 10,
    curr_wrench := { force := { x := 3, y := 1, z := 1 } } }

/-- A choice of the constants, with three different mode codes. -/
def sampleConsts : Consts :=
  { POSITION_MODE := 1, VELOCITY_MODE := 2, RAW_POSITION_MODE := 4,
    ARM_SPEED := 1 / 10, ARM_ROT_SPEED := 1 / 2 }

/-- An environment in which the particle starts and the solver answers every
query at once with a valid solution. -/
def solvingEnv : Env :=
  { now := 0, ros_ok := true, particle_set := true, particle_started := true,
    angleShortestPath := fun _ _ => 0, slerp := fun a _ _ => a,
    perform_ik := fun _ _ _ => { result := true, valid := true, joints := [0, 0, 0, 0, 0, 0, 0] },
    elapsed := fun _ => 0, ik_fuel := 20 }

/-- An environment in which the solver answers that the solution is not valid
and takes a second to do so. -/
def noSolutionEnv : Env :=
  { now := 0, ros_ok := true, particle_set := true, particle_started := true,
    angleShortestPath := fun _ _ => 0, slerp := fun a _ _ => a,
    perform_ik := fun _ _ _ => { result := true, valid := false },
    elapsed := fun _ => 1, ik_fuel := 20 }

/-- The invariant of a control session: the stored check mode is one of the
two valid modes, and a running session has its particle. -/
def sessionInv (s : RobotInterface) : Prop :=
  (s.ctrl_check_mode = "strict" ∨ s.ctrl_check_mode = "loose") ∧
  (s.is_ctrl_running = true → s.particle ≠ none)

/-! ## Lemmas on the joint-configuration loops -/

open RobotInterface

/-- The inner loop runs to its end exactly when every current joint named
`target` has both positions readable and within the mode's tolerance `thr`;
its flag is then set when the name occurred (or was set before). -/
theorem scanCurrent_finished {mode : String} {thr : ℚ}
    (hm : (mode = "strict" ∧ thr = 10 / 1000) ∨ (mode = "loose" ∧ thr = 20 / 1000))
    (des : Option ℚ) (pos : List ℚ) (target : String) :
    ∀ (l : List String) (j : Nat) (res r : Bool),
      scanCurrent mode des pos target l j res = Scan.finished r ↔
        (∀ k, l[k]? = some target →
            ∃ d c, des = some d ∧ pos[j + k]? = some c ∧ |d - c| ≤ thr) ∧
        r = (res || decide (target ∈ l)) := by
  have hsl : ¬ ("loose" = "strict") := by decide
  intro l
  induction l with
  | nil =>
    intro j res r
    simp [scanCurrent, eq_comm]
  | cons n rest ih =>
    intro j res r
    have hsplit : ∀ (P : Nat → Prop), (∀ k, (n :: rest)[k]? = some target → P k) ↔
        ((n = target → P 0) ∧ ∀ k, rest[k]? = some target → P (k + 1)) := by
      intro P
      constructor
      · intro h
        exact ⟨fun hn => h 0 (by simp [hn]), fun k hk => h (k + 1) (by simpa using hk)⟩
      · rintro ⟨h0, hs⟩ k hk
        cases k with
        | zero => exact h0 (by simpa using hk)
        | succ k => exact hs k (by simpa using hk)
    rw [hsplit]
    by_cases ht : target = n
    · subst ht
      have hstep := ih (j + 1) true r
      have hidx : ∀ k, j + 1 + k = j + (k + 1) := fun k => by omega
      simp only [hidx] at hstep
      rcases hm with ⟨rfl, rfl⟩ | ⟨rfl, rfl⟩
      · cases hd : des with
        | none => simp [scanCurrent, hd]
        | some d =>
          cases hc : pos[j]? with
          | none => simp [scanCurrent, hd, hc]
          | some c =>
            by_cases hgt : |d - c| > 10 / 1000
            · have hnle : ¬ |d - c| ≤ 10 / 1000 := not_le.mpr hgt
              simp [scanCurrent, hd, hc, hgt, hnle]
            · have hle : |d - c| ≤ 10 / 1000 := not_lt.mp hgt
              rw [hd] at hstep
              simp only [scanCurrent, hc, if_true, hgt, if_false, hstep]
              simp [hc, hle]
      · cases hd : des with
        | none => simp [scanCurrent, hd, hsl]
        | some d =>
          cases hc : pos[j]? with
          | none => simp [scanCurrent, hd, hc, hsl]
          | some c =>
            by_cases hgt : |d - c| > 20 / 1000
            · have hnle : ¬ |d - c| ≤ 20 / 1000 := not_le.mpr hgt
              simp [scanCurrent, hd, hc, hgt, hnle, hsl]
            · have hle : |d - c| ≤ 20 / 1000 := not_lt.mp hgt
              rw [hd] at hstep
              simp only [scanCurrent, hc, if_true, hgt, if_false, hstep, hsl]
              simp [hc, hle]
    · have hstep := ih (j + 1) res r
      have hidx : ∀ k, j + 1 + k = j + (k + 1) := fun k => by omega
      simp only [hidx] at hstep
      have hnt : ¬ n = target := fun h => ht h.symm
      simp only [scanCurrent, ht, if_false, hstep]
      simp [hnt, ht]

/-- The outer loop returns true exactly when every desired joint name occurs
among the current joint names and every current joint of that name is within
the mode's tolerance `thr` of the desired position. -/
theorem scanDesired_true {mode : String} {thr : ℚ}
    (hm : (mode = "strict" ∧ thr = 10 / 1000) ∨ (mode = "loose" ∧ thr = 20 / 1000))
    (cj : JointState) (djpos : List ℚ) :
    ∀ (l : List String) (i : Nat),
      scanDesired mode cj djpos l i = some true ↔
        ∀ (k : Nat) (nm : String), l[k]? = some nm →
          (∃ j : Nat, cj.name[j]? = some nm) ∧
          ∀ j : Nat, cj.name[j]? = some nm →
            ∃ d c, djpos[i + k]? = some d ∧ cj.position[j]? = some c ∧ |d - c| ≤ thr := by
  intro l
  induction l with
  | nil => intro i; simp [scanDesired]
  | cons n rest ih =>
    intro i
    have key := scanCurrent_finished hm djpos[i]? cj.position n cj.name 0 false
    simp only [Nat.zero_add, Bool.false_or] at key
    have hidx : ∀ k, i + 1 + k = i + (k + 1) := fun k => by omega
    have hrest := ih (i + 1)
    simp only [hidx] at hrest
    have hmem : n ∈ cj.name ↔ ∃ j, cj.name[j]? = some n := List.mem_iff_getElem?
    constructor
    · intro h
      rw [scanDesired] at h
      cases hsc : scanCurrent mode djpos[i]? cj.position n cj.name 0 false with
      | fault => rw [hsc] at h; simp at h
      | reject => rw [hsc] at h; simp at h
      | finished res =>
        rw [hsc] at h
        have hk := (key res).mp hsc
        cases res with
        | false => simp at h
        | true =>
          simp only [Bool.true_eq_false, if_false] at h
          have hr := hrest.mp h
          have hin : n ∈ cj.name := by simpa using hk.2.symm
          intro k nm hknm
          cases k with
          | zero =>
            have hnm : n = nm := by simpa using hknm
            subst hnm
            exact ⟨hmem.mp hin, fun j hj => hk.1 j hj⟩
          | succ k => exact hr k nm (by simpa using hknm)
    · intro h
      have h0 := h 0 n (by simp)
      have hin : n ∈ cj.name := hmem.mpr h0.1
      have hfin : scanCurrent mode djpos[i]? cj.position n cj.name 0 false
          = Scan.finished true :=
        (key true).mpr ⟨fun j hj => by simpa using h0.2 j hj, by simp [hin]⟩
      rw [scanDesired, hfin]
      simp only [Bool.true_eq_false, if_false]
      exact hrest.mpr (fun k nm hknm => h (k + 1) nm (by simpa using hknm))

/-- Characterisation of `isConfigurationReached` in a mode with tolerance `thr`. -/
theorem isConfigurationReached_true {mode : String} {thr : ℚ}
    (hm : (mode = "strict" ∧ thr = 10 / 1000) ∨ (mode = "loose" ∧ thr = 20 / 1000))
    (s : RobotInterface) (dj : JointCommand) :
    s.isConfigurationReached dj mode = some true ↔
      7 ≤ s.curr_jnts.position.length ∧
      ∀ (i : Nat) (nm : String), dj.names[i]? = some nm →
        (∃ j : Nat, s.curr_jnts.name[j]? = some nm) ∧
        ∀ j : Nat, s.curr_jnts.name[j]? = some nm →
          ∃ d c, dj.position[i]? = some d ∧ s.curr_jnts.position[j]? = some c
            ∧ |d - c| ≤ thr := by
  have h := scanDesired_true hm s.curr_jnts dj.position dj.names 0
  simp only [Nat.zero_add] at h
  unfold isConfigurationReached getJointStates
  by_cases hlen : s.curr_jnts.position.length < 7
  · simp [hlen]
  · simp only [hlen, if_false, h]
    have : 7 ≤ s.curr_jnts.position.length := by omega
    simp [this]

/-- With a readable desired position and a current position for every current
joint name still to visit, the inner loop reads no array past its end. -/
theorem scanCurrent_ne_fault (mode : String) (d : ℚ) (pos : List ℚ) (target : String) :
    ∀ (l : List String) (j : Nat) (res : Bool), j + l.length ≤ pos.length →
      scanCurrent mode (some d) pos target l j res ≠ Scan.fault := by
  intro l
  induction l with
  | nil => intro j res _; simp [scanCurrent]
  | cons n rest ih =>
    intro j res hlen
    have hj : j < pos.length := by simp at hlen; omega
    have hrest : j + 1 + rest.length ≤ pos.length := by simp at hlen; omega
    have hget : pos[j]? = some pos[j] := List.getElem?_eq_getElem hj
    unfold scanCurrent
    simp only [hget]
    split_ifs
    all_goals first
      | exact ih (j + 1) _ hrest
      | exact fun h => Scan.noConfusion h

/-- With parallel arrays on both sides (a position for every name), the outer
loop returns a boolean. -/
theorem scanDesired_isSome (mode : String) (cj : JointState) (djpos : List ℚ)
    (hcj : cj.name.length ≤ cj.position.length) :
    ∀ (l : List String) (i : Nat), i + l.length ≤ djpos.length →
      ∃ b, scanDesired mode cj djpos l i = some b := by
  intro l
  induction l with
  | nil => intro i _; exact ⟨true, by simp [scanDesired]⟩
  | cons n rest ih =>
    intro i hlen
    have hi : i < djpos.length := by simp at hlen; omega
    have hrest : i + 1 + rest.length ≤ djpos.length := by simp at hlen; omega
    have hget : djpos[i]? = some djpos[i] := List.getElem?_eq_getElem hi
    have hnf := scanCurrent_ne_fault mode djpos[i] cj.position n cj.name 0 false
      (by simpa using hcj)
    rw [scanDesired, hget]
    cases hsc : scanCurrent mode (some djpos[i]) cj.position n cj.name 0 false with
    | fault => exact absurd hsc hnf
    | reject => exact ⟨false, rfl⟩
    | finished res =>
      cases res with
      | false => exact ⟨false, by simp⟩
      | true => simpa using ih (i + 1) hrest

/-- The vector overload, unfolded: false below seven entries, otherwise the
message overload on the limb's seven joint names and the first seven entries. -/
theorem isConfigurationReached_vec_eq (s : RobotInterface) (v : List ℚ) (mode : String) :
    s.isConfigurationReached_vec v mode =
      if v.length < 7 then some false
      else s.isConfigurationReached
        { names := [s.limb ++ "_j0", s.limb ++ "_j1", s.limb ++ "_j2", s.limb ++ "_j3",
                    s.limb ++ "_j4", s.limb ++ "_j5", s.limb ++ "_j6"],
          position := v.take 7 } mode := by
  rcases v with _ | ⟨d0, _ | ⟨d1, _ | ⟨d2, _ | ⟨d3, _ | ⟨d4, _ | ⟨d5, _ | ⟨d6, rest⟩⟩⟩⟩⟩⟩⟩
  case cons.cons.cons.cons.cons.cons.cons =>
    have hlen : ¬ (rest.length + 1 + 1 + 1 + 1 + 1 + 1 + 1 < 7) := by omega
    simp [isConfigurationReached_vec, setJointCommands, setJointNames, getLimb, hlen]
  all_goals simp [isConfigurationReached_vec]

/-- The strict position check implies the loose one. -/
theorem isPositionReached_strict_loose (s : RobotInterface) (px py pz : ℚ)
    (h : s.isPositionReached px py pz "strict" = true) :
    s.isPositionReached px py pz "loose" = true := by
  have hne : ¬ ("loose" = "strict") := by decide
  unfold isPositionReached at h ⊢
  simp only [if_true, hne, if_false] at h ⊢
  split_ifs at h
  have h1 : ¬ |s.getPos.x - px| > 10 / 1000 := fun hh => by linarith
  have h2 : ¬ |s.getPos.y - py| > 10 / 1000 := fun hh => by linarith
  have h3 : ¬ |s.getPos.z - pz| > 10 / 1000 := fun hh => by linarith
  simp [h1, h2, h3]

/-- The strict orientation check implies the loose one. -/
theorem isOrientationReached_strict_loose (s : RobotInterface) (ox oy oz ow : ℚ)
    (h : s.isOrientationReached ox oy oz ow "strict" = true) :
    s.isOrientationReached ox oy oz ow "loose" = true := by
  have hne : ¬ ("loose" = "strict") := by decide
  unfold isOrientationReached at h ⊢
  simp only [if_true, hne, if_false] at h ⊢
  split_ifs at h
  rename_i h98
  have h1 : ¬ |dot { x := ox, y := oy, z := oz, w := ow } s.getOri| < 95 / 100 :=
    fun hh => by linarith [not_lt.mp h98]
  simp [h1]

/-! ## Lemmas on the narrowing to `float` -/

/-- A number less than a half away from an integer rounds to it. -/
theorem roundHalfEven_eq (y : ℚ) (n : ℤ) (h : |y - n| < 1 / 2) : roundHalfEven y = n := by
  rw [abs_lt] at h
  by_cases hc : (n : ℚ) ≤ y
  · have hfloor : ⌊y⌋ = n := Int.floor_eq_iff.mpr ⟨hc, by linarith [h.2]⟩
    unfold roundHalfEven
    simp only [hfloor]
    rw [if_pos (by linarith [h.2])]
  · have hlt : y < n := not_le.mp hc
    have hfloor : ⌊y⌋ = n - 1 :=
      Int.floor_eq_iff.mpr ⟨by push_cast; linarith [h.1], by push_cast; linarith⟩
    unfold roundHalfEven
    simp only [hfloor]
    rw [if_neg (by push_cast; linarith [h.1]), if_pos (by push_cast; linarith [h.1])]
    ring

/-- Rounding moves a number by at most a half. -/
theorem roundHalfEven_err (y : ℚ) : |(roundHalfEven y : ℚ) - y| ≤ 1 / 2 := by
  have h1 := Int.floor_le y
  have h2 := Int.lt_floor_add_one y
  unfold roundHalfEven
  simp only
  rw [abs_le]
  split_ifs with ha hb hc
  · constructor <;> linarith
  · constructor <;> push_cast <;> linarith
  · have hhalf : y - ⌊y⌋ = 1 / 2 := le_antisymm (not_lt.mp hb) (not_lt.mp ha)
    constructor <;> linarith
  · have hhalf : y - ⌊y⌋ = 1 / 2 := le_antisymm (not_lt.mp hb) (not_lt.mp ha)
    constructor <;> push_cast <;> linarith

/-- The binary exponent of a number between two neighbouring powers of 2. -/
theorem log_two_eq (x : ℚ) (e : ℤ) (h1 : (2 : ℚ) ^ e ≤ |x|) (h2 : |x| < (2 : ℚ) ^ (e + 1)) :
    Int.log 2 |x| = e := by
  have hpos : 0 < |x| := lt_of_lt_of_le (zpow_pos (by norm_num) e) h1
  have hb : 1 < 2 := by norm_num
  have hle : e ≤ Int.log 2 |x| :=
    (Int.zpow_le_iff_le_log hb hpos).mp (by simpa using h1)
  have hlt : Int.log 2 |x| < e + 1 :=
    (Int.lt_zpow_iff_log_lt hb hpos).mp (by simpa using h2)
  omega

/-- The `float` of a number, from its binary exponent `e` and the integer `n`
nearest to its quotient by the spacing `2^(e-23)`. -/
theorem toFloat_eq (x : ℚ) (e n : ℤ) (he : -126 ≤ e) (h1 : (2 : ℚ) ^ e ≤ |x|)
    (h2 : |x| < (2 : ℚ) ^ (e + 1)) (hn : |x / 2 ^ (e - 23) - n| < 1 / 2)
    (hfin : |(n : ℚ) * 2 ^ (e - 23)| < 2 ^ 128) :
    toFloat x = some ((n : ℚ) * 2 ^ (e - 23)) := by
  unfold toFloat
  simp only [log_two_eq x e h1 h2, max_eq_left he, roundHalfEven_eq _ n hn]
  rw [if_pos hfin]

/-- The `float` of a number below 32768 in size is finite and less than
0.001 away from it: the spacing of such floats is at most `2^-9`. -/
theorem toFloat_err (x : ℚ) (hx : |x| < 32768) :
    ∃ T, toFloat x = some T ∧ |T - x| ≤ 1 / 1024 := by
  have hb : 1 < 2 := by norm_num
  have hlog : Int.log 2 |x| ≤ 14 := by
    by_cases h0 : x = 0
    · rw [h0, abs_zero, Int.log_zero_right]
      norm_num
    · have hpos : 0 < |x| := abs_pos.mpr h0
      have hlt : Int.log 2 |x| < 15 :=
        (Int.lt_zpow_iff_log_lt hb hpos).mp (by norm_num; linarith)
      omega
  have he : max (Int.log 2 |x|) (-126) ≤ 14 := max_le hlog (by norm_num)
  have hq0 : (0 : ℚ) < 2 ^ (max (Int.log 2 |x|) (-126) - 23) := zpow_pos (by norm_num) _
  have hq1 : (2 : ℚ) ^ (max (Int.log 2 |x|) (-126) - 23) ≤ 1 / 512 := by
    have h := zpow_le_zpow_right₀ (by norm_num : (1 : ℚ) ≤ 2)
      (by omega : max (Int.log 2 |x|) (-126) - 23 ≤ -9)
    have e9 : (2 : ℚ) ^ (-9 : ℤ) = 1 / 512 := by norm_num
    rw [e9] at h
    exact h
  have herr := roundHalfEven_err (x / 2 ^ (max (Int.log 2 |x|) (-126) - 23))
  have hdiff : |(roundHalfEven (x / 2 ^ (max (Int.log 2 |x|) (-126) - 23)) : ℚ)
      * 2 ^ (max (Int.log 2 |x|) (-126) - 23) - x| ≤ 1 / 1024 := by
    have e1 : (roundHalfEven (x / 2 ^ (max (Int.log 2 |x|) (-126) - 23)) : ℚ)
        * 2 ^ (max (Int.log 2 |x|) (-126) - 23) - x
        = ((roundHalfEven (x / 2 ^ (max (Int.log 2 |x|) (-126) - 23)) : ℚ)
            - x / 2 ^ (max (Int.log 2 |x|) (-126) - 23))
          * 2 ^ (max (Int.log 2 |x|) (-126) - 23) := by
      field_simp
    rw [e1, abs_mul, abs_of_pos hq0]
    calc |(roundHalfEven (x / 2 ^ (max (Int.log 2 |x|) (-126) - 23)) : ℚ)
            - x / 2 ^ (max (Int.log 2 |x|) (-126) - 23)|
          * 2 ^ (max (Int.log 2 |x|) (-126) - 23)
        ≤ 1 / 2 * (1 / 512) := mul_le_mul herr hq1 (le_of_lt hq0) (by norm_num)
      _ = 1 / 1024 := by norm_num
  refine ⟨_, ?_, hdiff⟩
  unfold toFloat
  simp only
  rw [if_pos]
  have habs := abs_sub_abs_le_abs_sub
    ((roundHalfEven (x / 2 ^ (max (Int.log 2 |x|) (-126) - 23)) : ℚ)
      * 2 ^ (max (Int.log 2 |x|) (-126) - 23)) x
  have hbig : (32768 : ℚ) + 1 / 1024 < 2 ^ 128 := by norm_num
  linarith

/-- The bound of `computeIK` for a pose at the height 0: the `float` nearest
to 0.01, which lies below 0.01. -/
theorem toFloat_hundredth : toFloat (0 + 1 / 100) = some (5368709 / 536870912) := by
  have h := toFloat_eq (0 + 1 / 100) (-7) 10737418 (by norm_num)
    (by rw [abs_of_pos (by norm_num)]; norm_num)
    (by rw [abs_of_pos (by norm_num)]; norm_num)
    (by rw [abs_lt]; constructor <;> norm_num)
    (by rw [abs_of_pos (by norm_num)]; norm_num)
  rw [h]
  norm_num

/-! ## Lemmas on the control session -/

/-- The loop of `computeIK` changes nothing of the object but the record of
the queries. -/
theorem computeIK_loop_frame (E : Env) (thresh_z : ℚ) :
    ∀ (fuel k : Nat) (pose : Pose) (s : RobotInterface)
      (r : Bool × List ℚ × RobotInterface),
      computeIK_loop E thresh_z fuel k pose s = some r →
        r.2.2 = { s with ik_requests := r.2.2.ik_requests } := by
  intro fuel
  induction fuel with
  | zero => intro k pose s r h; simp [computeIK_loop] at h
  | succ n ih =>
    intro k pose s r h
    simp only [computeIK_loop] at h
    split_ifs at h
    all_goals first
      | (cases h; rfl)
      | (have h2 := ih _ _ _ r h
         exact h2)

/-- The search of `computeIK` changes nothing of the object but the record of
the queries. -/
theorem computeIK_frame (E : Env) (s : RobotInterface) (p : Pose)
    (r : Bool × List ℚ × RobotInterface) (h : computeIK E s p = some r) :
    r.2.2 = { s with ik_requests := r.2.2.ik_requests } := by
  unfold computeIK at h
  cases hT : toFloat (p.position.z + 1 / 100) with
  | none =>
    rw [hT] at h
    cases h
  | some T =>
    rw [hT] at h
    exact computeIK_loop_frame E _ _ _ _ _ _ h

/-- The pose-to-joint-command path changes nothing of the object but the
records of the solver queries and of the joint commands. -/
theorem goToPoseNoCheck_frame (K : Consts) (E : Env) (s : RobotInterface) (p : Pose)
    (b : Bool) (s2 : RobotInterface) (h : goToPoseNoCheck K E s p = some (b, s2)) :
    s2 = { s with ik_requests := s2.ik_requests, joint_cmds := s2.joint_cmds } := by
  unfold goToPoseNoCheck at h
  cases hc : computeIK E s p with
  | none => simp [hc] at h
  | some r =>
    obtain ⟨b1, j, s1⟩ := r
    have hf := computeIK_frame E _ _ _ hc
    simp only at hf
    cases b1 with
    | false =>
      simp only [hc, Option.some.injEq, Prod.mk.injEq] at h
      rw [← h.2, hf]
    | true =>
      simp only [hc, Option.some.injEq, goToJointConfNoCheck, publishJointCmd,
        Prod.mk.injEq] at h
      rw [← h.2, hf]

/-- The part of `ctrlMsgCb` that sets the desired pose writes nothing else. -/
theorem setDesiredPose_frame (s : RobotInterface) (msg : GoToPose) :
    setDesiredPose s msg = { s with pose_des := (setDesiredPose s msg).pose_des } := by
  unfold setDesiredPose
  split_ifs <;> rfl

/-- The check mode that the end of `ctrlMsgCb` stores. -/
theorem startSession_check_mode (K : Consts) (E : Env) (s : RobotInterface) (msg : GoToPose) :
    (startSession K E s msg).ctrl_check_mode =
      if msg.check_mode = "strict" ∨ msg.check_mode = "loose" then msg.check_mode
      else "strict" := by
  have hcw : ¬ (CTRL_RUNNING = WORKING) := by decide
  unfold startSession initCtrlParams
  by_cases h1 : msg.check_mode = "strict" <;> by_cases h2 : msg.check_mode = "loose" <;>
    by_cases h3 : (E.particle_set && E.particle_started) = true <;>
    simp [h1, h2, h3, setCtrlRunning, setState, publishState, hcw]

/-- What the end of `ctrlMsgCb` does to the session: it runs, in state
`CTRL_RUNNING`, exactly when the particle was set up and started; the
particle exists either way. -/
theorem startSession_running (K : Consts) (E : Env) (s : RobotInterface) (msg : GoToPose) :
    (startSession K E s msg).particle ≠ none ∧
    ((E.particle_set && E.particle_started) = true →
      (startSession K E s msg).is_ctrl_running = true ∧
      (startSession K E s msg).state = CTRL_RUNNING) ∧
    ((E.particle_set && E.particle_started) = false →
      (startSession K E s msg).is_ctrl_running = s.is_ctrl_running ∧
      (startSession K E s msg).state = s.state ∧
      (startSession K E s msg).published = s.published) := by
  have hcw : ¬ (CTRL_RUNNING = WORKING) := by decide
  unfold startSession initCtrlParams
  by_cases h1 : msg.check_mode = "strict" <;> by_cases h2 : msg.check_mode = "loose" <;>
    by_cases h3 : (E.particle_set && E.particle_started) = true <;>
    simp [h1, h2, h3, setCtrlRunning, setState, publishState, hcw]

/-- A goal message that passes the type and control-mode checks reaches the
end of `ctrlMsgCb`. -/
theorem ctrlMsgCb_accepted (K : Consts) (E : Env) (s : RobotInterface) (msg : GoToPose)
    (hs : s.state ≠ WORKING)
    (hg : msg.type = "pose" ∨ msg.type = "position" ∨ msg.type = "relative_x" ∨
      msg.type = "relative_y" ∨ msg.type = "relative_z")
    (hm : msg.ctrl_mode = K.POSITION_MODE ∨ (s.is_experimental = true ∧
      (msg.ctrl_mode = K.VELOCITY_MODE ∨ msg.ctrl_mode = K.RAW_POSITION_MODE))) :
    ∃ s2 : RobotInterface, s.ctrlMsgCb K E msg = startSession K E s2 msg := by
  have hstop : msg.type ≠ "stop" := by
    rcases hg with h | h | h | h | h <;> rw [h] <;> decide
  have hgoal : msg.type = "position" ∨ msg.type = "pose" ∨ msg.type = "relative_x" ∨
      msg.type = "relative_y" ∨ msg.type = "relative_z" := by tauto
  have hexp : (setDesiredPose (s.setCtrlRunning false) msg).is_experimental
      = s.is_experimental := by
    rw [setDesiredPose_frame]
    simp [setCtrlRunning, setCtrlRunning_off]
  unfold ctrlMsgCb
  simp only [getState, ne_eq, hs, not_false_eq_true, if_true, hstop, if_false, hgoal, hexp]
  split_ifs
  all_goals first
    | exact ⟨_, rfl⟩
    | (exfalso
       rcases hm with hm | ⟨he, hv | hr⟩ <;> simp_all)

/-- The session invariant looks at the check mode, the running flag and the
particle only. -/
theorem sessionInv_congr {s s1 : RobotInterface} (h : sessionInv s)
    (h1 : s1.ctrl_check_mode = s.ctrl_check_mode)
    (h2 : s1.is_ctrl_running = true → s.is_ctrl_running = true)
    (h3 : s.particle ≠ none → s1.particle ≠ none) : sessionInv s1 :=
  ⟨by rw [h1]; exact h.1, fun hr => h3 (h.2 (h2 hr))⟩

/-- The session invariant holds once the running flag is clear. -/
theorem sessionInv_stopped {s s1 : RobotInterface} (h : sessionInv s)
    (h1 : s1.ctrl_check_mode = s.ctrl_check_mode) (h2 : s1.is_ctrl_running = false) :
    sessionInv s1 :=
  ⟨by rw [h1]; exact h.1, fun hr => by rw [h2] at hr; cases hr⟩

/-- Setter `setState` keeps the session invariant. -/
theorem sessionInv_setState {s : RobotInterface} (h : sessionInv s) (state : ArmState) :
    sessionInv (s.setState state).2 := by
  by_cases hw : state = WORKING
  · exact sessionInv_stopped h (by simp [setState, publishState, setCtrlRunning_off, hw])
      (by simp [setState, publishState, setCtrlRunning_off, hw])
  · exact sessionInv_congr h (by simp [setState, publishState, hw])
      (by simp [setState, publishState, hw]) (by simp [setState, publishState, hw])

/-- The end of `ctrlMsgCb` establishes the session invariant. -/
theorem sessionInv_startSession (K : Consts) (E : Env) (s : RobotInterface) (msg : GoToPose) :
    sessionInv (startSession K E s msg) := by
  refine ⟨?_, fun _ => (startSession_running K E s msg).1⟩
  rw [startSession_check_mode]
  split_ifs with h
  · exact h
  · exact Or.inl rfl

/-- Callback `ctrlMsgCb` keeps the session invariant. -/
theorem sessionInv_ctrlMsgCb (K : Consts) (E : Env) {s : RobotInterface} (h : sessionInv s)
    (msg : GoToPose) : sessionInv (s.ctrlMsgCb K E msg) := by
  have hdw : ¬ (CTRL_DONE = WORKING) := by decide
  have hoff : sessionInv (s.setCtrlRunning false) :=
    sessionInv_stopped h (by simp [setCtrlRunning, setCtrlRunning_off])
      (by simp [setCtrlRunning, setCtrlRunning_off])
  have hdes : sessionInv (setDesiredPose (s.setCtrlRunning false) msg) := by
    refine sessionInv_stopped h ?_ ?_ <;> rw [setDesiredPose_frame] <;>
      simp [setCtrlRunning, setCtrlRunning_off]
  simp only [ctrlMsgCb]
  split_ifs
  all_goals first
    | exact h
    | exact hoff
    | exact hdes
    | exact sessionInv_startSession K E _ msg

/-- The target of the session as the control tick checks it. -/
theorem isPoseReached_pose_des (s : RobotInterface) :
    s.isPoseReached_pose s.pose_des s.ctrl_check_mode s.getCtrlType =
      s.isPoseReached s.pose_des.position.x s.pose_des.position.y s.pose_des.position.z
        s.pose_des.orientation.x s.pose_des.orientation.y s.pose_des.orientation.z
        s.pose_des.orientation.w s.ctrl_check_mode s.getCtrlType := rfl

/-- The control tick without a running session does nothing. -/
theorem controlTick_idle (K : Consts) (E : Env) (s : RobotInterface)
    (hrun : s.is_ctrl_running = false) : s.controlTick K E = some s := by
  simp [controlTick, isCtrlRunning, hrun]

/-- The control tick of a running session whose target is not reached. -/
theorem controlTick_not_reached (K : Consts) (E : Env) (s : RobotInterface)
    (part : LinearPointParticle) (hrun : s.is_ctrl_running = true)
    (hnot : s.isPoseReached_pose s.pose_des s.ctrl_check_mode s.getCtrlType = false)
    (hp : s.particle = some part) :
    s.controlTick K E =
      match goToPoseNoCheck K E { s with pose_curr := tickPose K E s part }
          (tickPose K E s part) with
      | none => none
      | some (false, s2) => some ((s2.setCtrlRunning false).setState CTRL_FAIL).2
      | some (true, s2) => some s2 := by
  rw [isPoseReached_pose_des] at hnot
  simp only [controlTick, isCtrlRunning, hrun, hnot, if_true, hp]

/-- The control tick of a running session whose target is reached, with
tracking off. -/
theorem controlTick_reached (K : Consts) (E : Env) (s : RobotInterface)
    (part : LinearPointParticle) (hrun : s.is_ctrl_running = true)
    (hyes : s.isPoseReached_pose s.pose_des s.ctrl_check_mode s.getCtrlType = true)
    (htrack : s.ctrl_track_mode = false) (hp : s.particle = some part) :
    s.controlTick K E =
      some (((if s.ctrl_mode = K.VELOCITY_MODE then
                (goToJointConfNoCheck K
                  { s with particle := some { part with is_running := false } }
                  (List.replicate 7 0)).2
              else { s with particle := some { part with is_running := false } }).setCtrlRunning
            false).setState CTRL_DONE).2 := by
  rw [isPoseReached_pose_des] at hyes
  simp only [controlTick, isCtrlRunning, hrun, hyes, htrack, if_true, hp]
  simp

/-- The control tick of a running session whose target is reached, with
tracking on, does nothing. -/
theorem controlTick_tracking (K : Consts) (E : Env) (s : RobotInterface)
    (hrun : s.is_ctrl_running = true)
    (hyes : s.isPoseReached_pose s.pose_des s.ctrl_check_mode s.getCtrlType = true)
    (htrack : s.ctrl_track_mode = true) : s.controlTick K E = some s := by
  rw [isPoseReached_pose_des] at hyes
  simp [controlTick, isCtrlRunning, hrun, hyes, htrack]

/-- The control tick of a running session without a particle has no result,
unless the target is reached with tracking on. -/
theorem controlTick_no_particle (K : Consts) (E : Env) (s : RobotInterface)
    (hrun : s.is_ctrl_running = true) (hp : s.particle = none)
    (h : s.isPoseReached_pose s.pose_des s.ctrl_check_mode s.getCtrlType = false ∨
      s.ctrl_track_mode = false) : s.controlTick K E = none := by
  rw [isPoseReached_pose_des] at h
  by_cases hnot : s.isPoseReached s.pose_des.position.x s.pose_des.position.y
      s.pose_des.position.z s.pose_des.orientation.x s.pose_des.orientation.y
      s.pose_des.orientation.z s.pose_des.orientation.w s.ctrl_check_mode s.getCtrlType = false
  · simp [controlTick, isCtrlRunning, hrun, hnot, hp]
  · have htrack := h.resolve_left hnot
    simp [controlTick, isCtrlRunning, hrun, hnot, hp, htrack]

/-- What a control tick can do: nothing; or end the session, in state
`CTRL_FAIL`, or in state `CTRL_DONE` when tracking is off; or send a pose to
the solver and a joint command, with everything else as it was. -/
theorem controlTick_cases (K : Consts) (E : Env) (s s1 : RobotInterface)
    (h : s.controlTick K E = some s1) :
    s1 = s ∨
    (s1.is_ctrl_running = false ∧ s1.particle = none ∧
      s1.ctrl_check_mode = s.ctrl_check_mode ∧ s1.ctrl_track_mode = s.ctrl_track_mode ∧
      (s1.state = CTRL_FAIL ∨ (s1.state = CTRL_DONE ∧ s.ctrl_track_mode = false))) ∨
    s1 = { s with pose_curr := s1.pose_curr, ik_requests := s1.ik_requests,
                  joint_cmds := s1.joint_cmds } := by
  have hdw : ¬ (CTRL_DONE = WORKING) := by decide
  have hfw : ¬ (CTRL_FAIL = WORKING) := by decide
  cases hrun : s.is_ctrl_running with
  | false =>
    rw [controlTick_idle K E s hrun] at h
    left; cases h; rfl
  | true =>
    cases hreach : s.isPoseReached_pose s.pose_des s.ctrl_check_mode s.getCtrlType with
    | false =>
      cases hp : s.particle with
      | none => rw [controlTick_no_particle K E s hrun hp (Or.inl hreach)] at h; cases h
      | some part =>
        rw [controlTick_not_reached K E s part hrun hreach hp] at h
        cases hg : goToPoseNoCheck K E { s with pose_curr := tickPose K E s part }
            (tickPose K E s part) with
        | none => simp [hg] at h
        | some r =>
          obtain ⟨b, s2⟩ := r
          have hf := goToPoseNoCheck_frame K E _ _ b s2 hg
          cases b with
          | false =>
            simp only [hg, Option.some.injEq] at h
            right; left
            rw [← h, hf]
            simp [setCtrlRunning, setCtrlRunning_off, setState, publishState, hfw]
          | true =>
            simp only [hg, Option.some.injEq] at h
            right; right
            have hpc : s2.pose_curr = tickPose K E s part := by rw [hf]
            rw [← h, hpc]
            simpa [hrun, hp] using hf
    | true =>
      cases htrack : s.ctrl_track_mode with
      | true =>
        rw [controlTick_tracking K E s hrun hreach htrack] at h
        left; cases h; rfl
      | false =>
        cases hp : s.particle with
        | none => rw [controlTick_no_particle K E s hrun hp (Or.inr htrack)] at h; cases h
        | some part =>
          rw [controlTick_reached K E s part hrun hreach htrack hp] at h
          simp only [Option.some.injEq] at h
          right; left
          rw [← h]
          split_ifs <;>
            simp [setCtrlRunning, setCtrlRunning_off, setState, publishState, hdw,
              goToJointConfNoCheck, publishJointCmd, htrack]

/-- The control tick keeps the session invariant. -/
theorem sessionInv_controlTick (K : Consts) (E : Env) {s s1 : RobotInterface}
    (h : sessionInv s) (ht : s.controlTick K E = some s1) : sessionInv s1 := by
  rcases controlTick_cases K E s s1 ht with h1 | ⟨h1, _, h3, _⟩ | h1
  · rw [h1]; exact h
  · exact sessionInv_stopped h h3 h1
  · rw [h1]; exact sessionInv_congr h rfl (fun hr => hr) (fun hp => hp)

/-- Every reachable state satisfies the session invariant. -/
theorem reachable_sessionInv {K : Consts} {s : RobotInterface} (h : Reachable K s) :
    sessionInv s := by
  have hsw : ¬ (START = WORKING) := by decide
  induction h with
  | construct limb use_cart_ctrl is_experimental print_level =>
    unfold RobotInterface.construct
    split_ifs <;> simp [sessionInv, setState, publishState, hsw]
  | ctrlMsgCb E msg _ ih => exact sessionInv_ctrlMsgCb K E ih msg
  | controlTick E _ ht ih => exact sessionInv_controlTick K E ih ht
  | cuffLowerCb P msg _ ih =>
    unfold RobotInterface.cuffLowerCb
    split_ifs
    · exact sessionInv_setState ih KILLED
    · exact ih
  | cuffUpperCb P msg _ ih =>
    unfold RobotInterface.cuffUpperCb
    split_ifs
    · exact sessionInv_setState ih KILLED
    · exact ih
  | setState state _ ih => exact sessionInv_setState ih state
  | setCtrlType ctrl_type _ ih =>
    unfold RobotInterface.setCtrlType
    split_ifs
    · exact ih
    · exact sessionInv_congr ih rfl (fun hr => hr) (fun hp => hp)
  | observe r _ ih =>
    refine sessionInv_congr ih rfl (fun hr => hr) ?_
    intro hp
    cases hq : s.particle <;> simp_all [RobotInterface.observe]
  | jointStates cj _ ih => exact sessionInv_congr ih rfl (fun hr => hr) (fun hp => hp)

/-! ## Lemmas on the force filter -/

/-- The comparison `abs(n / d) < t` of doubles: the divisor is not zero and
the quotient of the rationals is below `t`. -/
theorem absQuotLt_iff (n d t : ℚ) :
    absQuotLt (absQuot n d) t = true ↔ d ≠ 0 ∧ |n / d| < t := by
  unfold absQuot
  by_cases hd : d = 0
  · by_cases hn : n = 0 <;> simp [hd, hn, absQuotLt]
  · simp [hd, absQuotLt]

/-- The comparison `abs(n / d) > t` of doubles: the divisor is not zero and
the quotient of the rationals is above `t`, or only the divisor is zero. -/
theorem absQuotGt_iff (n d t : ℚ) :
    absQuotGt (absQuot n d) t = true ↔ (d ≠ 0 ∧ |n / d| > t) ∨ (d = 0 ∧ n ≠ 0) := by
  unfold absQuot
  by_cases hd : d = 0
  · by_cases hn : n = 0 <;> simp [hd, hn, absQuotGt]
  · simp [hd, absQuotGt]

/-- The work of `filterForces` on one axis, in formulas. -/
theorem filterAxis_eq (F : FilterConsts) (var dt f c r : ℚ) :
    filterAxis F var dt f c r =
      (if f + c * dt < F.FILTER_EPSILON ∨
          (f + c * dt ≠ 0 ∧
            |((1 - F.FORCE_ALPHA) * f + F.FORCE_ALPHA * r - (f + c * dt)) / (f + c * dt)| < var)
        then (1 - F.FORCE_ALPHA) * f + F.FORCE_ALPHA * r else f,
       ((1 - F.FORCE_ALPHA) * f + F.FORCE_ALPHA * r - f) / dt) := by
  unfold filterAxis
  simp only [absQuotLt_iff]
  by_cases h1 : f + c * dt < F.FILTER_EPSILON
  · simp [h1]
  · simp [h1]

/-- With a positive warm-up threshold the predicted value is not zero where
the quotient is taken, so the guard on the divisor can be dropped. -/
theorem filterAxis_eq_of_pos (F : FilterConsts) (var dt f c r : ℚ)
    (hε : 0 < F.FILTER_EPSILON) :
    filterAxis F var dt f c r =
      (if f + c * dt < F.FILTER_EPSILON ∨
            |((1 - F.FORCE_ALPHA) * f + F.FORCE_ALPHA * r - (f + c * dt)) / (f + c * dt)| < var
        then (1 - F.FORCE_ALPHA) * f + F.FORCE_ALPHA * r else f,
       ((1 - F.FORCE_ALPHA) * f + F.FORCE_ALPHA * r - f) / dt) := by
  rw [filterAxis_eq]
  by_cases h1 : f + c * dt < F.FILTER_EPSILON
  · simp [h1]
  · have hne : f + c * dt ≠ 0 := by
      intro h0
      rw [h0] at h1
      exact h1 hε
    simp [h1, hne]

/-- The result of `filterForces` after a nonzero elapsed time. -/
theorem filterForces_eq (F : FilterConsts) (now : ℚ) (s : RobotInterface)
    (hdt : now - s.time_filt_last_updated ≠ 0) :
    filterForces F now s = some
      { s with
        filt_force :=
          { x := (filterAxis F s.filt_variance (now - s.time_filt_last_updated) s.filt_force.x
                    s.filt_change.x s.curr_wrench.force.x).1,
            y := (filterAxis F s.filt_variance (now - s.time_filt_last_updated) s.filt_force.y
                    s.filt_change.y s.curr_wrench.force.y).1,
            z := (filterAxis F s.filt_variance (now - s.time_filt_last_updated) s.filt_force.z
                    s.filt_change.z s.curr_wrench.force.z).1 },
        filt_change :=
          { x := (filterAxis F s.filt_variance (now - s.time_filt_last_updated) s.filt_force.x
                    s.filt_change.x s.curr_wrench.force.x).2,
            y := (filterAxis F s.filt_variance (now - s.time_filt_last_updated) s.filt_force.y
                    s.filt_change.y s.curr_wrench.force.y).2,
            z := (filterAxis F s.filt_variance (now - s.time_filt_last_updated) s.filt_force.z
                    s.filt_change.z s.curr_wrench.force.z).2 },
        time_filt_last_updated := now } := by
  simp [filterForces, hdt]

/-- The work of `filterForces` on one axis follows the specification. -/
theorem filterAxis_followsSpec (F : FilterConsts) (var dt f c r : ℚ) :
    AxisFollowsSpec F var dt f c r (filterAxis F var dt f c r).1
      (filterAxis F var dt f c r).2 := by
  rw [filterAxis_eq]
  refine ⟨rfl, ?_, ?_⟩
  · intro h
    simp only [axisSpec]
    by_cases h1 : f + c * dt < F.FILTER_EPSILON
    · simp [h1]
    · have hne : f + c * dt ≠ 0 := h.resolve_right h1
      simp [h1, hne]
  · intro h0 h1
    show (if _ then _ else _) = f
    rw [if_neg]
    rintro (h | ⟨hne, _⟩)
    · exact h1 h
    · exact hne h0

/-- The comparison of `relativeDiff` with a threshold. -/
theorem relativeDiff_gt_iff (a b t : ℚ) :
    absQuotGt (relativeDiff a b) t = true ↔ ExceedsRel a b t := by
  unfold relativeDiff ExceedsRel
  rw [absQuotGt_iff]
  simp only [ne_eq, abs_eq_zero, abs_div, abs_abs, sub_ne_zero, sub_eq_zero]

/-! ## Lemmas on the action thread -/

/-- The state and the published states after the inherited `setState`. -/
theorem ArmCtrl_setState_state (s : ArmCtrl) (state : ArmState) :
    (s.setState state).getState = state ∧
    (s.setState state).published = s.published ++ [state] ∧
    (s.setState state).action = s.action := by
  by_cases h : state = WORKING <;>
    simp [ArmCtrl.setState, RobotInterface.setState, publishState, setCtrlRunning_off,
      getState, h]

/-- The action thread never ends in the state `WORKING`. -/
theorem InternalThreadEntry_not_working (A : ActionEnv) (s : ArmCtrl) :
    (ArmCtrl.InternalThreadEntry A s).getState ≠ WORKING := by
  have hew : ¬ (ERROR = WORKING) := by decide
  unfold ArmCtrl.InternalThreadEntry
  simp only
  split_ifs <;> assumption

/-- The polling loop is left only in one of the four terminal states. -/
theorem pollLoop_terminal (A : ActionEnv) :
    ∀ (fuel k : Nat) (s s3 : ArmCtrl), ArmCtrl.pollLoop A fuel k s = some s3 →
      s3.getState = START ∨ s3.getState = ERROR ∨ s3.getState = DONE ∨
        s3.getState = PICK_UP := by
  intro fuel
  induction fuel with
  | zero => intro k s s3 h; simp [ArmCtrl.pollLoop] at h
  | succ n ih =>
    intro k s s3 h
    rw [ArmCtrl.pollLoop] at h
    split_ifs at h with hc
    · exact ih _ _ _ h
    · simp only [Option.some.injEq] at h
      rw [← h]
      by_contra hn
      exact hc ⟨fun a => hn (Or.inl a), fun a => hn (Or.inr (Or.inl a)),
        fun a => hn (Or.inr (Or.inr (Or.inl a))), fun a => hn (Or.inr (Or.inr (Or.inr a)))⟩

/-- The polling loop returns at once in a terminal state. -/
theorem pollLoop_of_terminal (A : ActionEnv) (fuel k : Nat) (s : ArmCtrl)
    (h : s.getState = START ∨ s.getState = ERROR ∨ s.getState = DONE ∨
      s.getState = PICK_UP) :
    ArmCtrl.pollLoop A (fuel + 1) k s = some s := by
  rw [ArmCtrl.pollLoop, if_neg]
  rintro ⟨h1, h2, h3, h4⟩
  rcases h with h | h | h | h
  · exact h1 h
  · exact h2 h
  · exact h3 h
  · exact h4 h

/-! ## Lemmas on the convergence of the force filter -/

/-- The rate stored by an update times the elapsed time is the step towards
the raw force. -/
theorem filterAxis_rate (F : FilterConsts) (var dt f c r : ℚ) (hdt : dt ≠ 0) :
    (filterAxis F var dt f c r).2 * dt = F.FORCE_ALPHA * (r - f) := by
  rw [filterAxis_eq]
  simp only
  field_simp
  ring

/-- An update keeps the filtered value or moves it to the smoothed value. -/
theorem filterAxis_value (F : FilterConsts) (var dt f c r : ℚ) :
    (filterAxis F var dt f c r).1 = f ∨
    (filterAxis F var dt f c r).1 = (1 - F.FORCE_ALPHA) * f + F.FORCE_ALPHA * r := by
  rw [filterAxis_eq]
  simp only
  split_ifs
  · exact Or.inr rfl
  · exact Or.inl rfl

/-- When the stored rate predicts exactly the smoothed value, the update
accepts it. -/
theorem filterAxis_accepts (F : FilterConsts) (var dt f c r : ℚ)
    (hε : 0 < F.FILTER_EPSILON) (hvar : 0 < var)
    (hc : c * dt = F.FORCE_ALPHA * (r - f)) :
    (filterAxis F var dt f c r).1 = (1 - F.FORCE_ALPHA) * f + F.FORCE_ALPHA * r := by
  rw [filterAxis_eq_of_pos F var dt f c r hε]
  have hpred : f + c * dt = (1 - F.FORCE_ALPHA) * f + F.FORCE_ALPHA * r := by
    rw [hc]; ring
  simp only
  rw [if_pos]
  right
  rw [hpred, sub_self, zero_div, abs_zero]
  exact hvar

/-- The distance to the raw force after an accepted update. -/
theorem smoothed_error (α f r : ℚ) (h1 : α < 1) :
    |r - ((1 - α) * f + α * r)| = (1 - α) * |r - f| := by
  have e : r - ((1 - α) * f + α * r) = (1 - α) * (r - f) := by ring
  rw [e, abs_mul, abs_of_pos (by linarith : (0 : ℚ) < 1 - α)]

/-- An update never moves the filtered value away from the raw force. -/
theorem axisSeq_error_step (F : FilterConsts) (var dt r : ℚ)
    (h0 : 0 < F.FORCE_ALPHA) (h1 : F.FORCE_ALPHA < 1) (n : ℕ) :
    |r - (axisSeq F var dt r (n + 1)).1| ≤ |r - (axisSeq F var dt r n).1| := by
  rcases filterAxis_value F var dt (axisSeq F var dt r n).1 (axisSeq F var dt r n).2 r
    with h | h
  · rw [axisSeq, h]
  · rw [axisSeq, h, smoothed_error _ _ _ h1]
    have := abs_nonneg (r - (axisSeq F var dt r n).1)
    nlinarith

/-- Of two updates in a row at least one is accepted: the distance to the raw
force shrinks by the factor `1 - α` every two updates. -/
theorem axisSeq_error_two_steps (F : FilterConsts) (var dt r : ℚ)
    (h0 : 0 < F.FORCE_ALPHA) (h1 : F.FORCE_ALPHA < 1) (hε : 0 < F.FILTER_EPSILON)
    (hvar : 0 < var) (hdt : dt ≠ 0) (n : ℕ) :
    |r - (axisSeq F var dt r (n + 2)).1| ≤
      (1 - F.FORCE_ALPHA) * |r - (axisSeq F var dt r n).1| := by
  rcases filterAxis_value F var dt (axisSeq F var dt r n).1 (axisSeq F var dt r n).2 r
    with h | h
  · have hrate : (axisSeq F var dt r (n + 1)).2 * dt
        = F.FORCE_ALPHA * (r - (axisSeq F var dt r (n + 1)).1) := by
      have hr := filterAxis_rate F var dt (axisSeq F var dt r n).1
        (axisSeq F var dt r n).2 r hdt
      have hv : (axisSeq F var dt r (n + 1)).1 = (axisSeq F var dt r n).1 := by
        rw [axisSeq, h]
      rw [hv]
      rw [axisSeq]
      exact hr
    have hacc := filterAxis_accepts F var dt (axisSeq F var dt r (n + 1)).1
      (axisSeq F var dt r (n + 1)).2 r hε hvar hrate
    have hv : (axisSeq F var dt r (n + 1)).1 = (axisSeq F var dt r n).1 := by
      rw [axisSeq, h]
    have e2 : (axisSeq F var dt r (n + 2)).1
        = (1 - F.FORCE_ALPHA) * (axisSeq F var dt r n).1 + F.FORCE_ALPHA * r := by
      rw [axisSeq, hacc, hv]
    rw [e2, smoothed_error _ _ _ h1]
  · have hstep := axisSeq_error_step F var dt r h0 h1 (n + 1)
    have e1 : |r - (axisSeq F var dt r (n + 1)).1|
        = (1 - F.FORCE_ALPHA) * |r - (axisSeq F var dt r n).1| := by
      rw [axisSeq, h, smoothed_error _ _ _ h1]
    linarith

/-- The distance to the raw force after `n` updates of the zero-initialised
filter. -/
theorem axisSeq_error_bound (F : FilterConsts) (var dt r : ℚ)
    (h0 : 0 < F.FORCE_ALPHA) (h1 : F.FORCE_ALPHA < 1) (hε : 0 < F.FILTER_EPSILON)
    (hvar : 0 < var) (hdt : dt ≠ 0) :
    ∀ k : ℕ, |r - (axisSeq F var dt r (2 * k)).1| ≤ (1 - F.FORCE_ALPHA) ^ k * |r| ∧
      |r - (axisSeq F var dt r (2 * k + 1)).1| ≤ (1 - F.FORCE_ALPHA) ^ k * |r| := by
  have hpos : (0 : ℚ) ≤ 1 - F.FORCE_ALPHA := by linarith
  have heven : ∀ k : ℕ, |r - (axisSeq F var dt r (2 * k)).1|
      ≤ (1 - F.FORCE_ALPHA) ^ k * |r| := by
    intro k
    induction k with
    | zero => simp [axisSeq]
    | succ k ih =>
      have h2 := axisSeq_error_two_steps F var dt r h0 h1 hε hvar hdt (2 * k)
      have e : 2 * (k + 1) = 2 * k + 2 := by ring
      rw [e, pow_succ]
      calc |r - (axisSeq F var dt r (2 * k + 2)).1|
          ≤ (1 - F.FORCE_ALPHA) * |r - (axisSeq F var dt r (2 * k)).1| := h2
        _ ≤ (1 - F.FORCE_ALPHA) * ((1 - F.FORCE_ALPHA) ^ k * |r|) :=
            mul_le_mul_of_nonneg_left ih hpos
        _ = (1 - F.FORCE_ALPHA) ^ k * (1 - F.FORCE_ALPHA) * |r| := by ring
  intro k
  exact ⟨heven k, le_trans (axisSeq_error_step F var dt r h0 h1 (2 * k)) (heven k)⟩

/-- The filtered value of one axis converges to the raw force. -/
theorem axisSeq_converges (F : FilterConsts) (var dt r : ℚ)
    (h0 : 0 < F.FORCE_ALPHA) (h1 : F.FORCE_ALPHA < 1) (hε : 0 < F.FILTER_EPSILON)
    (hvar : 0 < var) (hdt : dt ≠ 0) (δ : ℚ) (hδ : 0 < δ) :
    ∃ N : ℕ, ∀ n, N ≤ n → |(axisSeq F var dt r n).1 - r| < δ := by
  have hpos : (0 : ℚ) ≤ 1 - F.FORCE_ALPHA := by linarith
  have hlt : 1 - F.FORCE_ALPHA < 1 := by linarith
  have hr : (0 : ℚ) < |r| + 1 := by have := abs_nonneg r; linarith
  obtain ⟨K, hK⟩ := exists_pow_lt_of_lt_one (div_pos hδ hr) hlt
  refine ⟨2 * K, fun n hn => ?_⟩
  have hbound : |r - (axisSeq F var dt r n).1| ≤ (1 - F.FORCE_ALPHA) ^ (n / 2) * |r| := by
    rcases Nat.even_or_odd' n with ⟨k, hk | hk⟩
    · have : n / 2 = k := by omega
      rw [this, hk]
      exact (axisSeq_error_bound F var dt r h0 h1 hε hvar hdt k).1
    · have : n / 2 = k := by omega
      rw [this, hk]
      exact (axisSeq_error_bound F var dt r h0 h1 hε hvar hdt k).2
  have hpow : (1 - F.FORCE_ALPHA) ^ (n / 2) ≤ (1 - F.FORCE_ALPHA) ^ K :=
    pow_le_pow_of_le_one hpos (le_of_lt hlt) (by omega)
  have hK2 : (1 - F.FORCE_ALPHA) ^ K * (|r| + 1) < δ := by
    rwa [lt_div_iff₀ hr] at hK
  have hpK : (0 : ℚ) ≤ (1 - F.FORCE_ALPHA) ^ K := pow_nonneg hpos K
  rw [abs_sub_comm]
  calc |r - (axisSeq F var dt r n).1|
      ≤ (1 - F.FORCE_ALPHA) ^ (n / 2) * |r| := hbound
    _ ≤ (1 - F.FORCE_ALPHA) ^ K * |r| := mul_le_mul_of_nonneg_right hpow (abs_nonneg r)
    _ ≤ (1 - F.FORCE_ALPHA) ^ K * (|r| + 1) := by nlinarith
    _ < δ := hK2

/-- One force update after a nonzero elapsed time has a result: each axis
holds the result of `filterAxis`, the time is the time of the update and
the variance threshold is kept. -/
theorem forceUpdate_axes (F : FilterConsts) (now : ℚ) (w : Wrench) (s : RobotInterface)
    (hdt : now - s.time_filt_last_updated ≠ 0) :
    ∃ s2, forceUpdate F now w s = some s2 ∧
      s2.filt_force.x = (filterAxis F s.filt_variance (now - s.time_filt_last_updated)
        s.filt_force.x s.filt_change.x w.force.x).1 ∧
      s2.filt_force.y = (filterAxis F s.filt_variance (now - s.time_filt_last_updated)
        s.filt_force.y s.filt_change.y w.force.y).1 ∧
      s2.filt_force.z = (filterAxis F s.filt_variance (now - s.time_filt_last_updated)
        s.filt_force.z s.filt_change.z w.force.z).1 ∧
      s2.filt_change.x = (filterAxis F s.filt_variance (now - s.time_filt_last_updated)
        s.filt_force.x s.filt_change.x w.force.x).2 ∧
      s2.filt_change.y = (filterAxis F s.filt_variance (now - s.time_filt_last_updated)
        s.filt_force.y s.filt_change.y w.force.y).2 ∧
      s2.filt_change.z = (filterAxis F s.filt_variance (now - s.time_filt_last_updated)
        s.filt_force.z s.filt_change.z w.force.z).2 ∧
      s2.time_filt_last_updated = now ∧ s2.filt_variance = s.filt_variance := by
  refine ⟨_, filterForces_eq F now { s with curr_wrench := w } hdt, ?_⟩
  exact ⟨rfl, rfl, rfl, rfl, rfl, rfl, rfl, rfl⟩

/-- One more update in the sequence of force updates. -/
theorem filterSeq_succ (F : FilterConsts) (now : ℕ → ℚ) (raw : ℕ → Vector3)
    (s0 s : RobotInterface) (n : ℕ) (h : filterSeq F now raw s0 n = some s) :
    filterSeq F now raw s0 (n + 1) = forceUpdate F (now n) { force := raw n } s := by
  rw [filterSeq, h]

/-- With the same elapsed time at every update and a constant raw force,
every update of the zero-initialised filter has a result and each axis
follows `axisSeq`. -/
theorem filterSeq_axisSeq (F : FilterConsts) (s0 : RobotInterface) (dt : ℚ) (r : Vector3)
    (hdt : dt ≠ 0) (hfx : s0.filt_force.x = 0) (hfy : s0.filt_force.y = 0)
    (hfz : s0.filt_force.z = 0) (hcx : s0.filt_change.x = 0) (hcy : s0.filt_change.y = 0)
    (hcz : s0.filt_change.z = 0) (n : ℕ) :
    ∃ s, filterSeq F (fun k => s0.time_filt_last_updated + ((k : ℚ) + 1) * dt)
        (fun _ => r) s0 n = some s ∧
      s.filt_force.x = (axisSeq F s0.filt_variance dt r.x n).1 ∧
      s.filt_force.y = (axisSeq F s0.filt_variance dt r.y n).1 ∧
      s.filt_force.z = (axisSeq F s0.filt_variance dt r.z n).1 ∧
      s.filt_change.x = (axisSeq F s0.filt_variance dt r.x n).2 ∧
      s.filt_change.y = (axisSeq F s0.filt_variance dt r.y n).2 ∧
      s.filt_change.z = (axisSeq F s0.filt_variance dt r.z n).2 ∧
      s.time_filt_last_updated = s0.time_filt_last_updated + (n : ℚ) * dt ∧
      s.filt_variance = s0.filt_variance := by
  induction n with
  | zero =>
    refine ⟨s0, rfl, ?_⟩
    simp [axisSeq, hfx, hfy, hfz, hcx, hcy, hcz]
  | succ n ih =>
    obtain ⟨s, hs, gfx, gfy, gfz, gcx, gcy, gcz, ht, hv⟩ := ih
    have hd : s0.time_filt_last_updated + ((n : ℚ) + 1) * dt - s.time_filt_last_updated
        = dt := by
      rw [ht]; ring
    have hne : s0.time_filt_last_updated + ((n : ℚ) + 1) * dt - s.time_filt_last_updated
        ≠ 0 := by
      rw [hd]; exact hdt
    obtain ⟨s2, h2, kfx, kfy, kfz, kcx, kcy, kcz, kt, kv⟩ :=
      forceUpdate_axes F (s0.time_filt_last_updated + ((n : ℚ) + 1) * dt) { force := r } s hne
    refine ⟨s2, ?_, ?_, ?_, ?_, ?_, ?_, ?_, ?_, ?_⟩
    · rw [filterSeq_succ _ _ _ _ _ _ hs]
      exact h2
    · rw [kfx, hd, hv, gfx, gcx]; rfl
    · rw [kfy, hd, hv, gfy, gcy]; rfl
    · rw [kfz, hd, hv, gfz, gcz]; rfl
    · rw [kcx, hd, hv, gfx, gcx]; rfl
    · rw [kcy, hd, hv, gfy, gcy]; rfl
    · rw [kcz, hd, hv, gfz, gcz]; rfl
    · rw [kt]; push_cast; ring
    · rw [kv, hv]

/-- An update of one axis in the stuck state of the filter with doubling
intervals: value 1/2, rate `1/2^(n+3)`, elapsed time `2^(n+2)`, raw force 1.
The predicted value is 1, the smoothed value 3/4 is 1/4 away from it in
relative terms, and the value stays. -/
theorem filterAxis_stuck (n : ℕ) :
    filterAxis sampleFilter (1 / 10) (2 ^ (n + 2)) (1 / 2) (1 / 2 ^ (n + 3)) 1
      = (1 / 2, 1 / 2 ^ (n + 4)) := by
  have hp : (0 : ℚ) < 2 ^ (n + 2) := by positivity
  have hpred : (1 / 2 : ℚ) + 1 / 2 ^ (n + 3) * 2 ^ (n + 2) = 1 := by
    rw [pow_succ 2 (n + 2)]
    field_simp
    ring
  rw [filterAxis_eq_of_pos _ _ _ _ _ _ (by norm_num [sampleFilter])]
  rw [hpred]
  have e : (2 : ℚ) ^ (n + 4) = 2 ^ (n + 2) * 4 := by
    rw [pow_add 2 (n + 2) 2]; norm_num
  refine Prod.ext ?_ ?_
  · norm_num [sampleFilter]
    rw [abs_of_pos (by norm_num)]
    norm_num
  · simp only [sampleFilter]
    rw [e]
    field_simp
    ring

/-- With doubling intervals the zero-initialised filter takes the first
update and then rejects every update: from the second update on the filtered
value is 1/2 on every axis. -/
theorem filterSeq_doubling (n : ℕ) :
    ∃ s, filterSeq sampleFilter doublingTimes (fun _ => { x := 1, y := 1, z := 1 })
        freshFilter (n + 2) = some s ∧
      s.filt_force.x = 1 / 2 ∧ s.filt_force.y = 1 / 2 ∧ s.filt_force.z = 1 / 2 ∧
      s.filt_change.x = 1 / 2 ^ (n + 3) ∧ s.filt_change.y = 1 / 2 ^ (n + 3) ∧
      s.filt_change.z = 1 / 2 ^ (n + 3) ∧
      s.time_filt_last_updated = 2 ^ (n + 2) - 1 ∧ s.filt_variance = 1 / 10 := by
  induction n with
  | zero =>
    have h0 : filterSeq sampleFilter doublingTimes (fun _ => { x := 1, y := 1, z := 1 })
        freshFilter 0 = some freshFilter := rfl
    obtain ⟨s1, h1, afx, afy, afz, acx, acy, acz, at1, av⟩ :=
      forceUpdate_axes sampleFilter (doublingTimes 0) { force := { x := 1, y := 1, z := 1 } }
        freshFilter (by norm_num [doublingTimes, freshFilter])
    have hs1 := (filterSeq_succ _ _ _ _ _ _ h0).trans h1
    have e1 : filterAxis sampleFilter (1 / 10) 1 0 0 1 = (1 / 2, 1 / 2) := by
      norm_num [filterAxis, sampleFilter]
    have hd1 : doublingTimes 0 - freshFilter.time_filt_last_updated = 1 := by
      norm_num [doublingTimes, freshFilter]
    have hv0 : freshFilter.filt_variance = 1 / 10 := rfl
    have hz : freshFilter.filt_force.x = 0 ∧ freshFilter.filt_force.y = 0 ∧
        freshFilter.filt_force.z = 0 ∧ freshFilter.filt_change.x = 0 ∧
        freshFilter.filt_change.y = 0 ∧ freshFilter.filt_change.z = 0 :=
      ⟨rfl, rfl, rfl, rfl, rfl, rfl⟩
    rw [hd1, hv0, hz.1] at afx
    rw [hd1, hv0, hz.2.1] at afy
    rw [hd1, hv0, hz.2.2.1] at afz
    rw [hd1, hv0, hz.1] at acx
    rw [hd1, hv0, hz.2.1] at acy
    rw [hd1, hv0, hz.2.2.1] at acz
    rw [hz.2.2.2.1] at afx acx
    rw [hz.2.2.2.2.1] at afy acy
    rw [hz.2.2.2.2.2] at afz acz
    have e1a := congrArg Prod.fst e1
    have e1b := congrArg Prod.snd e1
    simp only at e1a e1b
    have hd2 : doublingTimes 1 - s1.time_filt_last_updated = 2 := by
      rw [at1]; norm_num [doublingTimes]
    obtain ⟨s2, h2, kfx, kfy, kfz, kcx, kcy, kcz, kt, kv⟩ :=
      forceUpdate_axes sampleFilter (doublingTimes 1) { force := { x := 1, y := 1, z := 1 } }
        s1 (by rw [hd2]; norm_num)
    have e2 : filterAxis sampleFilter (1 / 10) 2 (1 / 2) (1 / 2) 1 = (1 / 2, 1 / 2 ^ (0 + 3)) := by
      rw [filterAxis_eq_of_pos _ _ _ _ _ _ (by norm_num [sampleFilter])]
      refine Prod.ext ?_ ?_
      · norm_num [sampleFilter]
        rw [abs_of_pos (by norm_num)]
        norm_num
      · norm_num [sampleFilter]
    refine ⟨s2, (filterSeq_succ _ _ _ _ _ _ hs1).trans h2, ?_, ?_, ?_, ?_, ?_, ?_, ?_, ?_⟩
    · rw [kfx, hd2, av, hv0, afx, acx, e1a, e1b]; exact congrArg Prod.fst e2
    · rw [kfy, hd2, av, hv0, afy, acy, e1a, e1b]; exact congrArg Prod.fst e2
    · rw [kfz, hd2, av, hv0, afz, acz, e1a, e1b]; exact congrArg Prod.fst e2
    · rw [kcx, hd2, av, hv0, afx, acx, e1a, e1b]; exact congrArg Prod.snd e2
    · rw [kcy, hd2, av, hv0, afy, acy, e1a, e1b]; exact congrArg Prod.snd e2
    · rw [kcz, hd2, av, hv0, afz, acz, e1a, e1b]; exact congrArg Prod.snd e2
    · rw [kt]; norm_num [doublingTimes]
    · rw [kv, av, hv0]
  | succ n ih =>
    obtain ⟨s, hs, gfx, gfy, gfz, gcx, gcy, gcz, ht, hv⟩ := ih
    have hd : doublingTimes (n + 2) - s.time_filt_last_updated = 2 ^ (n + 2) := by
      rw [ht, doublingTimes]; ring
    have hne : doublingTimes (n + 2) - s.time_filt_last_updated ≠ 0 := by
      rw [hd]; positivity
    obtain ⟨s2, h2, kfx, kfy, kfz, kcx, kcy, kcz, kt, kv⟩ :=
      forceUpdate_axes sampleFilter (doublingTimes (n + 2)) { force := { x := 1, y := 1, z := 1 } }
        s hne
    refine ⟨s2, ?_, ?_, ?_, ?_, ?_, ?_, ?_, ?_, ?_⟩
    · rw [filterSeq_succ _ _ _ _ _ _ hs]
      exact h2
    · rw [kfx, hd, hv, gfx, gcx]; exact congrArg Prod.fst (filterAxis_stuck n)
    · rw [kfy, hd, hv, gfy, gcy]; exact congrArg Prod.fst (filterAxis_stuck n)
    · rw [kfz, hd, hv, gfz, gcz]; exact congrArg Prod.fst (filterAxis_stuck n)
    · rw [kcx, hd, hv, gfx, gcx]; exact congrArg Prod.snd (filterAxis_stuck n)
    · rw [kcy, hd, hv, gfy, gcy]; exact congrArg Prod.snd (filterAxis_stuck n)
    · rw [kcz, hd, hv, gfz, gcz]; exact congrArg Prod.snd (filterAxis_stuck n)
    · rw [kt, doublingTimes]
    · rw [kv, hv]

/-! ## Lemmas on the search of `computeIK` -/

/-- Raising a raised pose once more. -/
theorem raisedPose_succ (p : Pose) (k : ℕ) :
    ({ raisedPose p k with
        position := { (raisedPose p k).position with
          z := (raisedPose p k).position.z + 1 / 1000 } } : Pose) = raisedPose p (k + 1) := by
  simp only [raisedPose, Nat.cast_add, Nat.cast_one]
  congr 2
  ring

/-- The loop of `computeIK` against a solver that always succeeds with an
invalid solution, for a bound `T` that the heights raised fewer than `N`
times do not pass and the height raised `N` times passes.  Entered at
iteration `k < N` with the pose raised `k` times and enough fuel, it returns
false with no joint angles after having queried the poses raised `0` to
`n - 1` times for some `n ≤ N`, and `n = N` unless the clock ran out. -/
theorem computeIK_loop_invalid (E : Env) (s : RobotInterface) (p : Pose) (T : ℚ) (N : ℕ)
    (hok : ok E s = true)
    (hinv : ∀ (k : Nat) (pose : Pose) (seed : JointState),
      (E.perform_ik k pose seed).result = true ∧ (E.perform_ik k pose seed).valid = false)
    (hbelow : ∀ j : ℕ, j < N → p.position.z + (j : ℚ) / 1000 ≤ T)
    (habove : p.position.z + (N : ℚ) / 1000 > T) :
    ∀ (m k fuel : Nat), k + m = N → 1 ≤ m → m ≤ fuel →
      ∃ n, k < n ∧ n ≤ N ∧
        computeIK_loop E T fuel k (raisedPose p k)
            { s with ik_requests := s.ik_requests ++ (List.range k).map (raisedPose p) }
          = some (false, [],
              { s with ik_requests := s.ik_requests ++ (List.range n).map (raisedPose p) }) ∧
        ((∀ i, E.elapsed i ≤ 5 / 100) → n = N) := by
  intro m
  induction m with
  | zero => intro k fuel _ h1 _; omega
  | succ m ih =>
    intro k fuel hk _ hfuel
    obtain ⟨fuel1, rfl⟩ : ∃ f, fuel = f + 1 := ⟨fuel - 1, by omega⟩
    have hok1 : ok E { s with ik_requests := s.ik_requests ++ (List.range k).map (raisedPose p) }
        = true := hok
    have hres := (hinv k (raisedPose p k)
      (getJointStates
        { s with ik_requests := s.ik_requests ++ (List.range k).map (raisedPose p) })).1
    have hval := (hinv k (raisedPose p k)
      (getJointStates
        { s with ik_requests := s.ik_requests ++ (List.range k).map (raisedPose p) })).2
    have hreq : s.ik_requests ++ (List.range k).map (raisedPose p) ++ [raisedPose p k]
        = s.ik_requests ++ (List.range (k + 1)).map (raisedPose p) := by
      rw [List.range_succ, List.map_append, List.append_assoc]
      rfl
    have hzk : (raisedPose p (k + 1)).position.z = p.position.z + ((k + 1 : ℕ) : ℚ) / 1000 := rfl
    rw [computeIK_loop]
    simp only [hok1, if_true, hres, hval, Bool.false_eq_true, and_false, if_false,
      raisedPose_succ, hreq]
    by_cases hm : m = 0
    · have hkN : k + 1 = N := by omega
      refine ⟨k + 1, by omega, by omega, ?_, fun _ => hkN⟩
      rw [if_pos]
      right
      rw [hzk, hkN]
      exact habove
    · have hz : ¬ ((raisedPose p (k + 1)).position.z > T) := by
        rw [hzk]
        exact not_lt.mpr (hbelow (k + 1) (by omega))
      by_cases ht : E.elapsed k > 5 / 100
      · refine ⟨k + 1, by omega, by omega, ?_, ?_⟩
        · rw [if_pos (Or.inl ht)]
        · intro hall
          exact absurd ht (not_lt.mpr (hall k))
      · rw [if_neg (by rintro (h | h); exact ht h; exact hz h)]
        obtain ⟨n, hn1, hn2, hn3, hn4⟩ := ih (k + 1) fuel1 (by omega) (by omega) (by omega)
        exact ⟨n, by omega, hn2, hn3, hn4⟩

/-- The search of `computeIK` against a solver that always succeeds with an
invalid solution, for a `float` bound `T`: it makes at most `N` calls, the
number of raised heights that `T` lets through. -/
theorem computeIK_invalid (E : Env) (s : RobotInterface) (p : Pose) (T : ℚ) (N : ℕ)
    (hT : toFloat (p.position.z + 1 / 100) = some T)
    (hok : ok E s = true)
    (hinv : ∀ (k : Nat) (pose : Pose) (seed : JointState),
      (E.perform_ik k pose seed).result = true ∧ (E.perform_ik k pose seed).valid = false)
    (hN : 1 ≤ N) (hfuel : N ≤ E.ik_fuel)
    (hbelow : ∀ j : ℕ, j < N → p.position.z + (j : ℚ) / 1000 ≤ T)
    (habove : p.position.z + (N : ℚ) / 1000 > T) :
    ∃ n, 1 ≤ n ∧ n ≤ N ∧
      computeIK E s p = some (false, [],
        { s with ik_requests := s.ik_requests ++ (List.range n).map (raisedPose p) }) ∧
      ((∀ i, E.elapsed i ≤ 5 / 100) → n = N) := by
  obtain ⟨n, hn1, hn2, hn3, hn4⟩ :=
    computeIK_loop_invalid E s p T N hok hinv hbelow habove N 0 E.ik_fuel (by omega) hN hfuel
  have hp0 : raisedPose p 0 = p := by simp [raisedPose]
  refine ⟨n, by omega, hn2, ?_, hn4⟩
  unfold computeIK
  rw [hT]
  rw [hp0] at hn3
  simpa using hn3

/-- For a requested height whose bound is below 32768 in size, the `float`
bound is less than 0.001 away from `z + 0.01`, and the search makes 10 or 11
calls unless the clock ends it earlier. -/
theorem computeIK_invalid_in_range (E : Env) (s : RobotInterface) (p : Pose)
    (hok : ok E s = true)
    (hinv : ∀ (k : Nat) (pose : Pose) (seed : JointState),
      (E.perform_ik k pose seed).result = true ∧ (E.perform_ik k pose seed).valid = false)
    (hfuel : 11 ≤ E.ik_fuel) (hz : |p.position.z + 1 / 100| < 32768) :
    ∃ n, 1 ≤ n ∧ n ≤ 11 ∧
      computeIK E s p = some (false, [],
        { s with ik_requests := s.ik_requests ++ (List.range n).map (raisedPose p) }) ∧
      ((∀ i, E.elapsed i ≤ 5 / 100) → n = 10 ∨ n = 11) := by
  obtain ⟨T, hT, herr⟩ := toFloat_err _ hz
  rw [abs_le] at herr
  have hlow : ∀ j : ℕ, j < 10 → p.position.z + (j : ℚ) / 1000 ≤ T := by
    intro j hj
    have : (j : ℚ) ≤ 9 := by exact_mod_cast (by omega : j ≤ 9)
    linarith [herr.1]
  by_cases hc : p.position.z + ((10 : ℕ) : ℚ) / 1000 > T
  · obtain ⟨n, h1, h2, h3, h4⟩ :=
      computeIK_invalid E s p T 10 hT hok hinv (by omega) (by omega) hlow hc
    exact ⟨n, h1, by omega, h3, fun h => Or.inl (h4 h)⟩
  · have hbelow : ∀ j : ℕ, j < 11 → p.position.z + (j : ℚ) / 1000 ≤ T := by
      intro j hj
      by_cases hj10 : j = 10
      · rw [hj10]
        exact not_lt.mp hc
      · exact hlow j (by omega)
    have habove : p.position.z + ((11 : ℕ) : ℚ) / 1000 > T := by
      push_cast
      linarith [herr.2]
    obtain ⟨n, h1, h2, h3, h4⟩ :=
      computeIK_invalid E s p T 11 hT hok hinv (by omega) hfuel hbelow habove
    exact ⟨n, h1, h2, h3, fun h => Or.inr (h4 h)⟩

/-- The bound of `computeIK` for a pose at the height 32768: the spacing of
the floats there is `2^-8`, and the nearest one to 32768.01 is
32768.01171875. -/
theorem toFloat_high : toFloat (32768 + 1 / 100) = some (32768 + 3 / 256) := by
  have h := toFloat_eq (32768 + 1 / 100) 15 8388611 (by norm_num)
    (by rw [abs_of_pos (by norm_num)]; norm_num)
    (by rw [abs_of_pos (by norm_num)]; norm_num)
    (by rw [abs_lt]; constructor <;> norm_num)
    (by rw [abs_of_pos (by norm_num)]; norm_num)
  rw [h]
  norm_num

/-! ## Lemmas on the desired pose of a goal message -/

/-- The end of `ctrlMsgCb` leaves the desired pose as it is. -/
theorem startSession_pose_des (K : Consts) (E : Env) (s : RobotInterface) (msg : GoToPose) :
    (startSession K E s msg).pose_des = s.pose_des := by
  have hcw : ¬ (CTRL_RUNNING = WORKING) := by decide
  unfold startSession initCtrlParams
  by_cases h1 : msg.check_mode = "strict" <;> by_cases h2 : msg.check_mode = "loose" <;>
    by_cases h3 : (E.particle_set && E.particle_started) = true <;>
    simp [h1, h2, h3, setCtrlRunning, setState, publishState, hcw]

/-- For a goal message received in a state other than `WORKING`, the desired
pose after `ctrlMsgCb` is the one its first part stores, whether or not the
control mode is accepted afterwards. -/
theorem ctrlMsgCb_pose_des (K : Consts) (E : Env) (s : RobotInterface) (msg : GoToPose)
    (hs : s.state ≠ WORKING)
    (hg : msg.type = "pose" ∨ msg.type = "position" ∨ msg.type = "relative_x" ∨
      msg.type = "relative_y" ∨ msg.type = "relative_z") :
    (s.ctrlMsgCb K E msg).pose_des = (setDesiredPose (s.setCtrlRunning false) msg).pose_des := by
  have hstop : msg.type ≠ "stop" := by
    rcases hg with h | h | h | h | h <;> rw [h] <;> decide
  have hgoal : msg.type = "position" ∨ msg.type = "pose" ∨ msg.type = "relative_x" ∨
      msg.type = "relative_y" ∨ msg.type = "relative_z" := by tauto
  unfold ctrlMsgCb
  simp only [getState, ne_eq, hs, not_false_eq_true, if_true, hstop, if_false, hgoal]
  split_ifs <;> first
    | rfl
    | (rw [startSession_pose_des])

/-! ## Lemmas on an unknown check mode -/

/-- With a mode that is neither `strict` nor `loose` the inner loop reads no
position: it runs to its end, and its flag is set when the name occurred (or
was set before). -/
theorem scanCurrent_unknown {mode : String} (h1 : mode ≠ "strict") (h2 : mode ≠ "loose")
    (des : Option ℚ) (pos : List ℚ) (target : String) :
    ∀ (l : List String) (j : Nat) (res : Bool),
      scanCurrent mode des pos target l j res =
        Scan.finished (res || decide (target ∈ l)) := by
  intro l
  induction l with
  | nil =>
    intro j res
    simp [scanCurrent]
  | cons n rest ih =>
    intro j res
    by_cases ht : target = n
    · subst ht
      simp [scanCurrent, h1, h2, ih]
    · simp [scanCurrent, ht, ih]

/-- With a mode that is neither `strict` nor `loose` the outer loop answers
whether every desired name occurs among the current names. -/
theorem scanDesired_unknown {mode : String} (h1 : mode ≠ "strict") (h2 : mode ≠ "loose")
    (cj : JointState) (djpos : List ℚ) :
    ∀ (names : List String) (i : Nat),
      scanDesired mode cj djpos names i = some (decide (∀ n ∈ names, n ∈ cj.name)) := by
  intro names
  induction names with
  | nil =>
    intro i
    simp [scanDesired]
  | cons n rest ih =>
    intro i
    by_cases hn : n ∈ cj.name
    · simp [scanDesired, scanCurrent_unknown h1 h2, hn, ih]
    · simp [scanDesired, scanCurrent_unknown h1 h2, hn]

/-! ## Theorems -/

/-- C1: `isPositionReached` returns true exactly when the mode is `strict` or
`loose` and each of the three axis errors is at most that mode's threshold,
0.003 for strict and 0.010 for loose (an error equal to the threshold passes). -/
theorem C1_isPositionReached_iff (s : RobotInterface) (px py pz : ℚ) (mode : String) :
    s.isPositionReached px py pz mode = true ↔
      (mode = "strict" ∧ |s.curr_pos.x - px| ≤ 3 / 1000 ∧ |s.curr_pos.y - py| ≤ 3 / 1000
          ∧ |s.curr_pos.z - pz| ≤ 3 / 1000) ∨
      (mode = "loose" ∧ |s.curr_pos.x - px| ≤ 10 / 1000 ∧ |s.curr_pos.y - py| ≤ 10 / 1000
          ∧ |s.curr_pos.z - pz| ≤ 10 / 1000) := by
  unfold isPositionReached getPos
  by_cases hs : mode = "strict"
  · subst hs
    simp only [if_true, true_and, gt_iff_lt]
    have hne : ¬ ("strict" = "loose") := by decide
    simp only [hne, false_and, or_false]
    split_ifs <;> constructor <;> intro h <;> simp_all <;> linarith [h.1, h.2.1, h.2.2]
  · by_cases hl : mode = "loose"
    · subst hl
      simp only [hs, if_false, if_true, false_and, false_or, true_and, gt_iff_lt]
      split_ifs <;> constructor <;> intro h <;> simp_all <;> linarith [h.1, h.2.1, h.2.2]
    · simp [hs, hl]

/-- C2: `isOrientationReached` returns true exactly when the mode is `strict`
or `loose` and the absolute value of the four-component dot product of the
desired and the current quaternion is at least that mode's minimum, 0.98 for
strict and 0.95 for loose. -/
theorem C2_isOrientationReached_iff (s : RobotInterface) (ox oy oz ow : ℚ) (mode : String) :
    s.isOrientationReached ox oy oz ow mode = true ↔
      (mode = "strict" ∧ 98 / 100 ≤
        |ox * s.curr_ori.x + oy * s.curr_ori.y + oz * s.curr_ori.z + ow * s.curr_ori.w|) ∨
      (mode = "loose" ∧ 95 / 100 ≤
        |ox * s.curr_ori.x + oy * s.curr_ori.y + oz * s.curr_ori.z + ow * s.curr_ori.w|) := by
  unfold isOrientationReached getOri dot
  by_cases hs : mode = "strict"
  · subst hs
    have hne : ¬ ("strict" = "loose") := by decide
    simp [hne]
  · by_cases hl : mode = "loose"
    · subst hl
      simp [hs]
    · simp [hs, hl]

/-- C3: `isPoseReached` returns false for every type that is none of `pose`,
`position`, `orientation`, whatever the mode, and returns false for each of
the three valid types when the mode is neither `strict` nor `loose`. -/
theorem C3_isPoseReached_invalid (s : RobotInterface) (px py pz ox oy oz ow : ℚ)
    (mode type : String) :
    ((type ≠ "pose" ∧ type ≠ "position" ∧ type ≠ "orientation") →
        s.isPoseReached px py pz ox oy oz ow mode type = false) ∧
    ((mode ≠ "strict" ∧ mode ≠ "loose") →
        s.isPoseReached px py pz ox oy oz ow mode "pose" = false ∧
        s.isPoseReached px py pz ox oy oz ow mode "position" = false ∧
        s.isPoseReached px py pz ox oy oz ow mode "orientation" = false) := by
  constructor
  · rintro ⟨h1, h2, h3⟩
    simp [isPoseReached, h1, h2, h3]
  · rintro ⟨h1, h2⟩
    simp [isPoseReached, isPositionReached, isOrientationReached, h1, h2]

/-- C3, at the inputs of the unit test: the default pose on a freshly
constructed interface with (loose, sdf), (strict, sdf), (sdf, pose),
(sdf, position), (sdf, orientation). -/
theorem C3_isPoseReached_invalid_witness :
    isPoseReached_pose {} {} "loose" "sdf" = false ∧
    isPoseReached_pose {} {} "strict" "sdf" = false ∧
    isPoseReached_pose {} {} "sdf" "pose" = false ∧
    isPoseReached_pose {} {} "sdf" "position" = false ∧
    isPoseReached_pose {} {} "sdf" "orientation" = false :=
  ⟨(C3_isPoseReached_invalid {} 0 0 0 0 0 0 0 "loose" "sdf").1 (by decide),
   (C3_isPoseReached_invalid {} 0 0 0 0 0 0 0 "strict" "sdf").1 (by decide),
   ((C3_isPoseReached_invalid {} 0 0 0 0 0 0 0 "sdf" "pose").2 (by decide)).1,
   ((C3_isPoseReached_invalid {} 0 0 0 0 0 0 0 "sdf" "pose").2 (by decide)).2.1,
   ((C3_isPoseReached_invalid {} 0 0 0 0 0 0 0 "sdf" "pose").2 (by decide)).2.2⟩

/-- C4: for every mode (so for `strict` and `loose`), `isPoseReached` with
type `pose` is the conjunction of the position and the orientation check on
the same target and mode; with type `position` it is the position check alone
and does not depend on the desired or the current orientation; with type
`orientation` it is the orientation check alone and does not depend on the
desired or the current position. -/
theorem C4_isPoseReached_types (s : RobotInterface) (px py pz ox oy oz ow : ℚ)
    (mode : String) :
    s.isPoseReached px py pz ox oy oz ow mode "pose" =
      (s.isPositionReached px py pz mode && s.isOrientationReached ox oy oz ow mode) ∧
    s.isPoseReached px py pz ox oy oz ow mode "position" =
      s.isPositionReached px py pz mode ∧
    s.isPoseReached px py pz ox oy oz ow mode "orientation" =
      s.isOrientationReached ox oy oz ow mode ∧
    (∀ (q : Quaternion) (ox2 oy2 oz2 ow2 : ℚ),
      isPoseReached { s with curr_ori := q } px py pz ox2 oy2 oz2 ow2 mode "position" =
        s.isPoseReached px py pz ox oy oz ow mode "position") ∧
    (∀ (p : Point) (px2 py2 pz2 : ℚ),
      isPoseReached { s with curr_pos := p } px2 py2 pz2 ox oy oz ow mode "orientation" =
        s.isPoseReached px py pz ox oy oz ow mode "orientation") := by
  have h1 : ¬ ("position" = "pose") := by decide
  have h2 : ¬ ("position" = "orientation") := by decide
  have h3 : ¬ ("orientation" = "pose") := by decide
  have h4 : ¬ ("orientation" = "position") := by decide
  refine ⟨?_, ?_, ?_, ?_, ?_⟩
  · cases hp : s.isPositionReached px py pz mode <;>
      cases ho : s.isOrientationReached ox oy oz ow mode <;>
      simp [isPoseReached, hp, ho]
  · cases hp : s.isPositionReached px py pz mode <;> simp [isPoseReached, hp, h1, h2]
  · cases ho : s.isOrientationReached ox oy oz ow mode <;> simp [isPoseReached, ho, h3, h4]
  · intro q ox2 oy2 oz2 ow2
    simp [isPoseReached, isPositionReached, getPos, h1, h2]
  · intro p px2 py2 pz2
    simp [isPoseReached, isOrientationReached, getOri, h3, h4]

/-- C5: `setCtrlType t` returns true and makes `getCtrlType` return `t` when
`t` is exactly `pose`, `position` or `orientation`; for every other string it
returns false and leaves the object, so the stored control type, unchanged. -/
theorem C5_setCtrlType (s : RobotInterface) (t : String) :
    ((t = "pose" ∨ t = "position" ∨ t = "orientation") →
        (s.setCtrlType t).1 = true ∧ (s.setCtrlType t).2.getCtrlType = t) ∧
    (¬ (t = "pose" ∨ t = "position" ∨ t = "orientation") →
        (s.setCtrlType t).1 = false ∧ (s.setCtrlType t).2.getCtrlType = s.getCtrlType ∧
        (s.setCtrlType t).2 = s) := by
  constructor
  · intro h
    have hn : ¬ (t ≠ "pose" ∧ t ≠ "position" ∧ t ≠ "orientation") := by
      rintro ⟨a, b, c⟩
      rcases h with h | h | h
      · exact a h
      · exact b h
      · exact c h
    simp [setCtrlType, hn, getCtrlType]
  · intro h
    have hy : t ≠ "pose" ∧ t ≠ "position" ∧ t ≠ "orientation" :=
      ⟨fun a => h (Or.inl a), fun b => h (Or.inr (Or.inl b)), fun c => h (Or.inr (Or.inr c))⟩
    simp [setCtrlType, hy]

/-- C5, on the sequence of the unit test: the strings `""`, `" "` and `asdfa`
are refused on the fresh interface, whose type stays `pose`, and `position`
is accepted. -/
theorem C5_setCtrlType_witness :
    ((setCtrlType {} "").1 = false ∧ (setCtrlType {} "").2.getCtrlType = "pose") ∧
    ((setCtrlType {} " ").1 = false ∧ (setCtrlType {} " ").2.getCtrlType = "pose") ∧
    ((setCtrlType {} "asdfa").1 = false ∧ (setCtrlType {} "asdfa").2.getCtrlType = "pose") ∧
    ((setCtrlType {} "position").1 = true ∧
      (setCtrlType {} "position").2.getCtrlType = "position") :=
  ⟨⟨((C5_setCtrlType {} "").2 (by decide)).1, ((C5_setCtrlType {} "").2 (by decide)).2.1⟩,
   ⟨((C5_setCtrlType {} " ").2 (by decide)).1, ((C5_setCtrlType {} " ").2 (by decide)).2.1⟩,
   ⟨((C5_setCtrlType {} "asdfa").2 (by decide)).1,
    ((C5_setCtrlType {} "asdfa").2 (by decide)).2.1⟩,
   (C5_setCtrlType {} "position").1 (by decide)⟩

/-- C6: strict is tighter than loose.  Whenever the position check, the
orientation check, the pose check (for every type), the joint-configuration
check or its vector overload returns true in mode `strict`, the same call in
mode `loose` returns true as well. -/
theorem C6_strict_implies_loose (s : RobotInterface) (px py pz ox oy oz ow : ℚ)
    (type : String) (dj : JointCommand) (v : List ℚ) :
    (s.isPositionReached px py pz "strict" = true →
        s.isPositionReached px py pz "loose" = true) ∧
    (s.isOrientationReached ox oy oz ow "strict" = true →
        s.isOrientationReached ox oy oz ow "loose" = true) ∧
    (s.isPoseReached px py pz ox oy oz ow "strict" type = true →
        s.isPoseReached px py pz ox oy oz ow "loose" type = true) ∧
    (s.isConfigurationReached dj "strict" = some true →
        s.isConfigurationReached dj "loose" = some true) ∧
    (s.isConfigurationReached_vec v "strict" = some true →
        s.isConfigurationReached_vec v "loose" = some true) := by
  have hcfg : ∀ d : JointCommand, s.isConfigurationReached d "strict" = some true →
      s.isConfigurationReached d "loose" = some true := by
    intro d h
    have hs := (isConfigurationReached_true (Or.inl ⟨rfl, rfl⟩) s d).mp h
    refine (isConfigurationReached_true (Or.inr ⟨rfl, rfl⟩) s d).mpr ⟨hs.1, ?_⟩
    intro i nm hi
    refine ⟨(hs.2 i nm hi).1, fun j hj => ?_⟩
    obtain ⟨a, c, ha, hc, hac⟩ := (hs.2 i nm hi).2 j hj
    exact ⟨a, c, ha, hc, by linarith⟩
  refine ⟨isPositionReached_strict_loose s px py pz,
    isOrientationReached_strict_loose s ox oy oz ow, ?_, hcfg dj, ?_⟩
  · intro h
    have hp := isPositionReached_strict_loose s px py pz
    have ho := isOrientationReached_strict_loose s ox oy oz ow
    unfold isPoseReached at h ⊢
    cases hps : s.isPositionReached px py pz "strict" <;>
      cases hos : s.isOrientationReached ox oy oz ow "strict" <;>
      simp_all <;> tauto
  · intro h
    rw [isConfigurationReached_vec_eq] at h ⊢
    split_ifs at h ⊢
    · simp at h
    · exact hcfg _ h

/-- C6, on the arm at the origin with all joints at zero: the strict checks
of the pose it stands at and of the joint `left_j0` at zero hold, and so do
the loose ones. -/
theorem C6_strict_implies_loose_witness :
    isPositionReached armAtZero 0 0 0 "loose" = true ∧
    isOrientationReached armAtZero 0 0 0 1 "loose" = true ∧
    isPoseReached armAtZero 0 0 0 0 0 0 1 "loose" "pose" = true ∧
    isConfigurationReached armAtZero { names := ["left_j0"], position := [0] } "loose"
      = some true :=
  ⟨(C6_strict_implies_loose armAtZero 0 0 0 0 0 0 1 "pose"
      { names := ["left_j0"], position := [0] } []).1
      (by norm_num [armAtZero, isPositionReached, getPos]),
   (C6_strict_implies_loose armAtZero 0 0 0 0 0 0 1 "pose"
      { names := ["left_j0"], position := [0] } []).2.1
      (by norm_num [armAtZero, isOrientationReached, getOri, dot]),
   (C6_strict_implies_loose armAtZero 0 0 0 0 0 0 1 "pose"
      { names := ["left_j0"], position := [0] } []).2.2.1
      (by norm_num [armAtZero, isPoseReached, isPositionReached, isOrientationReached,
        getPos, getOri, dot]),
   (C6_strict_implies_loose armAtZero 0 0 0 0 0 0 1 "pose"
      { names := ["left_j0"], position := [0] } []).2.2.2.1
      (by norm_num [armAtZero, isConfigurationReached, getJointStates, scanDesired,
        scanCurrent])⟩

/-- C7: the orientation check is invariant under the quaternion double cover:
negating all four components of the desired quaternion does not change the
result, for every current orientation and every mode. -/
theorem C7_isOrientationReached_neg (s : RobotInterface) (ox oy oz ow : ℚ) (mode : String) :
    s.isOrientationReached (-ox) (-oy) (-oz) (-ow) mode =
      s.isOrientationReached ox oy oz ow mode := by
  have hdot : dot { x := -ox, y := -oy, z := -oz, w := -ow } s.getOri
      = - dot { x := ox, y := oy, z := oz, w := ow } s.getOri := by
    simp only [dot]
    ring
  simp only [isOrientationReached, hdot, abs_neg]

/-- C8: in mode `strict` (tolerance 0.010) and in mode `loose` (tolerance
0.020), `isConfigurationReached` returns true exactly when the cached joint
state has at least seven positions and, for every desired joint name, some
current joint has that name and every current joint with that name has both
positions present and no further apart than the tolerance.  The vector
overload returns false below seven entries and otherwise is the check of its
first seven entries against the limb's joints `j0` to `j6`.  With a position
for every name on both sides the check always returns a boolean. -/
theorem C8_isConfigurationReached_iff (s : RobotInterface) (dj : JointCommand)
    (v : List ℚ) (mode : String) :
    (s.isConfigurationReached dj "strict" = some true ↔
      7 ≤ s.curr_jnts.position.length ∧
      ∀ (i : Nat) (nm : String), dj.names[i]? = some nm →
        (∃ j : Nat, s.curr_jnts.name[j]? = some nm) ∧
        ∀ j : Nat, s.curr_jnts.name[j]? = some nm →
          ∃ d c, dj.position[i]? = some d ∧ s.curr_jnts.position[j]? = some c
            ∧ |d - c| ≤ 10 / 1000) ∧
    (s.isConfigurationReached dj "loose" = some true ↔
      7 ≤ s.curr_jnts.position.length ∧
      ∀ (i : Nat) (nm : String), dj.names[i]? = some nm →
        (∃ j : Nat, s.curr_jnts.name[j]? = some nm) ∧
        ∀ j : Nat, s.curr_jnts.name[j]? = some nm →
          ∃ d c, dj.position[i]? = some d ∧ s.curr_jnts.position[j]? = some c
            ∧ |d - c| ≤ 20 / 1000) ∧
    (v.length < 7 → s.isConfigurationReached_vec v mode = some false) ∧
    (7 ≤ v.length → s.isConfigurationReached_vec v mode =
      s.isConfigurationReached
        { names := [s.limb ++ "_j0", s.limb ++ "_j1", s.limb ++ "_j2", s.limb ++ "_j3",
                    s.limb ++ "_j4", s.limb ++ "_j5", s.limb ++ "_j6"],
          position := v.take 7 } mode) ∧
    (dj.names.length ≤ dj.position.length →
      s.curr_jnts.name.length ≤ s.curr_jnts.position.length →
      ∃ b, s.isConfigurationReached dj mode = some b) := by
  refine ⟨isConfigurationReached_true (Or.inl ⟨rfl, rfl⟩) s dj,
    isConfigurationReached_true (Or.inr ⟨rfl, rfl⟩) s dj, ?_, ?_, ?_⟩
  · intro h
    rw [isConfigurationReached_vec_eq, if_pos h]
  · intro h
    rw [isConfigurationReached_vec_eq, if_neg (by omega)]
  · intro hdj hcj
    simp only [isConfigurationReached, getJointStates]
    split_ifs
    · exact ⟨false, rfl⟩
    · exact scanDesired_isSome mode s.curr_jnts dj.position hcj dj.names 0 (by simpa using hdj)

/-- C8, on the arm with all joints at zero: the strict check of `left_j0` at
zero returns true, so the joint state has seven positions and the joint is
found within 0.010; a vector of three entries is refused; and the check of a
well-formed command returns a boolean also in an unknown mode. -/
theorem C8_isConfigurationReached_iff_witness :
    (7 ≤ armAtZero.curr_jnts.position.length ∧
      ∀ (i : Nat) (nm : String), ["left_j0"][i]? = some nm →
        (∃ j : Nat, armAtZero.curr_jnts.name[j]? = some nm) ∧
        ∀ j : Nat, armAtZero.curr_jnts.name[j]? = some nm →
          ∃ d c, [(0 : ℚ)][i]? = some d ∧ armAtZero.curr_jnts.position[j]? = some c
            ∧ |d - c| ≤ 10 / 1000) ∧
    isConfigurationReached_vec armAtZero [0, 0, 0] "strict" = some false ∧
    (∃ b, isConfigurationReached armAtZero { names := ["left_j0"], position := [0] } "sdf"
      = some b) :=
  ⟨(C8_isConfigurationReached_iff armAtZero { names := ["left_j0"], position := [0] }
      [0, 0, 0] "strict").1.mp
      (by norm_num [armAtZero, isConfigurationReached, getJointStates, scanDesired,
        scanCurrent]),
   (C8_isConfigurationReached_iff armAtZero { names := ["left_j0"], position := [0] }
      [0, 0, 0] "strict").2.2.1 (by decide),
   (C8_isConfigurationReached_iff armAtZero { names := ["left_j0"], position := [0] }
      [0, 0, 0] "sdf").2.2.2.2 (by decide) (by decide)⟩

/-- C9: `cuffLowerCb` and `cuffUpperCb` called with a message whose state is
`PRESSED` set the arm state to `KILLED` from every prior state; called with
any other button state they leave the object, so the arm state, unchanged. -/
theorem C9_cuff_callbacks (PRESSED : Int) (s : RobotInterface) (msg : DigitalIOState) :
    (msg.state = PRESSED →
        (cuffLowerCb PRESSED s msg).getState = KILLED ∧
        (cuffUpperCb PRESSED s msg).getState = KILLED) ∧
    (msg.state ≠ PRESSED →
        (cuffLowerCb PRESSED s msg).getState = s.getState ∧
        (cuffUpperCb PRESSED s msg).getState = s.getState ∧
        cuffLowerCb PRESSED s msg = s ∧ cuffUpperCb PRESSED s msg = s) := by
  have hkw : ¬ (KILLED = WORKING) := by decide
  constructor
  · intro h
    simp [cuffLowerCb, cuffUpperCb, h, setState, publishState, getState, hkw]
  · intro h
    simp [cuffLowerCb, cuffUpperCb, h]

/-- C9, on an arm that is working on a discrete action: a pressed button
kills it, a released button leaves it working. -/
theorem C9_cuff_callbacks_witness :
    ((cuffLowerCb 1 { state := WORKING } { state := 1 }).getState = KILLED ∧
      (cuffUpperCb 1 { state := WORKING } { state := 1 }).getState = KILLED) ∧
    ((cuffLowerCb 1 { state := WORKING } { state := 0 }).getState = WORKING ∧
      (cuffUpperCb 1 { state := WORKING } { state := 0 }).getState = WORKING) :=
  ⟨(C9_cuff_callbacks 1 { state := WORKING } { state := 1 }).1 rfl,
   ((C9_cuff_callbacks 1 { state := WORKING } { state := 0 }).2 (by decide)).1,
   ((C9_cuff_callbacks 1 { state := WORKING } { state := 0 }).2 (by decide)).2.1⟩

/-- C10, as stated, fails: on an arm in a control session a pressed lower
button gives the state `KILLED` but leaves `is_ctrl_running` true. -/
theorem C10_press_does_not_clear_ctrl_running :
    armInSession.is_ctrl_running = true ∧
    ¬ ((cuffLowerCb 1 armInSession { state := 1 }).state = KILLED ∧
        (cuffLowerCb 1 armInSession { state := 1 }).is_ctrl_running = false) := by
  have hkw : ¬ (KILLED = WORKING) := by decide
  simp [armInSession, cuffLowerCb, setState, publishState, hkw]

/-- C10, amended: if a control session is running when `cuffLowerCb` or
`cuffUpperCb` receives a `PRESSED` message, then after the callback the state
is `KILLED` and the session is as it was: `is_ctrl_running` is still true and
the particle is the same (`setState` disables the controller only for
`WORKING`). -/
theorem C10_press_kills_state_keeps_session (PRESSED : Int) (s : RobotInterface)
    (msg : DigitalIOState) (hp : msg.state = PRESSED) (hr : s.is_ctrl_running = true) :
    ((cuffLowerCb PRESSED s msg).state = KILLED ∧
      (cuffLowerCb PRESSED s msg).is_ctrl_running = true ∧
      (cuffLowerCb PRESSED s msg).particle = s.particle) ∧
    ((cuffUpperCb PRESSED s msg).state = KILLED ∧
      (cuffUpperCb PRESSED s msg).is_ctrl_running = true ∧
      (cuffUpperCb PRESSED s msg).particle = s.particle) := by
  have hkw : ¬ (KILLED = WORKING) := by decide
  simp [cuffLowerCb, cuffUpperCb, hp, setState, publishState, hkw, hr]

/-- C10 amended, on the arm in a control session with a pressed button. -/
theorem C10_press_kills_state_keeps_session_witness :
    ((cuffLowerCb 1 armInSession { state := 1 }).state = KILLED ∧
      (cuffLowerCb 1 armInSession { state := 1 }).is_ctrl_running = true ∧
      (cuffLowerCb 1 armInSession { state := 1 }).particle = armInSession.particle) ∧
    ((cuffUpperCb 1 armInSession { state := 1 }).state = KILLED ∧
      (cuffUpperCb 1 armInSession { state := 1 }).is_ctrl_running = true ∧
      (cuffUpperCb 1 armInSession { state := 1 }).particle = armInSession.particle) :=
  C10_press_kills_state_keeps_session 1 armInSession { state := 1 } rfl rfl

/-- C11: after `setState(WORKING)` the state is `WORKING`, `is_ctrl_running`
is false and the trajectory particle is released, whatever the object (so the
control session) was before the call. -/
theorem C11_setState_working_stops_session (s : RobotInterface) :
    (s.setState WORKING).2.state = WORKING ∧
    (s.setState WORKING).2.isCtrlRunning = false ∧
    (s.setState WORKING).2.particle = none := by
  simp [setState, publishState, setCtrlRunning_off, isCtrlRunning]

/-- C12: every call of `setState` publishes exactly one message, which
carries the state stored by the call; so whatever happened before, right
after a `setState` the last published state is the current state. -/
theorem C12_setState_publishes_stored_state (s : RobotInterface) (state : ArmState) :
    (s.setState state).1 = true ∧
    (s.setState state).2.state = state ∧
    (s.setState state).2.published = s.published ++ [state] ∧
    (s.setState state).2.published.getLast? = some (s.setState state).2.state := by
  by_cases h : state = WORKING <;>
    simp [setState, publishState, setCtrlRunning_off, getState, h]

/-- C13: when the arm state is `WORKING`, `ctrlMsgCb` changes nothing for any
message: the object is the same afterwards, in particular the state, the
running flag, the particle, the desired pose, the control, check and tracking
modes, and the list of published states. -/
theorem C13_ctrlMsgCb_working_noop (K : Consts) (E : Env) (s : RobotInterface)
    (msg : GoToPose) (hw : s.state = WORKING) :
    s.ctrlMsgCb K E msg = s ∧
    (s.ctrlMsgCb K E msg).state = s.state ∧
    (s.ctrlMsgCb K E msg).is_ctrl_running = s.is_ctrl_running ∧
    (s.ctrlMsgCb K E msg).particle = s.particle ∧
    (s.ctrlMsgCb K E msg).pose_des = s.pose_des ∧
    (s.ctrlMsgCb K E msg).ctrl_mode = s.ctrl_mode ∧
    (s.ctrlMsgCb K E msg).ctrl_check_mode = s.ctrl_check_mode ∧
    (s.ctrlMsgCb K E msg).ctrl_track_mode = s.ctrl_track_mode ∧
    (s.ctrlMsgCb K E msg).published = s.published := by
  have h : s.ctrlMsgCb K E msg = s := by
    simp [ctrlMsgCb, getState, hw]
  simp [h]

/-- C13, on an arm that is working: a `stop` message leaves it as it is. -/
theorem C13_ctrlMsgCb_working_noop_witness :
    ctrlMsgCb sampleConsts solvingEnv { state := WORKING } { type := "stop" }
      = { state := WORKING } :=
  (C13_ctrlMsgCb_working_noop sampleConsts solvingEnv { state := WORKING }
    { type := "stop" } rfl).1

/-- C14: in every arm state other than `WORKING`, `ctrlMsgCb` with a message
of type `stop` leaves `is_ctrl_running` false and the state `CTRL_DONE`; a
second `stop` gives the same state value, running flag, desired pose, control,
check and tracking modes (and particle) as the first: it only publishes the
state once more. -/
theorem C14_ctrlMsgCb_stop_idempotent (K : Consts) (E E2 : Env) (s : RobotInterface)
    (msg msg2 : GoToPose) (hs : s.state ≠ WORKING) (h1 : msg.type = "stop")
    (h2 : msg2.type = "stop") :
    (s.ctrlMsgCb K E msg).is_ctrl_running = false ∧
    (s.ctrlMsgCb K E msg).state = CTRL_DONE ∧
    ((s.ctrlMsgCb K E msg).ctrlMsgCb K E2 msg2).state = (s.ctrlMsgCb K E msg).state ∧
    ((s.ctrlMsgCb K E msg).ctrlMsgCb K E2 msg2).is_ctrl_running
      = (s.ctrlMsgCb K E msg).is_ctrl_running ∧
    ((s.ctrlMsgCb K E msg).ctrlMsgCb K E2 msg2).pose_des = (s.ctrlMsgCb K E msg).pose_des ∧
    ((s.ctrlMsgCb K E msg).ctrlMsgCb K E2 msg2).ctrl_mode = (s.ctrlMsgCb K E msg).ctrl_mode ∧
    ((s.ctrlMsgCb K E msg).ctrlMsgCb K E2 msg2).ctrl_check_mode
      = (s.ctrlMsgCb K E msg).ctrl_check_mode ∧
    ((s.ctrlMsgCb K E msg).ctrlMsgCb K E2 msg2).ctrl_track_mode
      = (s.ctrlMsgCb K E msg).ctrl_track_mode ∧
    ((s.ctrlMsgCb K E msg).ctrlMsgCb K E2 msg2).particle = (s.ctrlMsgCb K E msg).particle ∧
    (s.ctrlMsgCb K E msg).ctrlMsgCb K E2 msg2 =
      { s.ctrlMsgCb K E msg with
        published := (s.ctrlMsgCb K E msg).published ++ [CTRL_DONE] } := by
  have hdw : ¬ (CTRL_DONE = WORKING) := by decide
  have e1 : s.ctrlMsgCb K E msg =
      { s with is_ctrl_running := false, rviz_running := false, particle := none,
               state := CTRL_DONE, published := s.published ++ [CTRL_DONE] } := by
    simp [ctrlMsgCb, getState, hs, h1, setCtrlRunning, setCtrlRunning_off, setState,
      publishState, hdw]
  rw [e1]
  simp [ctrlMsgCb, getState, h2, setCtrlRunning, setCtrlRunning_off, setState,
    publishState, hdw]

/-- C14, on the arm in a control session receiving `stop` twice. -/
theorem C14_ctrlMsgCb_stop_idempotent_witness :
    (ctrlMsgCb sampleConsts solvingEnv armInSession { type := "stop" }).is_ctrl_running
      = false ∧
    (ctrlMsgCb sampleConsts solvingEnv armInSession { type := "stop" }).state = CTRL_DONE :=
  ⟨(C14_ctrlMsgCb_stop_idempotent sampleConsts solvingEnv solvingEnv armInSession
      { type := "stop" } { type := "stop" } (by decide) rfl rfl).1,
   (C14_ctrlMsgCb_stop_idempotent sampleConsts solvingEnv solvingEnv armInSession
      { type := "stop" } { type := "stop" } (by decide) rfl rfl).2.1⟩

/-- C15, as stated, fails: the arm in a control session that receives a
message of the unknown type `jump` no longer has `is_ctrl_running` set. -/
theorem C15_unknown_type_stops_running_session :
    armInSession.state ≠ WORKING ∧ armInSession.is_ctrl_running = true ∧
    ¬ ((ctrlMsgCb sampleConsts solvingEnv armInSession { type := "jump" }).state
          = armInSession.state ∧
       (ctrlMsgCb sampleConsts solvingEnv armInSession { type := "jump" }).is_ctrl_running
          = armInSession.is_ctrl_running ∧
       (ctrlMsgCb sampleConsts solvingEnv armInSession { type := "jump" }).pose_des
          = armInSession.pose_des) := by
  refine ⟨by decide, rfl, ?_⟩
  simp [ctrlMsgCb, getState, armInSession, setCtrlRunning, setCtrlRunning_off]

/-- C15, amended: when the arm state is not `WORKING` and the message type is
none of `pose`, `position`, `relative_x`, `relative_y`, `relative_z`, `stop`,
the state and the desired pose are the same after `ctrlMsgCb` as before and
nothing is published, but the controller is disabled: `is_ctrl_running` is
false and the particle released afterwards, so the running flag is unchanged
only when no session was running. -/
theorem C15_unknown_type_keeps_state_and_goal (K : Consts) (E : Env) (s : RobotInterface)
    (msg : GoToPose) (hs : s.state ≠ WORKING)
    (ht : msg.type ≠ "pose" ∧ msg.type ≠ "position" ∧ msg.type ≠ "relative_x" ∧
      msg.type ≠ "relative_y" ∧ msg.type ≠ "relative_z" ∧ msg.type ≠ "stop") :
    (s.ctrlMsgCb K E msg).state = s.state ∧
    (s.ctrlMsgCb K E msg).pose_des = s.pose_des ∧
    (s.ctrlMsgCb K E msg).published = s.published ∧
    (s.ctrlMsgCb K E msg).is_ctrl_running = false ∧
    (s.ctrlMsgCb K E msg).particle = none ∧
    (s.is_ctrl_running = false →
      (s.ctrlMsgCb K E msg).is_ctrl_running = s.is_ctrl_running) := by
  obtain ⟨t1, t2, t3, t4, t5, t6⟩ := ht
  have e : s.ctrlMsgCb K E msg = s.setCtrlRunning false := by
    simp [ctrlMsgCb, getState, hs, t1, t2, t3, t4, t5, t6]
  rw [e]
  simp [setCtrlRunning, setCtrlRunning_off]

/-- C15 amended, on the arm in a control session receiving the unknown type
`jump`. -/
theorem C15_unknown_type_keeps_state_and_goal_witness :
    (ctrlMsgCb sampleConsts solvingEnv armInSession { type := "jump" }).state
      = CTRL_RUNNING ∧
    (ctrlMsgCb sampleConsts solvingEnv armInSession { type := "jump" }).is_ctrl_running
      = false :=
  ⟨(C15_unknown_type_keeps_state_and_goal sampleConsts solvingEnv armInSession
      { type := "jump" } (by decide) (by decide)).1,
   (C15_unknown_type_keeps_state_and_goal sampleConsts solvingEnv armInSession
      { type := "jump" } (by decide) (by decide)).2.2.2.1⟩

/-- C16: when the arm state is not `WORKING` and a goal message carries a
control mode other than `POSITION_MODE`, `ctrlMsgCb` rejects it if the
interface is not experimental, and also if it is experimental but the mode
is neither `VELOCITY_MODE` nor `RAW_POSITION_MODE`: afterwards
`is_ctrl_running` is false, the state is the one before the call and nothing
was published, and the stored control, check and tracking modes are
unchanged. -/
theorem C16_ctrlMsgCb_rejects_control_mode (K : Consts) (E : Env) (s : RobotInterface)
    (msg : GoToPose) (hs : s.state ≠ WORKING)
    (hg : msg.type = "pose" ∨ msg.type = "position" ∨ msg.type = "relative_x" ∨
      msg.type = "relative_y" ∨ msg.type = "relative_z")
    (hm : msg.ctrl_mode ≠ K.POSITION_MODE)
    (hrej : s.is_experimental = false ∨
      (msg.ctrl_mode ≠ K.VELOCITY_MODE ∧ msg.ctrl_mode ≠ K.RAW_POSITION_MODE)) :
    (s.ctrlMsgCb K E msg).is_ctrl_running = false ∧
    (s.ctrlMsgCb K E msg).state = s.state ∧
    (s.ctrlMsgCb K E msg).published = s.published ∧
    (s.ctrlMsgCb K E msg).ctrl_mode = s.ctrl_mode ∧
    (s.ctrlMsgCb K E msg).ctrl_check_mode = s.ctrl_check_mode ∧
    (s.ctrlMsgCb K E msg).ctrl_track_mode = s.ctrl_track_mode := by
  have hstop : msg.type ≠ "stop" := by
    rcases hg with h | h | h | h | h <;> rw [h] <;> decide
  have hgoal : msg.type = "position" ∨ msg.type = "pose" ∨ msg.type = "relative_x" ∨
      msg.type = "relative_y" ∨ msg.type = "relative_z" := by tauto
  have e : s.ctrlMsgCb K E msg = setDesiredPose (s.setCtrlRunning false) msg := by
    have hexp : (setDesiredPose (s.setCtrlRunning false) msg).is_experimental
        = s.is_experimental := by
      rw [setDesiredPose_frame]
      simp [setCtrlRunning, setCtrlRunning_off]
    unfold ctrlMsgCb
    simp only [getState, ne_eq, hs, not_false_eq_true, if_true, hstop, if_false, hgoal, hm,
      hexp]
    rcases hrej with h | ⟨h1, h2⟩
    · simp [h]
    · simp [h1, h2]
  rw [e, setDesiredPose_frame]
  simp [setCtrlRunning, setCtrlRunning_off]

/-- C16, on a fresh interface that is not experimental: a `pose` goal in
velocity mode is rejected. -/
theorem C16_ctrlMsgCb_rejects_control_mode_witness :
    (ctrlMsgCb sampleConsts solvingEnv {} { type := "pose", ctrl_mode := 2 }).is_ctrl_running
      = false ∧
    (ctrlMsgCb sampleConsts solvingEnv {} { type := "pose", ctrl_mode := 2 }).state = START :=
  ⟨(C16_ctrlMsgCb_rejects_control_mode sampleConsts solvingEnv {}
      { type := "pose", ctrl_mode := 2 } (by decide) (Or.inl rfl) (by decide)
      (Or.inl rfl)).1,
   (C16_ctrlMsgCb_rejects_control_mode sampleConsts solvingEnv {}
      { type := "pose", ctrl_mode := 2 } (by decide) (Or.inl rfl) (by decide)
      (Or.inl rfl)).2.1⟩

/-- C17: the stored check mode is always valid.  It is `strict` after
construction; a `ctrlMsgCb` call that reaches the check-mode step (state not
`WORKING`, a goal type, an accepted control mode) stores the message's check
mode when that is `strict` or `loose` and `strict` otherwise, and still
starts the session when the particle starts; and in every reachable state the
check mode is `strict` or `loose`. -/
theorem C17_check_mode_always_valid (K : Consts) (E : Env) (s : RobotInterface)
    (msg : GoToPose) (limb : String) (use_cart_ctrl is_experimental : Bool)
    (print_level : Int) :
    (construct K limb use_cart_ctrl is_experimental print_level).ctrl_check_mode = "strict" ∧
    (s.state ≠ WORKING →
      (msg.type = "pose" ∨ msg.type = "position" ∨ msg.type = "relative_x" ∨
        msg.type = "relative_y" ∨ msg.type = "relative_z") →
      (msg.ctrl_mode = K.POSITION_MODE ∨ (s.is_experimental = true ∧
        (msg.ctrl_mode = K.VELOCITY_MODE ∨ msg.ctrl_mode = K.RAW_POSITION_MODE))) →
      (s.ctrlMsgCb K E msg).ctrl_check_mode =
          (if msg.check_mode = "strict" ∨ msg.check_mode = "loose" then msg.check_mode
           else "strict") ∧
      ((E.particle_set && E.particle_started) = true →
        (s.ctrlMsgCb K E msg).is_ctrl_running = true ∧
        (s.ctrlMsgCb K E msg).state = CTRL_RUNNING)) ∧
    (Reachable K s → s.ctrl_check_mode = "strict" ∨ s.ctrl_check_mode = "loose") := by
  have hsw : ¬ (START = WORKING) := by decide
  refine ⟨?_, ?_, fun h => (reachable_sessionInv h).1⟩
  · unfold construct
    split_ifs <;> simp [setState, publishState, hsw]
  · intro hs hg hm
    obtain ⟨s2, e⟩ := ctrlMsgCb_accepted K E s msg hs hg hm
    rw [e]
    exact ⟨startSession_check_mode K E s2 msg, (startSession_running K E s2 msg).2.1⟩

/-- C17, on a fresh interface: a `pose` goal with the check mode `sloppy` is
accepted with the check mode `strict` and starts the session, and the state
reached that way has a valid check mode. -/
theorem C17_check_mode_always_valid_witness :
    ((ctrlMsgCb sampleConsts solvingEnv (construct sampleConsts "left" true false 0)
        { type := "pose", ctrl_mode := 1, check_mode := "sloppy" }).ctrl_check_mode = "strict" ∧
      (ctrlMsgCb sampleConsts solvingEnv (construct sampleConsts "left" true false 0)
        { type := "pose", ctrl_mode := 1, check_mode := "sloppy" }).is_ctrl_running = true) ∧
    ((ctrlMsgCb sampleConsts solvingEnv (construct sampleConsts "left" true false 0)
        { type := "pose", ctrl_mode := 1, check_mode := "sloppy" }).ctrl_check_mode = "strict" ∨
      (ctrlMsgCb sampleConsts solvingEnv (construct sampleConsts "left" true false 0)
        { type := "pose", ctrl_mode := 1, check_mode := "sloppy" }).ctrl_check_mode = "loose") :=
  ⟨⟨((C17_check_mode_always_valid sampleConsts solvingEnv
        (construct sampleConsts "left" true false 0)
        { type := "pose", ctrl_mode := 1, check_mode := "sloppy" } "left" true false 0).2.1
        (by decide) (Or.inl rfl) (Or.inl rfl)).1,
    (((C17_check_mode_always_valid sampleConsts solvingEnv
        (construct sampleConsts "left" true false 0)
        { type := "pose", ctrl_mode := 1, check_mode := "sloppy" } "left" true false 0).2.1
        (by decide) (Or.inl rfl) (Or.inl rfl)).2 rfl).1⟩,
   (C17_check_mode_always_valid sampleConsts solvingEnv
      (ctrlMsgCb sampleConsts solvingEnv (construct sampleConsts "left" true false 0)
        { type := "pose", ctrl_mode := 1, check_mode := "sloppy" })
      { type := "pose", ctrl_mode := 1, check_mode := "sloppy" } "left" true false 0).2.2
      (Reachable.ctrlMsgCb solvingEnv _ (Reachable.construct "left" true false 0))⟩

/-- C18: one control tick of a running session (so with its particle) whose
target is reached, with tracking off, ends the session: the tick returns,
afterwards `is_ctrl_running` is false, the particle is released and the state
is `CTRL_DONE`, and no pose was handed to the solver in that tick. -/
theorem C18_tick_reached_ends_session (K : Consts) (E : Env) (s : RobotInterface)
    (hrun : s.is_ctrl_running = true) (htrack : s.ctrl_track_mode = false)
    (hyes : s.isPoseReached_pose s.pose_des s.ctrl_check_mode s.getCtrlType = true)
    (hpart : s.particle ≠ none) :
    ∃ s1, s.controlTick K E = some s1 ∧ s1.is_ctrl_running = false ∧ s1.particle = none ∧
      s1.state = CTRL_DONE ∧ s1.ik_requests = s.ik_requests := by
  have hdw : ¬ (CTRL_DONE = WORKING) := by decide
  obtain ⟨part, hp⟩ := Option.ne_none_iff_exists'.mp hpart
  refine ⟨_, controlTick_reached K E s part hrun hyes htrack hp, ?_⟩
  split_ifs <;>
    simp [setCtrlRunning, setCtrlRunning_off, setState, publishState, hdw,
      goToJointConfNoCheck, publishJointCmd]

/-- C18, on the arm that stands at its goal with tracking off. -/
theorem C18_tick_reached_ends_session_witness :
    ∃ s1, armAtGoal.controlTick sampleConsts solvingEnv = some s1 ∧
      s1.is_ctrl_running = false ∧ s1.particle = none ∧ s1.state = CTRL_DONE ∧
      s1.ik_requests = armAtGoal.ik_requests :=
  C18_tick_reached_ends_session sampleConsts solvingEnv armAtGoal rfl rfl
    (by norm_num [armAtGoal, isPoseReached_pose, isPoseReached, isPositionReached,
      isOrientationReached, getPos, getOri, getCtrlType, dot])
    (by simp [armAtGoal])

/-- C19: with tracking on a session never completes by itself.  A control
tick of a running session with tracking on and the target reached returns the
object unchanged (so the state and `is_ctrl_running` are unchanged); and no
run of control ticks, whatever the readings and environments in between,
that starts with tracking on in a state other than `CTRL_DONE` ends in state
`CTRL_DONE` or with tracking off. -/
theorem C19_tracking_never_auto_completes (K : Consts) (E : Env) (s : RobotInterface)
    (inputs : List (Env × Readings)) :
    (s.is_ctrl_running = true → s.ctrl_track_mode = true →
      s.isPoseReached_pose s.pose_des s.ctrl_check_mode s.getCtrlType = true →
      s.controlTick K E = some s) ∧
    (s.ctrl_track_mode = true → s.state ≠ CTRL_DONE →
      ∀ s1, s.runTicks K inputs = some s1 →
        s1.state ≠ CTRL_DONE ∧ s1.ctrl_track_mode = true) := by
  have hfd : ¬ (CTRL_FAIL = CTRL_DONE) := by decide
  refine ⟨fun hrun htrack hyes => controlTick_tracking K E s hrun hyes htrack, ?_⟩
  induction inputs generalizing s with
  | nil =>
    intro htrack hst s1 h
    simp only [runTicks, Option.some.injEq] at h
    rw [← h]
    exact ⟨hst, htrack⟩
  | cons i rest ih =>
    intro htrack hst s1 h
    obtain ⟨E1, r⟩ := i
    simp only [runTicks] at h
    cases ht : (s.observe r).controlTick K E1 with
    | none => simp [ht] at h
    | some s2 =>
      simp only [ht] at h
      have hto : (s.observe r).ctrl_track_mode = true := by simpa [observe] using htrack
      have hso : (s.observe r).state ≠ CTRL_DONE := by simpa [observe] using hst
      have h2 : s2.ctrl_track_mode = true ∧ s2.state ≠ CTRL_DONE := by
        rcases controlTick_cases K E1 _ s2 ht with hc | ⟨_, _, _, hc4, hc5⟩ | hc
        · rw [hc]; exact ⟨hto, hso⟩
        · refine ⟨by rw [hc4]; exact hto, ?_⟩
          rcases hc5 with hf | ⟨_, hoff⟩
          · rw [hf]; exact hfd
          · rw [hto] at hoff; cases hoff
        · rw [hc]; exact ⟨hto, hso⟩
      exact ih s2 h2.1 h2.2 s1 h

/-- C19, on the arm that stands at its goal with tracking on: a tick leaves
it as it is, and a run of two ticks ends in the state `CTRL_RUNNING` it
started in. -/
theorem C19_tracking_never_auto_completes_witness :
    armTracking.controlTick sampleConsts solvingEnv = some armTracking ∧
    (armTracking.runTicks sampleConsts [(solvingEnv, restReadings), (solvingEnv, restReadings)]
      = some armTracking) ∧
    (armTracking.state ≠ CTRL_DONE ∧ armTracking.ctrl_track_mode = true) := by
  have hreach : armTracking.isPoseReached_pose armTracking.pose_des
      armTracking.ctrl_check_mode armTracking.getCtrlType = true := by
    norm_num [armTracking, isPoseReached_pose, isPoseReached, isPositionReached,
      isOrientationReached, getPos, getOri, getCtrlType, dot]
  have htick := (C19_tracking_never_auto_completes sampleConsts solvingEnv armTracking
    [(solvingEnv, restReadings), (solvingEnv, restReadings)]).1 rfl rfl hreach
  have hobs : armTracking.observe restReadings = armTracking := by
    simp [observe, armTracking, restReadings]
  have hrun : armTracking.runTicks sampleConsts
      [(solvingEnv, restReadings), (solvingEnv, restReadings)] = some armTracking := by
    simp [runTicks, hobs, htick]
  exact ⟨htick, hrun,
    (C19_tracking_never_auto_completes sampleConsts solvingEnv armTracking
      [(solvingEnv, restReadings), (solvingEnv, restReadings)]).2 rfl (by decide)
      armTracking hrun⟩

/-- C20: one control tick of a running session (with its particle `part`)
whose target is not reached hands the pose `tickPose` to the
pose-to-joint-command path.  That path returns false exactly when `computeIK`
does.  When it returns false the tick aborts the session: `is_ctrl_running`
is false, the particle is released and the state is `CTRL_FAIL`.  When it
returns true the tick leaves the state, `is_ctrl_running` and the particle
unchanged. -/
theorem C20_tick_ik_outcome (K : Consts) (E : Env) (s : RobotInterface)
    (part : LinearPointParticle) (hrun : s.is_ctrl_running = true)
    (hnot : s.isPoseReached_pose s.pose_des s.ctrl_check_mode s.getCtrlType = false)
    (hp : s.particle = some part) :
    (((goToPoseNoCheck K E { s with pose_curr := tickPose K E s part }
          (tickPose K E s part)).map Prod.fst = some false) ↔
      ((computeIK E { s with pose_curr := tickPose K E s part }
          (tickPose K E s part)).map Prod.fst = some false)) ∧
    ((goToPoseNoCheck K E { s with pose_curr := tickPose K E s part }
          (tickPose K E s part)).map Prod.fst = some false →
      ∃ s1, s.controlTick K E = some s1 ∧ s1.is_ctrl_running = false ∧
        s1.particle = none ∧ s1.state = CTRL_FAIL) ∧
    ((goToPoseNoCheck K E { s with pose_curr := tickPose K E s part }
          (tickPose K E s part)).map Prod.fst = some true →
      ∃ s1, s.controlTick K E = some s1 ∧ s1.state = s.state ∧
        s1.is_ctrl_running = s.is_ctrl_running ∧ s1.particle = s.particle) := by
  have hfw : ¬ (CTRL_FAIL = WORKING) := by decide
  have htick := controlTick_not_reached K E s part hrun hnot hp
  refine ⟨?_, ?_, ?_⟩
  · unfold goToPoseNoCheck
    cases hc : computeIK E { s with pose_curr := tickPose K E s part } (tickPose K E s part) with
    | none => simp
    | some r =>
      obtain ⟨b, j, s2⟩ := r
      cases b <;> simp [goToJointConfNoCheck]
  · intro hfail
    cases hg : goToPoseNoCheck K E { s with pose_curr := tickPose K E s part }
        (tickPose K E s part) with
    | none => simp [hg] at hfail
    | some r =>
      obtain ⟨b, s2⟩ := r
      simp only [hg, Option.map_some', Option.some.injEq] at hfail
      subst hfail
      rw [hg] at htick
      refine ⟨_, htick, ?_⟩
      simp [setCtrlRunning, setCtrlRunning_off, setState, publishState, hfw]
  · intro hok
    cases hg : goToPoseNoCheck K E { s with pose_curr := tickPose K E s part }
        (tickPose K E s part) with
    | none => simp [hg] at hok
    | some r =>
      obtain ⟨b, s2⟩ := r
      simp only [hg, Option.map_some', Option.some.injEq] at hok
      subst hok
      have hf := goToPoseNoCheck_frame K E _ _ true s2 hg
      rw [hg] at htick
      refine ⟨s2, htick, ?_⟩
      rw [hf]
      exact ⟨rfl, rfl, rfl⟩

/-- C20, on the arm in a control session away from its goal: when the solver
finds no valid solution the tick ends in `CTRL_FAIL` with the session off,
and when it finds one the tick leaves the state and the running flag. -/
theorem C20_tick_ik_outcome_witness :
    (∃ s1, armInSession.controlTick sampleConsts noSolutionEnv = some s1 ∧
      s1.is_ctrl_running = false ∧ s1.particle = none ∧ s1.state = CTRL_FAIL) ∧
    (∃ s1, armInSession.controlTick sampleConsts solvingEnv = some s1 ∧
      s1.state = armInSession.state ∧ s1.is_ctrl_running = armInSession.is_ctrl_running ∧
      s1.particle = armInSession.particle) := by
  have hnot : armInSession.isPoseReached_pose armInSession.pose_des
      armInSession.ctrl_check_mode armInSession.getCtrlType = false := by
    norm_num [armInSession, isPoseReached_pose, isPoseReached, isPositionReached,
      isOrientationReached, getPos, getOri, getCtrlType, dot]
  have hp : armInSession.particle = some {} := rfl
  have hk : ¬ (CTRL_RUNNING = KILLED) := by decide
  have hs : ¬ (CTRL_RUNNING = STOPPED) := by decide
  refine ⟨(C20_tick_ik_outcome sampleConsts noSolutionEnv armInSession {} rfl hnot hp).2.1 ?_,
    (C20_tick_ik_outcome sampleConsts solvingEnv armInSession {} rfl hnot hp).2.2 ?_⟩
  · have hz : (tickPose sampleConsts noSolutionEnv armInSession {}).position.z = 0 := by
      norm_num [tickPose, noSolutionEnv, armInSession, sampleConsts]
    unfold goToPoseNoCheck computeIK
    rw [hz, toFloat_hundredth]
    norm_num [computeIK_loop, noSolutionEnv, ok, getState,
      armInSession, tickPose, sampleConsts, getJointStates, hk, hs]
  · have hz : (tickPose sampleConsts solvingEnv armInSession {}).position.z = 0 := by
      norm_num [tickPose, solvingEnv, armInSession, sampleConsts]
    unfold goToPoseNoCheck computeIK
    rw [hz, toFloat_hundredth]
    norm_num [computeIK_loop, solvingEnv, ok, getState,
      armInSession, tickPose, sampleConsts, getJointStates, goToJointConfNoCheck, hk, hs]

/-- C21, as the code behaves: when the target is reached with tracking off in
velocity mode (a mode code other than that of position mode), the control
tick publishes exactly one joint command before it goes to `CTRL_DONE`, and
that command names the seven joints but carries no value at all: its array is
empty, because `goToJointConfNoCheck` fills it in position mode only. -/
theorem C21_velocity_stop_command_is_empty (K : Consts) (E : Env) (s : RobotInterface)
    (hrun : s.is_ctrl_running = true) (htrack : s.ctrl_track_mode = false)
    (hyes : s.isPoseReached_pose s.pose_des s.ctrl_check_mode s.getCtrlType = true)
    (hpart : s.particle ≠ none) (hv : s.ctrl_mode = K.VELOCITY_MODE)
    (hne : K.VELOCITY_MODE ≠ K.POSITION_MODE) :
    ∃ s1, s.controlTick K E = some s1 ∧ s1.state = CTRL_DONE ∧
      s1.joint_cmds = s.joint_cmds ++
        [{ mode := K.VELOCITY_MODE,
           names := [s.limb ++ "_j0", s.limb ++ "_j1", s.limb ++ "_j2", s.limb ++ "_j3",
                     s.limb ++ "_j4", s.limb ++ "_j5", s.limb ++ "_j6"],
           position := [] }] := by
  have hdw : ¬ (CTRL_DONE = WORKING) := by decide
  obtain ⟨part, hp⟩ := Option.ne_none_iff_exists'.mp hpart
  refine ⟨_, controlTick_reached K E s part hrun hyes htrack hp, ?_⟩
  simp [hv, hne, setCtrlRunning, setCtrlRunning_off, setState, publishState, hdw,
    goToJointConfNoCheck, publishJointCmd, setJointNames, getLimb]

/-- C21, at the failing input: the arm at its goal in a velocity-mode session.
The command published by the tick has an empty array where the claim expects
seven zeros. -/
theorem C21_velocity_stop_command_is_empty_witness :
    ∃ s1, armAtGoalVelocity.controlTick sampleConsts solvingEnv = some s1 ∧
      s1.state = CTRL_DONE ∧
      s1.joint_cmds = armAtGoalVelocity.joint_cmds ++
        [{ mode := 2,
           names := [armAtGoalVelocity.limb ++ "_j0", armAtGoalVelocity.limb ++ "_j1",
                     armAtGoalVelocity.limb ++ "_j2", armAtGoalVelocity.limb ++ "_j3",
                     armAtGoalVelocity.limb ++ "_j4", armAtGoalVelocity.limb ++ "_j5",
                     armAtGoalVelocity.limb ++ "_j6"],
           position := [] }] :=
  C21_velocity_stop_command_is_empty sampleConsts solvingEnv armAtGoalVelocity rfl rfl
    (by norm_num [armAtGoalVelocity, isPoseReached_pose, isPoseReached, isPositionReached,
      isOrientationReached, getPos, getOri, getCtrlType, dot])
    (by simp [armAtGoalVelocity]) rfl (by decide)

/-- C26: `hasCollidedIR` returns true exactly when the limb is `left` or
`right`, the reading lies in the sensor's range and is at most the threshold:
0.050 / 0.067 for the left limb in strict / loose mode, 0.089 / 0.110 for
the right limb, and 0 in any other mode.  So a reading outside the sensor's
range is never a collision, and a strict collision is a loose one. -/
theorem C26_hasCollidedIR_iff (s : RobotInterface) (mode : String) :
    (s.hasCollidedIR mode = true ↔
      (s.limb = "left" ∨ s.limb = "right") ∧
      s.curr_min_range ≤ s.curr_range ∧ s.curr_range ≤ s.curr_max_range ∧
      s.curr_range ≤
        (if s.limb = "left" then
          (if mode = "strict" then 50 / 1000 else if mode = "loose" then 67 / 1000 else 0)
         else
          (if mode = "strict" then 89 / 1000 else if mode = "loose" then 110 / 1000
           else 0))) ∧
    (¬ (s.curr_min_range ≤ s.curr_range ∧ s.curr_range ≤ s.curr_max_range) →
      s.hasCollidedIR mode = false) ∧
    (s.hasCollidedIR "strict" = true → s.hasCollidedIR "loose" = true) := by
  have hls : ¬ ("loose" = "strict") := by decide
  have hmain : ∀ m : String, s.hasCollidedIR m = true ↔
      (s.limb = "left" ∨ s.limb = "right") ∧
      s.curr_min_range ≤ s.curr_range ∧ s.curr_range ≤ s.curr_max_range ∧
      s.curr_range ≤
        (if s.limb = "left" then
          (if m = "strict" then 50 / 1000 else if m = "loose" then 67 / 1000 else 0)
         else
          (if m = "strict" then 89 / 1000 else if m = "loose" then 110 / 1000
           else 0)) := by
    intro m
    have hflag : ∀ (c : Prop) [Decidable c], ((if c then true else false) = true ↔ c) := by
      intro c _
      by_cases hc : c <;> simp [hc]
    by_cases hl : s.limb = "left"
    · simp only [hasCollidedIR, getLimb, hl, if_true, true_or, true_and, hflag]
      constructor
      · intro h; exact ⟨h.2.1, h.1, h.2.2⟩
      · intro h; exact ⟨h.2.1, h.1, h.2.2⟩
    · by_cases hr : s.limb = "right"
      · have hrl : ¬ ("right" = "left") := by decide
        simp only [hasCollidedIR, getLimb, hr, hrl, if_false, if_true, or_true, true_and,
          hflag]
        constructor
        · intro h; exact ⟨h.2.1, h.1, h.2.2⟩
        · intro h; exact ⟨h.2.1, h.1, h.2.2⟩
      · simp [hasCollidedIR, getLimb, hl, hr]
  refine ⟨hmain mode, ?_, ?_⟩
  · intro hout
    cases hc : s.hasCollidedIR mode with
    | false => rfl
    | true => exact absurd ⟨((hmain mode).mp hc).2.1, ((hmain mode).mp hc).2.2.1⟩ hout
  · intro h
    obtain ⟨h1, h2, h3, h4⟩ := (hmain "strict").mp h
    refine (hmain "loose").mpr ⟨h1, h2, h3, ?_⟩
    simp only [if_true, hls, if_false] at h4 ⊢
    split_ifs at h4 ⊢ <;> linarith

/-- C26, on the unit test's reading: a range of 1.0 with the sensor's range
from 2.0 to 3.0 is no collision. -/
theorem C26_hasCollidedIR_iff_witness :
    hasCollidedIR { curr_range := 1, curr_min_range := 2, curr_max_range := 3 } "loose"
      = false :=
  (C26_hasCollidedIR_iff { curr_range := 1, curr_min_range := 2, curr_max_range := 3 }
    "loose").2.1 (by norm_num)

/-- C22: one `filterForces` update with elapsed time `dt ≠ 0` returns, stores
the time, and acts on each axis from that axis's stored filtered value `f`,
stored rate `c` and raw force `r` only: with `new = (1-α)·f + α·r` and
`pred = f + c·dt` the rate becomes `(new - f)/dt` in every case, and the
filtered value becomes `new` if `pred < FILTER_EPSILON` or
`|(new - pred)/pred| < filt_variance` and stays `f` otherwise (where `pred` is
zero and not below the threshold the quotient is by zero and the value
stays); with a positive threshold that is the specified update on all three
axes. -/
theorem C22_filterForces_per_axis (F : FilterConsts) (now : ℚ) (s : RobotInterface)
    (hdt : now - s.time_filt_last_updated ≠ 0) :
    ∃ s1, filterForces F now s = some s1 ∧ s1.time_filt_last_updated = now ∧
      AxisFollowsSpec F s.filt_variance (now - s.time_filt_last_updated)
        s.filt_force.x s.filt_change.x s.curr_wrench.force.x s1.filt_force.x s1.filt_change.x ∧
      AxisFollowsSpec F s.filt_variance (now - s.time_filt_last_updated)
        s.filt_force.y s.filt_change.y s.curr_wrench.force.y s1.filt_force.y s1.filt_change.y ∧
      AxisFollowsSpec F s.filt_variance (now - s.time_filt_last_updated)
        s.filt_force.z s.filt_change.z s.curr_wrench.force.z s1.filt_force.z s1.filt_change.z ∧
      (0 < F.FILTER_EPSILON →
        s1.filt_force =
          { x := (axisSpec F s.filt_variance (now - s.time_filt_last_updated)
                    s.filt_force.x s.filt_change.x s.curr_wrench.force.x).1,
            y := (axisSpec F s.filt_variance (now - s.time_filt_last_updated)
                    s.filt_force.y s.filt_change.y s.curr_wrench.force.y).1,
            z := (axisSpec F s.filt_variance (now - s.time_filt_last_updated)
                    s.filt_force.z s.filt_change.z s.curr_wrench.force.z).1 } ∧
        s1.filt_change =
          { x := (axisSpec F s.filt_variance (now - s.time_filt_last_updated)
                    s.filt_force.x s.filt_change.x s.curr_wrench.force.x).2,
            y := (axisSpec F s.filt_variance (now - s.time_filt_last_updated)
                    s.filt_force.y s.filt_change.y s.curr_wrench.force.y).2,
            z := (axisSpec F s.filt_variance (now - s.time_filt_last_updated)
                    s.filt_force.z s.filt_change.z s.curr_wrench.force.z).2 }) := by
  refine ⟨_, filterForces_eq F now s hdt, rfl, filterAxis_followsSpec _ _ _ _ _ _,
    filterAxis_followsSpec _ _ _ _ _ _, filterAxis_followsSpec _ _ _ _ _ _, ?_⟩
  intro hε
  simp [filterAxis_eq_of_pos _ _ _ _ _ _ hε, axisSpec]

/-- C22, on the steady filter one second after its last update: the update
returns and stores the time. -/
theorem C22_filterForces_per_axis_witness :
    ∃ s1, filterForces sampleFilter 1 steadyFilter = some s1 ∧
      s1.time_filt_last_updated = 1 := by
  obtain ⟨s1, h1, h2, _⟩ := C22_filterForces_per_axis sampleFilter 1 steadyFilter
    (by norm_num [steadyFilter])
  exact ⟨s1, h1, h2⟩

/-- C24: outlier rejection.  For an axis whose filter is steady (filtered
value `f` at least `FILTER_EPSILON`, stored rate 0) and an update after a
positive time, a raw sample `r` with `α·|r - f| / f` not below the variance
threshold leaves the filtered value of that axis exactly `f`. -/
theorem C24_outlier_rejected (F : FilterConsts) (now : ℚ) (s : RobotInterface)
    (hdt : 0 < now - s.time_filt_last_updated) :
    ∃ s1, filterForces F now s = some s1 ∧
      (F.FILTER_EPSILON ≤ s.filt_force.x → s.filt_change.x = 0 →
        ¬ (F.FORCE_ALPHA * |s.curr_wrench.force.x - s.filt_force.x| / s.filt_force.x
            < s.filt_variance) →
        s1.filt_force.x = s.filt_force.x) ∧
      (F.FILTER_EPSILON ≤ s.filt_force.y → s.filt_change.y = 0 →
        ¬ (F.FORCE_ALPHA * |s.curr_wrench.force.y - s.filt_force.y| / s.filt_force.y
            < s.filt_variance) →
        s1.filt_force.y = s.filt_force.y) ∧
      (F.FILTER_EPSILON ≤ s.filt_force.z → s.filt_change.z = 0 →
        ¬ (F.FORCE_ALPHA * |s.curr_wrench.force.z - s.filt_force.z| / s.filt_force.z
            < s.filt_variance) →
        s1.filt_force.z = s.filt_force.z) := by
  have key : ∀ (var dt f r : ℚ), F.FILTER_EPSILON ≤ f →
      ¬ (F.FORCE_ALPHA * |r - f| / f < var) → (filterAxis F var dt f 0 r).1 = f := by
    intro var dt f r hf hs
    rw [filterAxis_eq]
    have h1 : ¬ (f + 0 * dt < F.FILTER_EPSILON) := by
      rw [zero_mul, add_zero]; exact not_lt.mpr hf
    have h2 : ¬ (f + 0 * dt ≠ 0 ∧
        |((1 - F.FORCE_ALPHA) * f + F.FORCE_ALPHA * r - (f + 0 * dt)) / (f + 0 * dt)| < var) := by
      rintro ⟨_, hlt⟩
      apply hs
      have e : ((1 - F.FORCE_ALPHA) * f + F.FORCE_ALPHA * r - (f + 0 * dt)) / (f + 0 * dt)
          = F.FORCE_ALPHA * (r - f) / f := by
        rw [zero_mul, add_zero]; congr 1; ring
      rw [e] at hlt
      have hle : F.FORCE_ALPHA * |r - f| / f ≤ |F.FORCE_ALPHA * (r - f) / f| := by
        calc F.FORCE_ALPHA * |r - f| / f
            ≤ |F.FORCE_ALPHA * |r - f| / f| := le_abs_self _
          _ = |F.FORCE_ALPHA * (r - f) / f| := by
              simp only [abs_div, abs_mul, abs_abs]
      exact lt_of_le_of_lt hle hlt
    show (if _ then _ else _) = f
    rw [if_neg]
    rintro (h | h)
    · exact h1 h
    · exact h2 h
  refine ⟨_, filterForces_eq F now s (ne_of_gt hdt), ?_, ?_, ?_⟩
  · intro hf hc hs
    simp only [hc]
    exact key _ _ _ _ hf hs
  · intro hf hc hs
    simp only [hc]
    exact key _ _ _ _ hf hs
  · intro hf hc hs
    simp only [hc]
    exact key _ _ _ _ hf hs

/-- C24, on the steady filter (filtered force 1, variance 1/10) hit by a spike
of 3 on `x`: the filtered value of `x` stays 1. -/
theorem C24_outlier_rejected_witness :
    ∃ s1, filterForces sampleFilter 1 steadyFilter = some s1 ∧
      s1.filt_force.x = steadyFilter.filt_force.x := by
  obtain ⟨s1, h1, hx, _⟩ := C24_outlier_rejected sampleFilter 1 steadyFilter
    (by norm_num [steadyFilter])
  refine ⟨s1, h1, hx ?_ rfl ?_⟩
  · norm_num [sampleFilter, steadyFilter]
  · norm_num [sampleFilter, steadyFilter]

/-- C25: `detectForceInteraction` returns true exactly when on at least one of
the three axes `|cur - filt| / |filt + 0.01|` is strictly greater than
`rel_force_thres` (an infinite quotient, with `filt + 0.01 = 0` and
`cur ≠ filt`, counts as greater), where `cur` is the raw force and `filt` the
filtered force of the axis; it leaves the object, so the filter, as it was.
Where no divisor is zero this is the comparison of the quotients of the
rationals. -/
theorem C25_detectForceInteraction_iff (s : RobotInterface) :
    ((detectForceInteraction s).1 = true ↔
      ExceedsRel s.curr_wrench.force.x s.filt_force.x s.rel_force_thres ∨
      ExceedsRel s.curr_wrench.force.y s.filt_force.y s.rel_force_thres ∨
      ExceedsRel s.curr_wrench.force.z s.filt_force.z s.rel_force_thres) ∧
    (detectForceInteraction s).2 = s ∧
    ((s.filt_force.x + 1 / 100 ≠ 0 ∧ s.filt_force.y + 1 / 100 ≠ 0 ∧
        s.filt_force.z + 1 / 100 ≠ 0) →
      ((detectForceInteraction s).1 = true ↔
        |s.curr_wrench.force.x - s.filt_force.x| / |s.filt_force.x + 1 / 100|
            > s.rel_force_thres ∨
        |s.curr_wrench.force.y - s.filt_force.y| / |s.filt_force.y + 1 / 100|
            > s.rel_force_thres ∨
        |s.curr_wrench.force.z - s.filt_force.z| / |s.filt_force.z + 1 / 100|
            > s.rel_force_thres)) := by
  have h1 : (detectForceInteraction s).1 = true ↔
      ExceedsRel s.curr_wrench.force.x s.filt_force.x s.rel_force_thres ∨
      ExceedsRel s.curr_wrench.force.y s.filt_force.y s.rel_force_thres ∨
      ExceedsRel s.curr_wrench.force.z s.filt_force.z s.rel_force_thres := by
    rw [← relativeDiff_gt_iff, ← relativeDiff_gt_iff, ← relativeDiff_gt_iff]
    unfold detectForceInteraction
    split_ifs with h
    · exact ⟨fun _ => h, fun _ => rfl⟩
    · exact ⟨fun hf => (by cases hf), fun hc => absurd hc h⟩
  refine ⟨h1, ?_, ?_⟩
  · unfold detectForceInteraction
    split_ifs <;> rfl
  · rintro ⟨hx, hy, hz⟩
    have hax : ∀ cur filt thres : ℚ, filt + 1 / 100 ≠ 0 →
        (ExceedsRel cur filt thres ↔ |cur - filt| / |filt + 1 / 100| > thres) := by
      intro cur filt thres hne
      constructor
      · rintro (⟨_, h⟩ | ⟨h0, _⟩)
        · exact h
        · exact absurd h0 hne
      · intro h
        exact Or.inl ⟨hne, h⟩
    rw [h1, hax _ _ _ hx, hax _ _ _ hy, hax _ _ _ hz]

/-- C25, on the steady filter with a spike of 3 on `x` and a relative
threshold of 0: an interaction is detected and the object is unchanged. -/
theorem C25_detectForceInteraction_iff_witness :
    (detectForceInteraction steadyFilter).1 = true ∧
    (detectForceInteraction steadyFilter).2 = steadyFilter :=
  ⟨((C25_detectForceInteraction_iff steadyFilter).2.2
      (by norm_num [steadyFilter])).mpr
      (Or.inl (by norm_num [steadyFilter])),
   (C25_detectForceInteraction_iff steadyFilter).2.1⟩

/-- C27: scenario `home`.  When the action is `ACTION_HOME` and `goHome`
returns true, `InternalThreadEntry` sets the state to `WORKING`, then to
`START`, and to nothing else, so the arm ends in `START`; and `serviceCb`
returns for such a request, with `success = true`. -/
theorem C27_home_scenario (A : ActionEnv) (s : ArmCtrl) (req : DoActionRequest) :
    (s.action = A.ACTION_HOME → (ArmCtrl.goHome A (s.setState WORKING)).1 = true →
      (ArmCtrl.InternalThreadEntry A s).getState = START ∧
      (ArmCtrl.InternalThreadEntry A s).published = s.published ++ [WORKING, START]) ∧
    (req.action = A.ACTION_HOME →
      (ArmCtrl.goHome A (((s.setAction req.action).setMarkerID req.object).setState
        WORKING)).1 = true →
      0 < A.poll_fuel →
      ∃ s3, ArmCtrl.serviceCb A s req = some (true, true, s3) ∧ s3.getState = START) := by
  have hsw : ¬ (START = WORKING) := by decide
  have hthread : ∀ s0 : ArmCtrl, s0.action = A.ACTION_HOME →
      (ArmCtrl.goHome A (s0.setState WORKING)).1 = true →
      ArmCtrl.InternalThreadEntry A s0 = (ArmCtrl.goHome A (s0.setState WORKING)).2.setState
        START := by
    intro s0 ha hg
    unfold ArmCtrl.InternalThreadEntry
    simp only [ha, if_true, hg]
    rw [if_neg]
    rw [(ArmCtrl_setState_state _ START).1]
    exact hsw
  have hpub : ∀ s0 : ArmCtrl,
      ((ArmCtrl.goHome A (s0.setState WORKING)).2.setState START).published
        = s0.published ++ [WORKING, START] := by
    intro s0
    rw [(ArmCtrl_setState_state _ START).2.1]
    simp [ArmCtrl.goHome, (ArmCtrl_setState_state s0 WORKING).2.1]
  constructor
  · intro ha hg
    rw [hthread s ha hg]
    exact ⟨(ArmCtrl_setState_state _ START).1, hpub s⟩
  · intro ha hg hfuel
    obtain ⟨n, hn⟩ := Nat.exists_eq_succ_of_ne_zero (Nat.pos_iff_ne_zero.mp hfuel)
    have hact : ((s.setAction req.action).setMarkerID req.object).action = A.ACTION_HOME := by
      simpa [ArmCtrl.setAction, ArmCtrl.setMarkerID] using ha
    have hst := hthread _ hact hg
    have hstart : (ArmCtrl.InternalThreadEntry A
        ((s.setAction req.action).setMarkerID req.object)).getState = START := by
      rw [hst]; exact (ArmCtrl_setState_state _ START).1
    refine ⟨ArmCtrl.InternalThreadEntry A ((s.setAction req.action).setMarkerID req.object),
      ?_, hstart⟩
    unfold ArmCtrl.serviceCb
    simp only [hn, Nat.succ_eq_add_one]
    rw [pollLoop_of_terminal A n 0 _ (Or.inl hstart)]
    simp [hstart]

/-- C27, on a fresh arm asked to go home in the obliging environment. -/
theorem C27_home_scenario_witness :
    (ArmCtrl.InternalThreadEntry obligingActions { action := "home" }).getState = START ∧
    (∃ s3, ArmCtrl.serviceCb obligingActions {} { action := "home", object := 0 }
      = some (true, true, s3) ∧ s3.getState = START) :=
  ⟨((C27_home_scenario obligingActions { action := "home" }
      { action := "home", object := 0 }).1 rfl rfl).1,
   (C27_home_scenario obligingActions {} { action := "home", object := 0 }).2 rfl rfl
     (by decide)⟩

/-- C28: with the object changed by nobody else, the action thread never
ends in `WORKING`, and it ends in `ERROR` when `goHome` (for the action
`ACTION_HOME`), `releaseObject` (for `ACTION_RELEASE`) or `doAction` (for any
other action) returned false, and when `doAction` returned true but left the
state at `WORKING`. -/
theorem C28_thread_never_ends_working (A : ActionEnv) (s : ArmCtrl) :
    (ArmCtrl.InternalThreadEntry A s).getState ≠ WORKING ∧
    (s.action = A.ACTION_HOME → (ArmCtrl.goHome A (s.setState WORKING)).1 = false →
      (ArmCtrl.InternalThreadEntry A s).getState = ERROR) ∧
    (s.action ≠ A.ACTION_HOME → s.action = A.ACTION_RELEASE →
      A.releaseObject (s.setState WORKING) = false →
      (ArmCtrl.InternalThreadEntry A s).getState = ERROR) ∧
    (s.action ≠ A.ACTION_HOME → s.action ≠ A.ACTION_RELEASE →
      (A.doAction s.getState s.action (s.setState WORKING)).1 = false →
      (ArmCtrl.InternalThreadEntry A s).getState = ERROR) ∧
    (s.action ≠ A.ACTION_HOME → s.action ≠ A.ACTION_RELEASE →
      (A.doAction s.getState s.action (s.setState WORKING)).1 = true →
      (A.doAction s.getState s.action (s.setState WORKING)).2.getState = WORKING →
      (ArmCtrl.InternalThreadEntry A s).getState = ERROR) := by
  have hew : ¬ (ERROR = WORKING) := by decide
  have hwork : (s.setState WORKING).getState = WORKING := (ArmCtrl_setState_state s WORKING).1
  refine ⟨InternalThreadEntry_not_working A s, ?_, ?_, ?_, ?_⟩
  · intro ha hg
    have hst : (ArmCtrl.goHome A (s.setState WORKING)).2.getState = WORKING := by
      simpa [ArmCtrl.goHome] using hwork
    unfold ArmCtrl.InternalThreadEntry
    simp only [ha, if_true, hg, Bool.false_eq_true, if_false, hst]
    exact (ArmCtrl_setState_state _ ERROR).1
  · intro ha hr hg
    unfold ArmCtrl.InternalThreadEntry
    simp only [ha, if_false]
    simp only [hr, if_true, hg, Bool.false_eq_true, if_false, hwork]
    exact (ArmCtrl_setState_state _ ERROR).1
  · intro ha hr hg
    have herr := (ArmCtrl_setState_state
      (A.doAction s.getState s.action (s.setState WORKING)).2 ERROR).1
    unfold ArmCtrl.InternalThreadEntry
    simp only [ha, if_false]
    simp only [hr, if_false, hg, if_true, herr, hew]
  · intro ha hr hg hw
    unfold ArmCtrl.InternalThreadEntry
    simp only [ha, if_false]
    simp only [hr, if_false, hg, Bool.true_eq_false, hw, if_true]
    exact (ArmCtrl_setState_state _ ERROR).1

/-- C28, on a fresh arm in the failing environment: the actions `home`,
`release` and `pick` all end in `ERROR`. -/
theorem C28_thread_never_ends_working_witness :
    (ArmCtrl.InternalThreadEntry failingActions { action := "home" }).getState = ERROR ∧
    (ArmCtrl.InternalThreadEntry failingActions { action := "release" }).getState = ERROR ∧
    (ArmCtrl.InternalThreadEntry failingActions { action := "pick" }).getState = ERROR :=
  ⟨(C28_thread_never_ends_working failingActions { action := "home" }).2.1 rfl rfl,
   (C28_thread_never_ends_working failingActions { action := "release" }).2.2.1
     (by decide) rfl rfl,
   (C28_thread_never_ends_working failingActions { action := "pick" }).2.2.2.1
     (by decide) (by decide) rfl⟩

/-- C29: `serviceCb` leaves its polling loop only when the state is one of
`START`, `DONE`, `ERROR`, `PICK_UP`; the response then has `success = true`
if that state is `START`, `DONE` or `PICK_UP` and `success = false` if it is
`ERROR`; the callback returns true; and it does return when the action thread
ends in one of the four states. -/
theorem C29_serviceCb_response (A : ActionEnv) (s : ArmCtrl) (req : DoActionRequest) :
    (∀ (fuel k : Nat) (s2 s3 : ArmCtrl), ArmCtrl.pollLoop A fuel k s2 = some s3 →
      s3.getState = START ∨ s3.getState = ERROR ∨ s3.getState = DONE ∨
        s3.getState = PICK_UP) ∧
    (∀ (ret success : Bool) (s3 : ArmCtrl),
      ArmCtrl.serviceCb A s req = some (ret, success, s3) →
        ret = true ∧
        (s3.getState = START ∨ s3.getState = ERROR ∨ s3.getState = DONE ∨
          s3.getState = PICK_UP) ∧
        ((s3.getState = START ∨ s3.getState = DONE ∨ s3.getState = PICK_UP) →
          success = true) ∧
        (s3.getState = ERROR → success = false)) ∧
    (0 < A.poll_fuel →
      ((ArmCtrl.InternalThreadEntry A
          ((s.setAction req.action).setMarkerID req.object)).getState = START ∨
        (ArmCtrl.InternalThreadEntry A
          ((s.setAction req.action).setMarkerID req.object)).getState = ERROR ∨
        (ArmCtrl.InternalThreadEntry A
          ((s.setAction req.action).setMarkerID req.object)).getState = DONE ∨
        (ArmCtrl.InternalThreadEntry A
          ((s.setAction req.action).setMarkerID req.object)).getState = PICK_UP) →
      ∃ success s3, ArmCtrl.serviceCb A s req = some (true, success, s3)) := by
  have hes : ¬ (ERROR = START) := by decide
  have hed : ¬ (ERROR = DONE) := by decide
  have hep : ¬ (ERROR = PICK_UP) := by decide
  refine ⟨pollLoop_terminal A, ?_, ?_⟩
  · intro ret success s3 h
    unfold ArmCtrl.serviceCb at h
    simp only at h
    cases hp : ArmCtrl.pollLoop A A.poll_fuel 0
        (ArmCtrl.InternalThreadEntry A ((s.setAction req.action).setMarkerID req.object)) with
    | none => simp [hp] at h
    | some s4 =>
      simp only [hp, Option.some.injEq, Prod.mk.injEq] at h
      obtain ⟨h1, h2, h3⟩ := h
      subst h3
      refine ⟨h1.symm, pollLoop_terminal A _ _ _ _ hp, ?_, ?_⟩
      · intro ht
        rw [← h2, if_pos ht]
      · intro he
        rw [← h2, if_neg]
        rw [he]
        rintro (a | a | a)
        · exact hes a
        · exact hed a
        · exact hep a
  · intro hfuel hterm
    obtain ⟨n, hn⟩ := Nat.exists_eq_succ_of_ne_zero (Nat.pos_iff_ne_zero.mp hfuel)
    unfold ArmCtrl.serviceCb
    simp only [hn, Nat.succ_eq_add_one]
    rw [pollLoop_of_terminal A n 0 _ hterm]
    exact ⟨_, _, rfl⟩

/-- C29, on a fresh arm: a failing `pick` is answered with `success = false`
and an obliging one with `success = true`, the callback returning true. -/
theorem C29_serviceCb_response_witness :
    (∃ success s3, ArmCtrl.serviceCb failingActions {} { action := "pick", object := 3 }
      = some (true, success, s3)) ∧
    (∃ success s3, ArmCtrl.serviceCb obligingActions {} { action := "pick", object := 3 }
      = some (true, success, s3)) :=
  ⟨(C29_serviceCb_response failingActions {} { action := "pick", object := 3 }).2.2
      (by decide) (Or.inr (Or.inl (by
        simp [ArmCtrl.InternalThreadEntry, ArmCtrl.setAction, ArmCtrl.setMarkerID,
          failingActions, ArmCtrl.setState, RobotInterface.setState, publishState,
          setCtrlRunning_off, getState]))),
   (C29_serviceCb_response obligingActions {} { action := "pick", object := 3 }).2.2
      (by decide) (Or.inr (Or.inr (Or.inl (by
        simp [ArmCtrl.InternalThreadEntry, ArmCtrl.setAction, ArmCtrl.setMarkerID,
          obligingActions, ArmCtrl.setState, RobotInterface.setState, publishState,
          setCtrlRunning_off, getState]))))⟩

/-- Claim C23, counterexample: the zero-initialised filter with smoothing
1/2, warm-up threshold 1/100 and variance threshold 1/10 receives the raw
force 1 on every axis at the times 1, 3, 7, 15, ..., so every elapsed time is
positive.  Every update has a result, but from the second update on the
filtered value is 1/2 on every axis: the first update sets the rate from an
interval of 1, every later interval is twice the one before, the predicted
value overshoots, and the smoothed value 3/4 is rejected each time.  The
filtered values do not converge to the raw force. -/
theorem C23_doubling_intervals_do_not_converge :
    (0 < sampleFilter.FORCE_ALPHA ∧ sampleFilter.FORCE_ALPHA < 1 ∧
      0 < sampleFilter.FILTER_EPSILON ∧ 0 < freshFilter.filt_variance) ∧
    (freshFilter.filt_force.x = 0 ∧ freshFilter.filt_force.y = 0 ∧
      freshFilter.filt_force.z = 0 ∧ freshFilter.filt_change.x = 0 ∧
      freshFilter.filt_change.y = 0 ∧ freshFilter.filt_change.z = 0) ∧
    0 < doublingTimes 0 - freshFilter.time_filt_last_updated ∧
    (∀ n, 0 < doublingTimes (n + 1) - doublingTimes n) ∧
    (∀ n, ∃ s, filterSeq sampleFilter doublingTimes (fun _ => { x := 1, y := 1, z := 1 })
        freshFilter (n + 2) = some s ∧
      s.filt_force.x = 1 / 2 ∧ s.filt_force.y = 1 / 2 ∧ s.filt_force.z = 1 / 2) ∧
    ¬ ConvergesTo
        (filterSeq sampleFilter doublingTimes (fun _ => { x := 1, y := 1, z := 1 }) freshFilter)
        { x := 1, y := 1, z := 1 } := by
  refine ⟨?_, ⟨rfl, rfl, rfl, rfl, rfl, rfl⟩, ?_, ?_, ?_, ?_⟩
  · norm_num [sampleFilter, freshFilter]
  · norm_num [doublingTimes, freshFilter]
  · intro n
    have e : doublingTimes (n + 1) - doublingTimes n = 2 ^ (n + 1) := by
      simp only [doublingTimes]
      ring
    rw [e]
    positivity
  · intro n
    obtain ⟨s, hs, gx, gy, gz, _⟩ := filterSeq_doubling n
    exact ⟨s, hs, gx, gy, gz⟩
  · intro h
    obtain ⟨N, hN⟩ := h (1 / 4) (by norm_num)
    obtain ⟨s, hs, hx, _⟩ := hN (N + 2) (by omega)
    obtain ⟨s2, hs2, gx, _⟩ := filterSeq_doubling N
    rw [hs2] at hs
    cases hs
    have hx2 : |s.filt_force.x - 1| < 1 / 4 := hx
    rw [gx, abs_lt] at hx2
    linarith [hx2.1]

/-- Claim C23, amended: starting from the zero-initialised filter, with
smoothing constant strictly between 0 and 1, a positive `FILTER_EPSILON`
and a positive variance threshold, when the constant raw force `r` is given
at every update and every update comes the same nonzero time `dt` after the
one before, every update has a result and the filtered values converge to
`r` on every axis. -/
theorem C23_filter_converges_with_constant_interval (F : FilterConsts)
    (s0 : RobotInterface) (dt : ℚ) (r : Vector3)
    (h0 : 0 < F.FORCE_ALPHA) (h1 : F.FORCE_ALPHA < 1) (hε : 0 < F.FILTER_EPSILON)
    (hvar : 0 < s0.filt_variance) (hdt : dt ≠ 0)
    (hfx : s0.filt_force.x = 0) (hfy : s0.filt_force.y = 0) (hfz : s0.filt_force.z = 0)
    (hcx : s0.filt_change.x = 0) (hcy : s0.filt_change.y = 0) (hcz : s0.filt_change.z = 0) :
    (∀ n, ∃ s, filterSeq F (fun k => s0.time_filt_last_updated + ((k : ℚ) + 1) * dt)
        (fun _ => r) s0 n = some s) ∧
    ConvergesTo
      (filterSeq F (fun k => s0.time_filt_last_updated + ((k : ℚ) + 1) * dt) (fun _ => r) s0)
      r := by
  refine ⟨fun n => ?_, ?_⟩
  · obtain ⟨s, hs, _⟩ := filterSeq_axisSeq F s0 dt r hdt hfx hfy hfz hcx hcy hcz n
    exact ⟨s, hs⟩
  intro δ hδ
  obtain ⟨Nx, hNx⟩ := axisSeq_converges F s0.filt_variance dt r.x h0 h1 hε hvar hdt δ hδ
  obtain ⟨Ny, hNy⟩ := axisSeq_converges F s0.filt_variance dt r.y h0 h1 hε hvar hdt δ hδ
  obtain ⟨Nz, hNz⟩ := axisSeq_converges F s0.filt_variance dt r.z h0 h1 hε hvar hdt δ hδ
  refine ⟨max Nx (max Ny Nz), fun n hn => ?_⟩
  obtain ⟨s, hs, gx, gy, gz, _⟩ := filterSeq_axisSeq F s0 dt r hdt hfx hfy hfz hcx hcy hcz n
  have hx : Nx ≤ n := le_trans (le_max_left _ _) hn
  have hy : Ny ≤ n := le_trans (le_trans (le_max_left _ _) (le_max_right _ _)) hn
  have hz : Nz ≤ n := le_trans (le_trans (le_max_right _ _) (le_max_right _ _)) hn
  refine ⟨s, hs, ?_, ?_, ?_⟩
  · rw [gx]; exact hNx n hx
  · rw [gy]; exact hNy n hy
  · rw [gz]; exact hNz n hz

/-- Claim C23, amended, at a concrete input: the zero-initialised filter of
the counterexample with the raw force 1 on every axis and an update every
second converges to that force. -/
theorem C23_filter_converges_with_constant_interval_witness :
    (0 < sampleFilter.FORCE_ALPHA ∧ sampleFilter.FORCE_ALPHA < 1 ∧
      0 < sampleFilter.FILTER_EPSILON ∧ 0 < freshFilter.filt_variance ∧ (1 : ℚ) ≠ 0) ∧
    ConvergesTo
      (filterSeq sampleFilter (fun k => freshFilter.time_filt_last_updated + ((k : ℚ) + 1) * 1)
        (fun _ => { x := 1, y := 1, z := 1 }) freshFilter)
      { x := 1, y := 1, z := 1 } :=
  ⟨by norm_num [sampleFilter, freshFilter],
    (C23_filter_converges_with_constant_interval sampleFilter freshFilter 1
      { x := 1, y := 1, z := 1 } (by norm_num [sampleFilter]) (by norm_num [sampleFilter])
      (by norm_num [sampleFilter]) (by norm_num [freshFilter]) (by norm_num)
      rfl rfl rfl rfl rfl rfl).2⟩

/-- C31: `IRCb` stores the range message as it comes, with no validation:
afterwards `curr_range`, `curr_min_range` and `curr_max_range` are the three
numbers of the message and `ir_ok` is true, and no other member of the object
has changed.  The message with range 1, minimum 2 and maximum 3 is stored as
given although the range lies outside the limits.  In the constructed object
the three values are 0 and `ir_ok` is false. -/
theorem C31_IRCb_stores_message (K : Consts) (limb : String)
    (use_cart_ctrl is_experimental : Bool) (print_level : Int) (s : RobotInterface)
    (msg : Range) :
    s.IRCb msg = { s with curr_range := msg.range, curr_min_range := msg.min_range,
                          curr_max_range := msg.max_range, ir_ok := true } ∧
    ((s.IRCb msg).curr_range = msg.range ∧ (s.IRCb msg).curr_min_range = msg.min_range ∧
      (s.IRCb msg).curr_max_range = msg.max_range ∧ (s.IRCb msg).ir_ok = true) ∧
    ((s.IRCb { range := 1, min_range := 2, max_range := 3 }).curr_range = 1 ∧
      (s.IRCb { range := 1, min_range := 2, max_range := 3 }).curr_min_range = 2 ∧
      (s.IRCb { range := 1, min_range := 2, max_range := 3 }).curr_max_range = 3) ∧
    ((construct K limb use_cart_ctrl is_experimental print_level).curr_range = 0 ∧
      (construct K limb use_cart_ctrl is_experimental print_level).curr_min_range = 0 ∧
      (construct K limb use_cart_ctrl is_experimental print_level).curr_max_range = 0 ∧
      (construct K limb use_cart_ctrl is_experimental print_level).ir_ok = false) := by
  have hIR : ∀ m : Range, s.IRCb m =
      { s with curr_range := m.range, curr_min_range := m.min_range,
               curr_max_range := m.max_range, ir_ok := true } := by
    intro m
    unfold IRCb
    by_cases h : s.ir_ok = false
    · simp [h]
    · have ht : s.ir_ok = true := by simpa using h
      simp [ht]
  refine ⟨hIR msg, ?_, ?_, ?_⟩
  · rw [hIR]
    exact ⟨rfl, rfl, rfl, rfl⟩
  · rw [hIR]
    exact ⟨rfl, rfl, rfl⟩
  · have hsw : ¬ (START = WORKING) := by decide
    cases use_cart_ctrl <;> simp [construct, setState, publishState, hsw]

/-- C32: whatever the arguments of the constructor, and with the cartesian
controller enabled or not, the constructed object is in state `START`,
`isCtrlRunning()` is false and `getCtrlType()` is `pose`.  (The arguments
that the model does not carry are stored in members of their own and reach
none of the three.) -/
theorem C32_constructed_state (K : Consts) (limb : String)
    (use_cart_ctrl is_experimental : Bool) (print_level : Int) :
    (construct K limb use_cart_ctrl is_experimental print_level).getState = START ∧
    (construct K limb use_cart_ctrl is_experimental print_level).isCtrlRunning = false ∧
    (construct K limb use_cart_ctrl is_experimental print_level).getCtrlType = "pose" := by
  have hsw : ¬ (START = WORKING) := by decide
  cases use_cart_ctrl <;>
    simp [construct, setState, publishState, hsw, getState, isCtrlRunning, getCtrlType]

/-- C37: for a mode string that is neither `strict` nor `loose`,
`isConfigurationReached` applies no tolerance: it returns, and returns true
exactly when the cached joint state has at least 7 positions and every
desired joint name occurs among the current joint names, whatever the joint
positions are; `isPositionReached` and `isOrientationReached` return false
for such a mode. -/
theorem C37_unknown_mode_applies_no_tolerance (s : RobotInterface) (dj : JointCommand)
    (mode : String) (h1 : mode ≠ "strict") (h2 : mode ≠ "loose") :
    s.isConfigurationReached dj mode =
      some (decide (7 ≤ s.getJointStates.position.length ∧
        ∀ n ∈ dj.names, n ∈ s.getJointStates.name)) ∧
    (∀ positions : List ℚ,
      s.isConfigurationReached { dj with position := positions } mode =
        s.isConfigurationReached dj mode) ∧
    (∀ px py pz : ℚ, s.isPositionReached px py pz mode = false) ∧
    (∀ ox oy oz ow : ℚ, s.isOrientationReached ox oy oz ow mode = false) := by
  have key : ∀ d : JointCommand, s.isConfigurationReached d mode =
      some (decide (7 ≤ s.getJointStates.position.length ∧
        ∀ n ∈ d.names, n ∈ s.getJointStates.name)) := by
    intro d
    unfold isConfigurationReached
    by_cases hlen : s.getJointStates.position.length < 7
    · have hn : ¬ 7 ≤ s.getJointStates.position.length := by omega
      simp [hlen, hn]
    · have hn : 7 ≤ s.getJointStates.position.length := by omega
      simp [hlen, hn, scanDesired_unknown h1 h2]
  refine ⟨key dj, fun positions => ?_, ?_, ?_⟩
  · rw [key, key]
  · intro px py pz
    simp [isPositionReached, h1, h2]
  · intro ox oy oz ow
    simp [isOrientationReached, h1, h2]

/-- C37, on the arm whose seven joints are at zero, asked with the mode `sdf`
whether it has reached the configuration with every joint at 5: the answer
is true. -/
theorem C37_unknown_mode_applies_no_tolerance_witness :
    armAtZero.isConfigurationReached
      (setJointCommands 5 5 5 5 5 5 5 (armAtZero.setJointNames {})) "sdf" = some true := by
  rw [(C37_unknown_mode_applies_no_tolerance armAtZero
    (setJointCommands 5 5 5 5 5 5 5 (armAtZero.setJointNames {})) "sdf"
    (by decide) (by decide)).1]
  simp [armAtZero, getJointStates, setJointCommands, setJointNames, getLimb]
  decide

/-- C35: for every arm state other than `WORKING` and every goal message, the
desired pose that `ctrlMsgCb` stores is: for the type `pose` the position and
orientation of the message; for `position` the position of the message with
the current end-effector orientation; for `relative_x`, `relative_y`,
`relative_z` the current end-effector position with `increment` added on
that axis only, and the current orientation.  (It is stored before the
control mode is checked, so also when the message is then turned down.) -/
theorem C35_desired_pose_of_goal (K : Consts) (E : Env) (s : RobotInterface) (msg : GoToPose)
    (hs : s.state ≠ WORKING) :
    (msg.type = "pose" → (s.ctrlMsgCb K E msg).pose_des =
      { position := msg.position, orientation := msg.orientation }) ∧
    (msg.type = "position" → (s.ctrlMsgCb K E msg).pose_des =
      { position := msg.position, orientation := s.getOri }) ∧
    (msg.type = "relative_x" → (s.ctrlMsgCb K E msg).pose_des =
      { position := { x := s.getPos.x + msg.increment, y := s.getPos.y, z := s.getPos.z },
        orientation := s.getOri }) ∧
    (msg.type = "relative_y" → (s.ctrlMsgCb K E msg).pose_des =
      { position := { x := s.getPos.x, y := s.getPos.y + msg.increment, z := s.getPos.z },
        orientation := s.getOri }) ∧
    (msg.type = "relative_z" → (s.ctrlMsgCb K E msg).pose_des =
      { position := { x := s.getPos.x, y := s.getPos.y, z := s.getPos.z + msg.increment },
        orientation := s.getOri }) := by
  refine ⟨fun h => ?_, fun h => ?_, fun h => ?_, fun h => ?_, fun h => ?_⟩
  · rw [ctrlMsgCb_pose_des K E s msg hs (by tauto)]
    simp [setDesiredPose, h]
  · rw [ctrlMsgCb_pose_des K E s msg hs (by tauto)]
    simp [setDesiredPose, h, setCtrlRunning, setCtrlRunning_off, getOri]
  · rw [ctrlMsgCb_pose_des K E s msg hs (by tauto)]
    simp [setDesiredPose, h, setCtrlRunning, setCtrlRunning_off, getOri, getPos]
  · rw [ctrlMsgCb_pose_des K E s msg hs (by tauto)]
    simp [setDesiredPose, h, setCtrlRunning, setCtrlRunning_off, getOri, getPos]
  · rw [ctrlMsgCb_pose_des K E s msg hs (by tauto)]
    simp [setDesiredPose, h, setCtrlRunning, setCtrlRunning_off, getOri, getPos]

/-- C35, on the arm at the origin with the identity orientation: a message of
type `relative_z` with increment 1/10 gives the desired position
`(0, 0, 1/10)` with the identity orientation, whatever position and
orientation the message carries. -/
theorem C35_desired_pose_of_goal_witness :
    (armAtZero.ctrlMsgCb sampleConsts solvingEnv
      { type := "relative_z", increment := 1 / 10, position := { x := 7 },
        orientation := { x := 1 }, ctrl_mode := 1 }).pose_des =
      { position := { x := 0, y := 0, z := 0 + 1 / 10 }, orientation := { w := 1 } } :=
  (C35_desired_pose_of_goal sampleConsts solvingEnv armAtZero
    { type := "relative_z", increment := 1 / 10, position := { x := 7 },
      orientation := { x := 1 }, ctrl_mode := 1 } (by decide)).2.2.2.2 rfl

/-- C38: `KILLED` is not absorbing for control messages.  In every state
other than `WORKING` (so in `KILLED`, `STOPPED` and `ERROR`) `ctrlMsgCb`
processes the message: a `stop` message sets the state to `CTRL_DONE` with
the session off, and a goal message whose control mode is accepted and whose
particle is set up and started sets `is_ctrl_running` and the state
`CTRL_RUNNING`. -/
theorem C38_killed_is_not_absorbing (K : Consts) (E : Env) (s : RobotInterface)
    (msg : GoToPose) (hs : s.state ≠ WORKING) :
    (msg.type = "stop" →
      (s.ctrlMsgCb K E msg).state = CTRL_DONE ∧
      (s.ctrlMsgCb K E msg).is_ctrl_running = false) ∧
    ((msg.type = "pose" ∨ msg.type = "position" ∨ msg.type = "relative_x" ∨
        msg.type = "relative_y" ∨ msg.type = "relative_z") →
      (msg.ctrl_mode = K.POSITION_MODE ∨ (s.is_experimental = true ∧
        (msg.ctrl_mode = K.VELOCITY_MODE ∨ msg.ctrl_mode = K.RAW_POSITION_MODE))) →
      (E.particle_set && E.particle_started) = true →
      (s.ctrlMsgCb K E msg).is_ctrl_running = true ∧
      (s.ctrlMsgCb K E msg).state = CTRL_RUNNING) := by
  have hdw : ¬ (CTRL_DONE = WORKING) := by decide
  refine ⟨fun hstop => ?_, fun hg hm hp => ?_⟩
  · simp [ctrlMsgCb, getState, hs, hstop, setCtrlRunning, setCtrlRunning_off, setState,
      publishState, hdw]
  · obtain ⟨s2, h2⟩ := ctrlMsgCb_accepted K E s msg hs hg hm
    rw [h2]
    exact (startSession_running K E s2 msg).2.1 hp

/-- C38, on arms in the states `KILLED`, `STOPPED` and `ERROR`: a `stop`
message takes the killed arm to `CTRL_DONE`, and a position-mode goal message
with a particle that starts takes each of the three to `CTRL_RUNNING` with
the session on. -/
theorem C38_killed_is_not_absorbing_witness :
    (({ state := KILLED } : RobotInterface).ctrlMsgCb sampleConsts solvingEnv
      { type := "stop" }).state = CTRL_DONE ∧
    ((({ state := KILLED } : RobotInterface).ctrlMsgCb sampleConsts solvingEnv
      { type := "pose", ctrl_mode := 1 }).is_ctrl_running = true ∧
     (({ state := KILLED } : RobotInterface).ctrlMsgCb sampleConsts solvingEnv
      { type := "pose", ctrl_mode := 1 }).state = CTRL_RUNNING) ∧
    ((({ state := STOPPED } : RobotInterface).ctrlMsgCb sampleConsts solvingEnv
      { type := "pose", ctrl_mode := 1 }).is_ctrl_running = true ∧
     (({ state := STOPPED } : RobotInterface).ctrlMsgCb sampleConsts solvingEnv
      { type := "pose", ctrl_mode := 1 }).state = CTRL_RUNNING) ∧
    ((({ state := ERROR } : RobotInterface).ctrlMsgCb sampleConsts solvingEnv
      { type := "pose", ctrl_mode := 1 }).is_ctrl_running = true ∧
     (({ state := ERROR } : RobotInterface).ctrlMsgCb sampleConsts solvingEnv
      { type := "pose", ctrl_mode := 1 }).state = CTRL_RUNNING) :=
  ⟨((C38_killed_is_not_absorbing sampleConsts solvingEnv { state := KILLED }
      { type := "stop" } (by decide)).1 rfl).1,
   (C38_killed_is_not_absorbing sampleConsts solvingEnv { state := KILLED }
      { type := "pose", ctrl_mode := 1 } (by decide)).2 (Or.inl rfl) (Or.inl rfl) rfl,
   (C38_killed_is_not_absorbing sampleConsts solvingEnv { state := STOPPED }
      { type := "pose", ctrl_mode := 1 } (by decide)).2 (Or.inl rfl) (Or.inl rfl) rfl,
   (C38_killed_is_not_absorbing sampleConsts solvingEnv { state := ERROR }
      { type := "pose", ctrl_mode := 1 } (by decide)).2 (Or.inl rfl) (Or.inl rfl) rfl⟩

/-- C39: the orientation interpolation of the control tick does not divide by
zero and does not extrapolate.  With elapsed time at least 0 and
`ARM_ROT_SPEED` above 0, the divisor of the rotation time is not zero, and
the pose the tick sends takes its orientation from `slerp` only when the elapsed time is below the rotation time, and then the
rotation time is positive and the fraction `time_elap / traj_time` lies in
`[0, 1)`; otherwise, so when the rotation time has elapsed or the angle
between start and desired orientation is 0, the orientation is the desired
one unchanged.  The position is the particle's point either way. -/
theorem C39_slerp_fraction_in_range (K : Consts) (E : Env) (s : RobotInterface)
    (part : LinearPointParticle) (hrot : 0 < K.ARM_ROT_SPEED)
    (helap : 0 ≤ E.now - s.time_start) :
    K.ARM_ROT_SPEED ≠ 0 ∧
    (E.now - s.time_start <
        E.angleShortestPath s.pose_start.orientation s.pose_des.orientation / K.ARM_ROT_SPEED →
      0 < E.angleShortestPath s.pose_start.orientation s.pose_des.orientation
            / K.ARM_ROT_SPEED ∧
      0 ≤ (E.now - s.time_start) /
        (E.angleShortestPath s.pose_start.orientation s.pose_des.orientation
          / K.ARM_ROT_SPEED) ∧
      (E.now - s.time_start) /
        (E.angleShortestPath s.pose_start.orientation s.pose_des.orientation
          / K.ARM_ROT_SPEED) < 1 ∧
      (tickPose K E s part).orientation =
        E.slerp s.pose_start.orientation s.pose_des.orientation
          ((E.now - s.time_start) /
            (E.angleShortestPath s.pose_start.orientation s.pose_des.orientation
              / K.ARM_ROT_SPEED))) ∧
    (¬ (E.now - s.time_start <
        E.angleShortestPath s.pose_start.orientation s.pose_des.orientation
          / K.ARM_ROT_SPEED) →
      (tickPose K E s part).orientation = s.pose_des.orientation) ∧
    (E.angleShortestPath s.pose_start.orientation s.pose_des.orientation = 0 →
      (tickPose K E s part).orientation = s.pose_des.orientation) ∧
    (tickPose K E s part).position = part.curr_pt := by
  refine ⟨ne_of_gt hrot, fun hlt => ?_, fun hge => ?_, fun h0 => ?_, ?_⟩
  · have hpos : 0 < E.angleShortestPath s.pose_start.orientation s.pose_des.orientation
        / K.ARM_ROT_SPEED := lt_of_le_of_lt helap hlt
    refine ⟨hpos, div_nonneg helap (le_of_lt hpos), (div_lt_one hpos).mpr hlt, ?_⟩
    simp [tickPose, hlt]
  · simp [tickPose, hge]
  · have hge : ¬ (E.now - s.time_start <
        E.angleShortestPath s.pose_start.orientation s.pose_des.orientation
          / K.ARM_ROT_SPEED) := by
      rw [h0, zero_div]
      exact not_lt.mpr helap
    simp [tickPose, hge]
  · unfold tickPose
    simp only
    split_ifs <;> rfl

/-- C39, one second into a rotation of angle 1 at the speed 1/2: the rotation
time is 2 and `slerp` is asked for the fraction 1/2. -/
theorem C39_slerp_fraction_in_range_witness :
    (tickPose sampleConsts turningEnv armAtGoal {}).orientation = { w := 1 / 2 } := by
  have h := ((C39_slerp_fraction_in_range sampleConsts turningEnv armAtGoal {}
    (by norm_num [sampleConsts]) (by norm_num [turningEnv, armAtGoal])).2.1
    (by norm_num [sampleConsts, turningEnv, armAtGoal])).2.2.2
  rw [h]
  norm_num [sampleConsts, turningEnv, armAtGoal]

/-- C40, at the failing input: `relativeDiff(a, b)` divides by
`abs(b + 0.01)`, which is zero for the baseline `b = -0.01`.  There
`relativeDiff(0, -0.01)` is infinite and `relativeDiff(-0.01, -0.01)` is not
a number (and not 0, although `a = b`), so that `detectForceInteraction`
reports an interaction for a raw force 0.01 away from the baseline however
large the threshold.  For every other baseline the result is the number
`|a - b| / |b + 0.01|`, not negative, and 0 exactly when `a = b`. -/
theorem C40_relativeDiff_divides_by_zero :
    relativeDiff 0 (-1 / 100) = AbsQuot.inf ∧
    relativeDiff (-1 / 100) (-1 / 100) = AbsQuot.nan ∧
    (detectForceInteraction baselineAtPole).1 = true ∧
    (∀ a b : ℚ, b ≠ -1 / 100 →
      relativeDiff a b = AbsQuot.num (|a - b| / |b + 1 / 100|) ∧
      0 ≤ |a - b| / |b + 1 / 100| ∧
      (|a - b| / |b + 1 / 100| = 0 ↔ a = b)) := by
  refine ⟨?_, ?_, ?_, ?_⟩
  · norm_num [relativeDiff, absQuot]
  · norm_num [relativeDiff, absQuot]
  · norm_num [detectForceInteraction, baselineAtPole, relativeDiff, absQuot, absQuotGt]
  · intro a b hb
    have hne : b + 1 / 100 ≠ 0 := by
      intro h
      apply hb
      linarith
    have habs : |b + 1 / 100| ≠ 0 := abs_ne_zero.mpr hne
    refine ⟨?_, div_nonneg (abs_nonneg _) (abs_nonneg _), ?_⟩
    · simp only [relativeDiff, absQuot, habs, if_false]
      rw [abs_div, abs_abs]
    · rw [div_eq_zero_iff]
      constructor
      · rintro (h | h)
        · exact sub_eq_zero.mp (abs_eq_zero.mp h)
        · exact absurd h habs
      · intro h
        exact Or.inl (abs_eq_zero.mpr (sub_eq_zero.mpr h))

/-- C33: for every action name `a` and handler `f`, after `insertAction(a, f)`
succeeded `callAction(a)` is the call of `f` on the object, with the result
of `f`; the insertion succeeds when `a` is not a key of the database; and for
every name that is not a key `callAction` returns false and leaves the
object, with its database, as it was, so that no handler ran and no entry was
made. -/
theorem C33_callAction_invokes_registered_handler
    (run : f_action → ArmCtrl → Bool × ArmCtrl) (s : ArmCtrl) (a : String) (f : f_action) :
    ((s.insertAction a f).1 = true →
      ArmCtrl.callAction run (s.insertAction a f).2 a = run f (s.insertAction a f).2) ∧
    ((∀ p ∈ s.action_db, p.1 ≠ a) →
      (s.insertAction a f).1 = true ∧
      (s.insertAction a f).2.action_db = s.action_db ++ [(a, f)]) ∧
    ((∀ p ∈ s.action_db, p.1 ≠ a) → ArmCtrl.callAction run s a = (false, s)) := by
  have hnone : (∀ p ∈ s.action_db, p.1 ≠ a) → s.action_db.lookup a = none := by
    intro h
    rw [List.lookup_eq_none_iff]
    intro p hp
    simp only [bne_iff_ne, ne_eq]
    exact fun e => h p hp e.symm
  refine ⟨fun hins => ?_, fun h => ?_, fun h => ?_⟩
  · by_cases hin : s.isActionInDB a = true
    · simp [ArmCtrl.insertAction, hin] at hins
    · have hl : s.action_db.lookup a = none := by
        cases hlk : s.action_db.lookup a with
        | none => rfl
        | some f0 =>
          exfalso
          apply hin
          simp [ArmCtrl.isActionInDB, hlk]
      simp [ArmCtrl.insertAction, hin, ArmCtrl.callAction, List.lookup_append, hl]
  · simp [ArmCtrl.insertAction, ArmCtrl.isActionInDB, hnone h]
  · simp [ArmCtrl.callAction, hnone h]

/-- C34: `areObjectsInDB` returns exactly the requested ids that are keys of
the object database, in the order of the request, and the default
`chooseObjectID` returns the first element of every list that is not empty.
For the request `[5, 9]` with only 9 in the database the candidates are `[9]`
and the chosen object is 9. -/
theorem C34_default_object_selection (s : ArmCtrl) (objs : List Int) :
    (∀ id : Int, id ∈ s.areObjectsInDB objs ↔ id ∈ objs ∧ ∃ p ∈ s.object_db, p.1 = id) ∧
    List.Sublist (s.areObjectsInDB objs) objs ∧
    (∀ (x : Int) (xs : List Int), s.chooseObjectID (x :: xs) = some x) ∧
    (({ object_db := [(9, "top")] } : ArmCtrl).areObjectsInDB [5, 9] = [9] ∧
      ({ object_db := [(9, "top")] } : ArmCtrl).chooseObjectID
        (({ object_db := [(9, "top")] } : ArmCtrl).areObjectsInDB [5, 9]) = some 9) := by
  refine ⟨fun id => ?_, ?_, fun x xs => by simp [ArmCtrl.chooseObjectID], ?_, ?_⟩
  · simp only [ArmCtrl.areObjectsInDB, List.mem_filter, ArmCtrl.isObjectInDB,
      List.lookup_isSome_iff, beq_iff_eq]
    constructor
    · rintro ⟨h1, p, hp, he⟩
      exact ⟨h1, p, hp, he.symm⟩
    · rintro ⟨h1, p, hp, he⟩
      exact ⟨h1, p, hp, he.symm⟩
  · exact List.filter_sublist _
  · decide
  · decide

/-- C36, at the failing input: in `moveArm` the tests that set the finish flag
for the directions `down` and `up` compare `px`, which is `start.x` there,
with `final.z`; the interpolated height `pz` is not looked at.  So for `up`
(`down`) the flag is set exactly when `start.x` is above (below) `final.z`,
whatever the elapsed time, while for the other four directions it is set
when the interpolated coordinate of the axis of motion has passed the final
one; once the flag is set the point is the final point.  On an arm that
stays at the origin, asked to move 0.15 at the speed 0.1 with one iteration a
second, `forward` sends `x` = 0.1, 0.2 and then the final point 0.15, while
`up` sends `z` = 0.1, 0.2, 0.3, 0.4 and never the final point; started at
`x = 1` the flag is set in the first iteration, at the height 0.1.  An
unknown direction returns false with no point sent. -/
theorem C36_moveArm_vertical_finish_tests_x :
    (∀ (V t : ℚ) (start final : Point),
      ArmCtrl.moveArmPoint V "up" start final false t =
        (decide (start.x > final.z), { x := start.x, y := start.y, z := start.z + V * t }) ∧
      ArmCtrl.moveArmPoint V "down" start final false t =
        (decide (start.x < final.z), { x := start.x, y := start.y, z := start.z - V * t }) ∧
      ArmCtrl.moveArmPoint V "forward" start final false t =
        (decide (start.x + V * t > final.x),
          { x := start.x + V * t, y := start.y, z := start.z }) ∧
      ArmCtrl.moveArmPoint V "backward" start final false t =
        (decide (start.x - V * t < final.x),
          { x := start.x - V * t, y := start.y, z := start.z }) ∧
      ArmCtrl.moveArmPoint V "left" start final false t =
        (decide (start.y + V * t > final.y),
          { x := start.x, y := start.y + V * t, z := start.z }) ∧
      ArmCtrl.moveArmPoint V "right" start final false t =
        (decide (start.y - V * t < final.y),
          { x := start.x, y := start.y - V * t, z := start.z }) ∧
      ∀ dir : String, ArmCtrl.moveArmPoint V dir start final true t = (true, final)) ∧
    ArmCtrl.moveArm stalledArmEnv {} "forward" (3 / 20) "loose" =
      some (true, [{ x := 1 / 10 }, { x := 1 / 5 }, { x := 3 / 20 }, { x := 3 / 20 }]) ∧
    ArmCtrl.moveArm stalledArmEnv {} "up" (3 / 20) "loose" =
      some (true, [{ z := 1 / 10 }, { z := 1 / 5 }, { z := 3 / 10 }, { z := 2 / 5 }]) ∧
    ArmCtrl.moveArm stalledArmEnv { curr_pos := { x := 1 } } "up" (3 / 20) "loose" =
      some (true, [{ x := 1, z := 1 / 10 }, { x := 1, z := 3 / 20 }, { x := 1, z := 3 / 20 },
        { x := 1, z := 3 / 20 }]) ∧
    (∀ (M : MoveEnv) (s : ArmCtrl) (dir : String) (dist : ℚ) (mode : String),
      dir ≠ "backward" → dir ≠ "forward" → dir ≠ "right" → dir ≠ "left" → dir ≠ "down" →
      dir ≠ "up" → ArmCtrl.moveArm M s dir dist mode = some (false, [])) := by
  refine ⟨fun V t start final => ⟨?_, ?_, ?_, ?_, ?_, ?_, ?_⟩, ?_, ?_, ?_, ?_⟩
  · simp [ArmCtrl.moveArmPoint]
  · simp [ArmCtrl.moveArmPoint, sub_eq_add_neg]
  · simp [ArmCtrl.moveArmPoint]
  · simp [ArmCtrl.moveArmPoint, sub_eq_add_neg]
  · simp [ArmCtrl.moveArmPoint]
  · simp [ArmCtrl.moveArmPoint, sub_eq_add_neg]
  · intro dir
    simp [ArmCtrl.moveArmPoint]
  · simp [ArmCtrl.moveArm, ArmCtrl.moveArm_loop, ArmCtrl.moveArmPoint, stalledArmEnv,
      getPos, getOri]
    norm_num [abs_le]
  · simp [ArmCtrl.moveArm, ArmCtrl.moveArm_loop, ArmCtrl.moveArmPoint, stalledArmEnv,
      getPos, getOri]
    norm_num [abs_le]
  · simp [ArmCtrl.moveArm, ArmCtrl.moveArm_loop, ArmCtrl.moveArmPoint, stalledArmEnv,
      getPos, getOri]
    norm_num [abs_le]
  · intro M s dir dist mode h1 h2 h3 h4 h5 h6
    simp [ArmCtrl.moveArm, h1, h2, h3, h4, h5, h6]

/-- C30, at the failing input: `computeIK` keeps its bound `thresh_z` in a
`float`, so the bound is `z + 0.01` rounded to 24 bits and the search is not
limited to 0.01 above the requested height.  For the height 32768, where the
floats are `2^-8` apart, the bound is 32768.01171875: against a solver that
always succeeds with an invalid solution and a clock that stands still,
`computeIK` makes 12 calls, the twelfth 0.011 above the requested height,
before it returns false with an empty joint vector.  For the height 0 the
bound lies below 0.01 and it makes 10 calls.  For every requested height
whose bound is below 32768 in size the claim's limits hold: with ROS running,
the state neither `KILLED` nor `STOPPED` and every call successful and
invalid, `computeIK` (followed for at least 11 iterations) returns false with
an empty joint vector after `n` calls, `1 ≤ n ≤ 11`, each call 0.001 above the
one before and none more than 0.01 above the requested height, and `n` is 10
or 11 when the clock never passes 0.05 s. -/
theorem C30_float_bound_breaks_search_limit :
    (computeIK invalidSolutionEnv {} { position := { z := 32768 } } =
        some (false, [],
          { ({} : RobotInterface) with
            ik_requests := ({} : RobotInterface).ik_requests ++
              (List.range 12).map (raisedPose { position := { z := 32768 } }) }) ∧
      ((List.range 12).map (raisedPose { position := { z := 32768 } }))[11]? =
        some { position := { z := 32768 + 11 / 1000 } } ∧
      ¬ ((32768 : ℚ) + 11 / 1000 ≤ 32768 + 1 / 100)) ∧
    computeIK invalidSolutionEnv {} {} =
      some (false, [],
        { ({} : RobotInterface) with
          ik_requests := ({} : RobotInterface).ik_requests ++
            (List.range 10).map (raisedPose {}) }) ∧
    (∀ (E : Env) (s : RobotInterface) (p : Pose),
      E.ros_ok = true → s.state ≠ KILLED → s.state ≠ STOPPED → 11 ≤ E.ik_fuel →
      (∀ (k : Nat) (pose : Pose) (seed : JointState),
        (E.perform_ik k pose seed).result = true ∧
        (E.perform_ik k pose seed).valid = false) →
      |p.position.z + 1 / 100| < 32768 →
      ∃ n, 1 ≤ n ∧ n ≤ 11 ∧
        computeIK E s p = some (false, [],
          { s with ik_requests := s.ik_requests ++ (List.range n).map (raisedPose p) }) ∧
        (∀ q ∈ (List.range n).map (raisedPose p), q.position.z ≤ p.position.z + 1 / 100) ∧
        (∀ i, i < n → ((List.range n).map (raisedPose p))[i]? =
          some { p with position := { p.position with z := p.position.z + i / 1000 } }) ∧
        ((∀ i, E.elapsed i ≤ 5 / 100) → n = 10 ∨ n = 11)) := by
  have hokE : ok invalidSolutionEnv {} = true := by
    simp [ok, invalidSolutionEnv, getState]
  have hinvE : ∀ (k : Nat) (pose : Pose) (seed : JointState),
      (invalidSolutionEnv.perform_ik k pose seed).result = true ∧
      (invalidSolutionEnv.perform_ik k pose seed).valid = false := fun _ _ _ => ⟨rfl, rfl⟩
  have hclock : ∀ i, invalidSolutionEnv.elapsed i ≤ 5 / 100 := fun _ => by
    norm_num [invalidSolutionEnv]
  refine ⟨⟨?_, ?_, by norm_num⟩, ?_, ?_⟩
  · obtain ⟨n, _, _, h3, h4⟩ :=
      computeIK_invalid invalidSolutionEnv {} { position := { z := 32768 } } (32768 + 3 / 256) 12
        toFloat_high hokE hinvE (by omega) (by simp [invalidSolutionEnv])
        (fun j hj => by
          have : (j : ℚ) ≤ 11 := by exact_mod_cast (by omega : j ≤ 11)
          show (32768 : ℚ) + (j : ℚ) / 1000 ≤ 32768 + 3 / 256
          linarith)
        (by
          show (32768 : ℚ) + ((12 : ℕ) : ℚ) / 1000 > 32768 + 3 / 256
          norm_num)
    rw [h4 hclock] at h3
    exact h3
  · simp [raisedPose]
  · obtain ⟨n, _, _, h3, h4⟩ :=
      computeIK_invalid invalidSolutionEnv {} {} (5368709 / 536870912) 10
        toFloat_hundredth hokE hinvE (by omega) (by simp [invalidSolutionEnv])
        (fun j hj => by
          have : (j : ℚ) ≤ 9 := by exact_mod_cast (by omega : j ≤ 9)
          show (0 : ℚ) + (j : ℚ) / 1000 ≤ 5368709 / 536870912
          linarith)
        (by
          show (0 : ℚ) + ((10 : ℕ) : ℚ) / 1000 > 5368709 / 536870912
          norm_num)
    rw [h4 hclock] at h3
    exact h3
  · intro E s p hros hk hs hfuel hinv hz
    have hok : ok E s = true := by simp [ok, hros, getState, hk, hs]
    obtain ⟨n, hn1, hn2, hn3, hn4⟩ := computeIK_invalid_in_range E s p hok hinv hfuel hz
    refine ⟨n, hn1, hn2, hn3, ?_, ?_, hn4⟩
    · intro q hq
      obtain ⟨i, hi, rfl⟩ := List.mem_map.mp hq
      have hi10 : i ≤ 10 := by have := List.mem_range.mp hi; omega
      simp only [raisedPose]
      have : (i : ℚ) ≤ 10 := by exact_mod_cast hi10
      linarith
    · intro i hi
      simp [hi, raisedPose]

end HRC
